import Mathlib

/-!
# Network mapping validation of the oVirt provider

A shallow embedding of `pkg/providers/ovirt/validation/validators/network-mapping-validator.go`
and of `pkg/providers/ovirt/validation/vm-import-validation.go`, with theorems about them.

Conventions of the embedding.

* A Go `*string` is an `Option StrPtr`: `none` is the nil pointer, and a pointer carries its
  address next to the string it points to, because two of the Go maps are keyed by structs that
  hold pointers and Go compares such keys by address.
* A Go `(value, bool)` result is a pair.
* A run that dereferences nil or fails a type assertion panics; a function that can panic returns
  an `Option`, and `none` is the panic.
* A Go map is an association list in insertion order.  Go iterates a map in an unspecified order,
  so the order of the failures that come out of a map iteration is one of the possible orders; the
  theorems speak of counts and membership only.  Where the order of an iteration decides more
  than the order of the failures (the type kept for a target in `requiredTargetsSet`), the run is
  taken in every order of the keys (`ValidateNetworkMappingIn`).
-/

set_option autoImplicit false

namespace VmImport

/-! ## Data model -/

/-- A non-nil Go `*string`: the address of the cell and the string stored there. -/
structure StrPtr where
  addr : Nat
  val : String
deriving DecidableEq, Repr

/-- The type `v2vv1.Source`: both fields are `*string`. -/
structure Source where
  ID : Option StrPtr
  Name : Option StrPtr
deriving DecidableEq, Repr

/-- The type `v2vv1.ObjectIdentifier`: `Name string`, `Namespace *string`. -/
structure ObjectIdentifier where
  Name : String
  Namespace : Option StrPtr
deriving DecidableEq, Repr

/-- The type `v2vv1.NetworkResourceMappingItem`. -/
structure NetworkResourceMappingItem where
  Source : Source
  Target : ObjectIdentifier
  Type_ : Option StrPtr
deriving DecidableEq, Repr

/-- The type `ovirtsdk.Network`, reduced to the attributes the validator reads. -/
structure Network where
  id : Option String
  name : Option String
deriving DecidableEq, Repr

/-- The type `ovirtsdk.VnicProfile`, reduced to the attributes the validator reads.
`passThrough` is the profile's hardware-passthrough attribute. -/
structure VnicProfile where
  id : Option String
  name : Option String
  network : Option Network
  passThrough : Bool
deriving DecidableEq, Repr

/-- The type `ovirtsdk.Nic`, reduced to its attached profile.  The list `nics` holds no nil
entry. -/
structure Nic where
  vnicProfile : Option VnicProfile
deriving DecidableEq, Repr

/-- Accessor `(*VnicProfile).Id`: the zero string and `false` when the attribute is unset. -/
def VnicProfile.Id (p : VnicProfile) : String × Bool :=
  match p.id with
  | some s => (s, true)
  | none => ("", false)

/-- Accessor `(*VnicProfile).Name`. -/
def VnicProfile.Name (p : VnicProfile) : String × Bool :=
  match p.name with
  | some s => (s, true)
  | none => ("", false)

/-- Accessor `(*Network).Name`. -/
def Network.Name (n : Network) : String × Bool :=
  match n.name with
  | some s => (s, true)
  | none => ("", false)

/-- Modelled from the spec: the declaration of `validators.CheckID` and of its constants is
missing; the spec calls it a closed enumeration, and the constructors are the constants the
source names.  `unset` is the zero value, the `ID` of `ValidationFailure{}`. -/
inductive CheckID where
  | unset
  | NetworkMappingID | NetworkSourceDuplicateID | NetworkMultiplePodTargetsID
  | NetworkTargetID | NetworkTypeID | NetworkConfig
  | NicInterfaceCheckID | NicOnBootID | NicPluggedID | NicVNicPassThroughID
  | NicVNicPortMirroringID | NicVNicCustomPropertiesID | NicVNicNetworkFilterID | NicVNicQosID
  | DiskAttachmentInterfaceID | DiskAttachmentLogicalNameID | DiskAttachmentPassDiscardID
  | DiskAttachmentUsesScsiReservationID | DiskInterfaceID | DiskLogicalNameID
  | DiskUsesScsiReservationID | DiskBackupID | DiskLunStorageID | DiskPropagateErrorsID
  | DiskWipeAfterDeleteID | DiskStatusID | DiskStoragaTypeID | DiskSgioID
  | VMBiosBootMenuID | VMBiosTypeID | VMBiosTypeQ35SecureBootID | VMCpuArchitectureID
  | VMCpuTuneID | VMCpuSharesID | VMCustomPropertiesID | VMDisplayTypeID
  | VMHasIllegalImagesID | VMHighAvailabilityPriorityID | VMIoThreadsID
  | VMMemoryPolicyBallooningID | VMMemoryPolicyOvercommitPercentID
  | VMMemoryPolicyGuaranteedID | VMMigrationID | VMMigrationDowntimeID | VMNumaTuneModeID
  | VMOriginID | VMRngDeviceSourceID | VMSoundcardEnabledID | VMStartPausedID
  | VMStorageErrorResumeBehaviourID | VMTunnelMigrationID | VMUsbID | VMGraphicConsolesID
  | VMHostDevicesID | VMReportedDevicesID | VMQuotaID | VMWatchdogsID | VMCdromsID
  | VMFloppiesID
deriving DecidableEq, Repr

/-- Modelled from the spec: the declaration of `validators.ValidationFailure` is missing; the
spec gives it as the pair of a CheckID and a message. -/
structure ValidationFailure where
  ID : CheckID
  Message : String
deriving DecidableEq, Repr

/-- The zero value `ValidationFailure{}`. -/
def ValidationFailure.zero : ValidationFailure := ⟨CheckID.unset, ""⟩

/-- A value held by the `map[string]interface{}` that `json.Unmarshal` fills. -/
inductive JsonValue where
  | null
  | bool (b : Bool)
  | num (n : Int)
  | str (s : String)
  | arr
  | obj
deriving DecidableEq, Repr

/-- The type `netv1.NetworkAttachmentDefinition`, reduced to `Spec.Config` as `json.Unmarshal`
reads it into a `map[string]interface{}`: the error text when the blob does not parse, the keys
and values when it does. -/
structure NetworkAttachmentDefinition where
  Config : Except String (List (String × JsonValue))

/-- The type `NetworkMappingValidator`: its provider, the interface whose only method is
`Find(name, namespace)`; the error is kept as its text. -/
structure NetworkMappingValidator where
  Find : String → String → Except String NetworkAttachmentDefinition

/-! ## Helpers of the repository that the validator calls -/

/-- Modelled from the spec: `outils.GetNetworkMappingName` is missing; the composite source key
has the form network-name/vnic-profile-name. -/
def GetNetworkMappingName (networkName vnicProfileName : String) : String :=
  networkName ++ "/" ++ vnicProfileName

/-- Modelled from the spec: `outils.IsSRIOV` is missing; it reads the profile's boolean
"uses specialized hardware passthrough" attribute. -/
def IsSRIOV (p : VnicProfile) : Bool := p.passThrough

/-- Modelled from the spec: `utils.ToLoggableID` is missing; the identifier is preferred over
the name when both are available. -/
def ToLoggableID (id name : Option StrPtr) : String :=
  match id, name with
  | some i, _ => i.val
  | none, some n => n.val
  | none, none => ""

/-- Modelled from the spec: `utils.ToLoggableResourceName` is missing and the spec gives no
format for it beyond a message that references the resource name; taken as namespace/name when
the namespace is given and as the name alone otherwise. -/
def ToLoggableResourceName (name : String) (ns : Option String) : String :=
  match ns with
  | some n => n ++ "/" ++ name
  | none => name

/-- A Go `map[string]NetworkResourceMappingItem`. -/
abbrev ItemMap := List (String × NetworkResourceMappingItem)

/-- Index expression `m[k]` with the found flag. -/
def ItemMap.get (m : ItemMap) (k : String) : Option NetworkResourceMappingItem :=
  match m with
  | [] => none
  | (k', v) :: rest => if k' = k then some v else ItemMap.get rest k

/-- Adds `k` unless the key is already there. -/
def ItemMap.insertNew (m : ItemMap) (k : String) (v : NetworkResourceMappingItem) : ItemMap :=
  match ItemMap.get m k with
  | some _ => m
  | none => m ++ [(k, v)]

/-- One step of the indexing loop over the mapping list. -/
def indexStep (acc : ItemMap × ItemMap) (item : NetworkResourceMappingItem) : ItemMap × ItemMap :=
  let byID := match item.Source.ID with
    | some id => ItemMap.insertNew acc.1 id.val item
    | none => acc.1
  let byName := match item.Source.Name with
    | some n => ItemMap.insertNew acc.2 n.val item
    | none => acc.2
  (byID, byName)

/-- Modelled from the spec: `utils.IndexNetworkByIDAndName` is missing; two lookup mappings, by
source identifier and by source name, built from the entry list, the first occurrence of a key
winning. -/
def IndexNetworkByIDAndName (mapping : List NetworkResourceMappingItem) : ItemMap × ItemMap :=
  mapping.foldl indexStep ([], [])

/-- Rendering of a string slice by `%v`. -/
def fmtStrings (xs : List String) : String := "[" ++ " ".intercalate xs ++ "]"

/-- Rendering of a non-nil pointer by `%v`: its address in hexadecimal. -/
def fmtPtr (p : StrPtr) : String := "0x" ++ String.mk (Nat.toDigits 16 p.addr)

/-- Call `strings.Contains(k, "/")`. -/
def containsSlash (k : String) : Bool := decide ('/' ∈ k.data)

/-! ## The network mapping validator -/

open CheckID

/-- Method `hasAtLeastOneWithVNicProfile`. -/
def hasAtLeastOneWithVNicProfile : List Nic → Bool
  | [] => false
  | nic :: rest =>
    match nic.vnicProfile with
    | some _ => true
    | none => hasAtLeastOneWithVNicProfile rest

/-- The identifier half of the body of the duplicate scan: the failure appended when
`usedIDs[*mapp.Source.ID]` is set.  Its message dereferences `mapp.Source.Name`, which panics
when the name is nil. -/
def duplicateByID (usedIDs : List String) (mapp : NetworkResourceMappingItem) :
    Option (List ValidationFailure) :=
  match mapp.Source.ID with
  | some id =>
    if id.val ∈ usedIDs then
      match mapp.Source.Name with
      | some n => some [⟨NetworkSourceDuplicateID,
          "There are duplicate source network entries for ID: " ++ n.val ++ " "⟩]
      | none => none
    else some []
  | none => some []

/-- The name half of the body of the duplicate scan. -/
def duplicateByName (usedNames : List String) (mapp : NetworkResourceMappingItem) :
    List ValidationFailure :=
  match mapp.Source.Name with
  | some n =>
    if n.val ∈ usedNames then
      [⟨NetworkSourceDuplicateID,
        "There are duplicate source network entries for name: " ++ n.val ++ " "⟩]
    else []
  | none => []

/-- The keys set in a map of type `map[string]bool` after `used[*p] = true` for a non-nil `p`. -/
def markUsed (used : List String) (p : Option StrPtr) : List String :=
  match p with
  | some x => x.val :: used
  | none => used

/-- The duplicate scan of `ValidateNetworkMapping` (the loop over `*mapping` that fills
`usedIDs` and `usedNames`), started with the keys already marked used. -/
def duplicateScan (usedIDs usedNames : List String) :
    List NetworkResourceMappingItem → Option (List ValidationFailure)
  | [] => some []
  | mapp :: rest =>
    match duplicateByID usedIDs mapp,
      duplicateScan (markUsed usedIDs mapp.Source.ID) (markUsed usedNames mapp.Source.Name) rest with
    | some f1, some fs => some (f1 ++ duplicateByName usedNames mapp ++ fs)
    | _, _ => none

/-- Method `validateSourceNetworkFormat`. -/
def validateSourceNetworkFormat (mapByName : ItemMap) : ValidationFailure × Bool :=
  let invalidNames := (mapByName.map Prod.fst).filter (fun k => !containsSlash k)
  if invalidNames.length > 0 then
    (⟨NetworkMappingID, "Network mapping name format is invalid: " ++ fmtStrings invalidNames ++
        ". Expected format is 'network-name/vnic-profile-name'"⟩, false)
  else (ValidationFailure.zero, true)

/-- Method `createSourceNetworkIdentifier`.  The source takes the addresses of its locals `id`
and `name`, which are new cells at every call: `fresh` and `fresh + 1`. -/
def createSourceNetworkIdentifier (fresh : Nat) (network : Network) (vnic : VnicProfile) :
    Option Source × Bool :=
  let (id, okID) := vnic.Id
  let (networkName, okNetworkName) := network.Name
  let (vnicName, okVnicName) := vnic.Name
  if okID || okNetworkName && okVnicName then
    let name := GetNetworkMappingName networkName vnicName
    (some ⟨some ⟨fresh, id⟩, some ⟨fresh + 1, name⟩⟩, true)
  else (none, false)

/-- The first loop of `getRequiredVnicProfiles`, which fills `sourcesSet`, a map keyed by
`v2vv1.Source`: two keys are the same key when their pointers are. -/
def collectSources (fresh : Nat) (sourcesSet : List Source) : List Nic → List Source
  | [] => sourcesSet
  | nic :: rest =>
    let next : List Source :=
      match nic.vnicProfile with
      | some vnic =>
        match vnic.network with
        | some network =>
          match createSourceNetworkIdentifier fresh network vnic with
          | (some src, true) => if src ∈ sourcesSet then sourcesSet else sourcesSet ++ [src]
          | _ => sourcesSet
        | none => sourcesSet
      | none => sourcesSet
    collectSources (fresh + 2) next rest

/-- Method `getRequiredVnicProfiles`: the keys of `sourcesSet`.  The source reads them out of
the map with `for source := range sourcesSet`, in an order that Go leaves open; the list here
is in the order of the interfaces, one of the possible orders, and `ValidateNetworkMappingIn`
is the run for any other. -/
def getRequiredVnicProfiles (nics : List Nic) : List Source :=
  collectSources 0 [] nics

/-- The Go map `requiredTargetsSet`, of type `map[v2vv1.ObjectIdentifier]*string`. -/
abbrev TargetSet := List (ObjectIdentifier × Option StrPtr)

/-- Assignment `m[k] = v`. -/
def TargetSet.set (m : TargetSet) (k : ObjectIdentifier) (v : Option StrPtr) : TargetSet :=
  match m with
  | [] => [(k, v)]
  | (k', v') :: rest => if k' = k then (k, v) :: rest else (k', v') :: TargetSet.set rest k v

/-- The failure of `ValidateNetworkMapping` for a required profile that no entry matches. -/
def lacksMappingFailure (vnic : Source) : ValidationFailure :=
  ⟨NetworkMappingID,
    "Required source Vnic Profile '" ++ ToLoggableID vnic.ID vnic.Name ++ "' lacks mapping"⟩

/-- The body of the loop over `requiredVnicProfiles` in `ValidateNetworkMapping`: the identifier
index is asked first, the name index second, and a profile found in neither is a failure. -/
def matchProfile (mapByID mapByName : ItemMap) (acc : TargetSet × List ValidationFailure)
    (vnic : Source) : TargetSet × List ValidationFailure :=
  let byID := match vnic.ID with
    | some id => ItemMap.get mapByID id.val
    | none => none
  match byID with
  | some item => (TargetSet.set acc.1 item.Target item.Type_, acc.2)
  | none =>
    let byName := match vnic.Name with
      | some n => ItemMap.get mapByName n.val
      | none => none
    match byName with
    | some item => (TargetSet.set acc.1 item.Target item.Type_, acc.2)
    | none => (acc.1, acc.2 ++ [lacksMappingFailure vnic])

/-- The test `item.Type == nil || *item.Type == "pod"`. -/
def isPodType (t : Option StrPtr) : Bool :=
  match t with
  | none => true
  | some p => p.val == "pod"

/-- The name branch of `getPodNetworks`: the profile's own name is the key asked of
`mapByName`. -/
def podNetworkByName (mapByName : ItemMap) (vnicProfile : VnicProfile) : List String :=
  if vnicProfile.Name.2 then
    match ItemMap.get mapByName vnicProfile.Name.1 with
    | some item =>
      if isPodType item.Type_ then [ToLoggableID item.Source.ID item.Source.Name] else []
    | none => []
  else []

/-- The body of the loop of `getPodNetworks` for one interface: the labels it appends. -/
def podNetworksOfNic (mapByID mapByName : ItemMap) (nic : Nic) : List String :=
  match nic.vnicProfile with
  | some vnicProfile =>
    let byID := if vnicProfile.Id.2 then ItemMap.get mapByID vnicProfile.Id.1 else none
    match byID with
    | some item =>
      if isPodType item.Type_ then [ToLoggableID item.Source.ID item.Source.Name]
      else podNetworkByName mapByName vnicProfile
    | none => podNetworkByName mapByName vnicProfile
  | none => []

/-- Method `getPodNetworks`. -/
def getPodNetworks (mapByID mapByName : ItemMap) : List Nic → List String
  | [] => []
  | nic :: rest => podNetworksOfNic mapByID mapByName nic ++ getPodNetworks mapByID mapByName rest

/-- Method `isValidMultusNetwork`. -/
def isValidMultusNetwork (v : NetworkMappingValidator) (networkID : ObjectIdentifier)
    (crNamespace : String) : ValidationFailure × Bool :=
  let ns := match networkID.Namespace with
    | some p => p.val
    | none => crNamespace
  match v.Find networkID.Name ns with
  | Except.error err =>
    (⟨NetworkTargetID, "Network Attachment Defintion " ++
        ToLoggableResourceName networkID.Name (some ns) ++
        " has not been found. Error: " ++ err⟩, false)
  | Except.ok _ => (ValidationFailure.zero, true)

/-- Method `validateNetwork`. -/
def validateNetwork (v : NetworkMappingValidator) (networkID : ObjectIdentifier)
    (networkType : Option StrPtr) (crNamespace : String) : ValidationFailure × Bool :=
  match networkType with
  | none =>
    match networkID.Namespace with
    | none => (ValidationFailure.zero, true)
    | some p =>
      (⟨NetworkTypeID, "Network " ++
          ToLoggableResourceName networkID.Name (networkID.Namespace.map StrPtr.val) ++
          " has unspecified network type and target namespace: " ++ p.val ++
          ". When target type is omitted, the namespace must be omitted as well."⟩, false)
  | some t =>
    if t.val = "pod" then (ValidationFailure.zero, true)
    else if t.val = "multus" then isValidMultusNetwork v networkID crNamespace
    else
      (⟨NetworkTypeID, "Network " ++
          ToLoggableResourceName networkID.Name (networkID.Namespace.map StrPtr.val) ++
          " has unsupported network type: " ++ fmtPtr t⟩, false)

/-- The loop of `ValidateNetworkMapping` over `requiredTargetsSet`. -/
def validateTargets (v : NetworkMappingValidator) (crNamespace : String) :
    TargetSet → List ValidationFailure
  | [] => []
  | (networkID, networkType) :: rest =>
    let r := validateNetwork v networkID networkType crNamespace
    (if !r.2 then [r.1] else []) ++ validateTargets v crNamespace rest

/-- Function `mapNetworkType`. -/
def mapNetworkType (mapping : NetworkResourceMappingItem) (crNamespace : String) :
    String × String :=
  let ns := match mapping.Target.Namespace with
    | some p => p.val
    | none => crNamespace
  (mapping.Target.Name, ns)

/-- The loop of `getSROIVNetworkNameForNic` over `*mappings`. -/
def findSRIOVMapping (nicMappingName vnicProfileID crNamespace : String) :
    List NetworkResourceMappingItem → String × String
  | [] => ("", "")
  | mapping :: rest =>
    let byName := match mapping.Source.Name with
      | some n => decide (nicMappingName = n.val)
      | none => false
    let byID := match mapping.Source.ID with
      | some id => decide (vnicProfileID = id.val)
      | none => false
    if byName then mapNetworkType mapping crNamespace
    else if byID then mapNetworkType mapping crNamespace
    else findSRIOVMapping nicMappingName vnicProfileID crNamespace rest

/-- Function `getSROIVNetworkNameForNic`.  The source drops the found flag of
`vnicProfile.Network()` and calls `Name()` on the result, an accessor that reads a field of its
receiver: a profile without a network is a nil dereference. -/
def getSROIVNetworkNameForNic (vnicProfile : VnicProfile)
    (mappings : List NetworkResourceMappingItem) (crNamespace : String) :
    Option (String × String) :=
  match vnicProfile.network with
  | none => none
  | some network =>
    let nicMappingName := GetNetworkMappingName network.Name.1 vnicProfile.Name.1
    some (findSRIOVMapping nicMappingName vnicProfile.Id.1 crNamespace mappings)

/-- Index `cnf["type"]` of the parsed configuration. -/
def cnfGet (cnf : List (String × JsonValue)) (k : String) : Option JsonValue :=
  match cnf with
  | [] => none
  | (k', x) :: rest => if k' = k then some x else cnfGet rest k

/-- The body of the loop of `validateSRIOV` for one interface: `none` is a panic, `some none`
no failure, `some (some f)` the failure appended (with `valid = false`).  The type assertion
`cnf["type"].(string)` panics when the key is missing or its value is not a string. -/
def validateSRIOVNic (v : NetworkMappingValidator) (nic : Nic)
    (mapping : List NetworkResourceMappingItem) (crNamespace : String) :
    Option (Option ValidationFailure) :=
  match nic.vnicProfile with
  | none => some none
  | some vnicProfile =>
    if IsSRIOV vnicProfile then
      match getSROIVNetworkNameForNic vnicProfile mapping crNamespace with
      | none => none
      | some (name, ns) =>
        match v.Find name ns with
        | Except.error err =>
          some (some ⟨NetworkTargetID, "Network Attachment Defintion " ++
            ToLoggableResourceName name (some ns) ++ " has not been found. Error: " ++ err⟩)
        | Except.ok network =>
          match network.Config with
          | Except.error err =>
            some (some ⟨NetworkConfig, "Network Attachment Defintion " ++
              ToLoggableResourceName name (some ns) ++ " has not correct config. Error: " ++ err⟩)
          | Except.ok cnf =>
            match cnfGet cnf "type" with
            | some (JsonValue.str t) =>
              if t ≠ "sriov" then
                some (some ⟨NetworkTypeID, "Network Attachment Defintion " ++
                  ToLoggableResourceName name (some ns) ++
                  " is not SRIOV network. Error: <nil>"⟩)
              else some none
            | _ => none
    else some none

/-- Method `validateSRIOV`: the failures in the order of the interfaces, and `valid`. -/
def validateSRIOV (v : NetworkMappingValidator) (nics : List Nic)
    (mapping : List NetworkResourceMappingItem) (crNamespace : String) :
    Option (List ValidationFailure × Bool) :=
  match nics with
  | [] => some ([], true)
  | nic :: rest =>
    match validateSRIOVNic v nic mapping crNamespace with
    | none => none
    | some r =>
      match validateSRIOV v rest mapping crNamespace with
      | none => none
      | some (fs, valid) =>
        match r with
        | some f => some (f :: fs, false)
        | none => some (fs, valid)

/-- The failure of `ValidateNetworkMapping` for a nil mapping. -/
def missingMappingFailure : ValidationFailure :=
  ⟨NetworkMappingID, "Network mapping is missing"⟩

/-- The failure of `ValidateNetworkMapping` for more than one pod network. -/
def multiplePodFailure (podNetworks : List String) : ValidationFailure :=
  ⟨NetworkMultiplePodTargetsID,
    "There are more than one source networks mapped to a pod network: " ++
      fmtStrings podNetworks ++ " "⟩

/-- The part of `ValidateNetworkMapping` that follows the format check, given the failures
collected so far. -/
def validateMapped (v : NetworkMappingValidator) (nics : List Nic)
    (mapping : List NetworkResourceMappingItem) (crNamespace : String)
    (mapByID mapByName : ItemMap) (failures : List ValidationFailure) :
    Option (List ValidationFailure) :=
  let requiredVnicProfiles := getRequiredVnicProfiles nics
  let matched := requiredVnicProfiles.foldl (matchProfile mapByID mapByName) ([], failures)
  let podNetworks := getPodNetworks mapByID mapByName nics
  let failures2 :=
    if podNetworks.length > 1 then matched.2 ++ [multiplePodFailure podNetworks] else matched.2
  let failures3 := failures2 ++ validateTargets v crNamespace matched.1
  match validateSRIOV v nics mapping crNamespace with
  | none => none
  | some (fls, valid) => some (if !valid then failures3 ++ fls else failures3)

/-- Method `ValidateNetworkMapping`; `mapping = none` is the nil mapping. -/
def ValidateNetworkMapping (v : NetworkMappingValidator) (nics : List Nic)
    (mapping : Option (List NetworkResourceMappingItem)) (crNamespace : String) :
    Option (List ValidationFailure) :=
  match mapping with
  | none =>
    some (if hasAtLeastOneWithVNicProfile nics then [missingMappingFailure] else [])
  | some mapping =>
    match duplicateScan [] [] mapping with
    | none => none
    | some failures =>
      let idx := IndexNetworkByIDAndName mapping
      let fmt := validateSourceNetworkFormat idx.2
      if !fmt.2 then some (failures ++ [fmt.1])
      else validateMapped v nics mapping crNamespace idx.1 idx.2 failures

/-! ## Severity classification and the status condition -/

/-- The type `action`, declared `type action int`. -/
abbrev action := Int

/-- Constant `log`. -/
def log : action := 0

/-- Constant `warn`. -/
def warn : action := 1

/-- Constant `block`. -/
def block : action := 2

/-- Modelled from the spec: the declarations of the reason constants of `v2vv1alpha1` are
missing; `errorReason` is the text of `MappingRulesCheckingFailed`, taken as its name. -/
def errorReason : String := "MappingRulesCheckingFailed"

/-- Modelled from the spec: `warnReason` is the text of `MappingRulesCheckingReportedWarnings`,
taken as its name. -/
def warnReason : String := "MappingRulesCheckingReportedWarnings"

/-- Modelled from the spec: `okReason` is the text of `MappingRulesCheckingCompleted`, taken as
its name. -/
def okReason : String := "MappingRulesCheckingCompleted"

/-- The table `checkToAction`: `none` for a CheckID that is not a key of the map. -/
def checkToAction : CheckID → Option action
  | NicInterfaceCheckID => some block
  | NicOnBootID => some log
  | NicPluggedID => some warn
  | NicVNicPassThroughID => some block
  | NicVNicPortMirroringID => some warn
  | NicVNicCustomPropertiesID => some warn
  | NicVNicNetworkFilterID => some warn
  | NicVNicQosID => some log
  | DiskAttachmentInterfaceID => some block
  | DiskAttachmentLogicalNameID => some log
  | DiskAttachmentPassDiscardID => some log
  | DiskAttachmentUsesScsiReservationID => some block
  | DiskInterfaceID => some block
  | DiskLogicalNameID => some log
  | DiskUsesScsiReservationID => some block
  | DiskBackupID => some warn
  | DiskLunStorageID => some block
  | DiskPropagateErrorsID => some log
  | DiskWipeAfterDeleteID => some log
  | DiskStatusID => some block
  | DiskStoragaTypeID => some block
  | DiskSgioID => some block
  | VMBiosBootMenuID => some log
  | VMBiosTypeID => some block
  | VMBiosTypeQ35SecureBootID => some warn
  | VMCpuArchitectureID => some block
  | VMCpuTuneID => some warn
  | VMCpuSharesID => some log
  | VMCustomPropertiesID => some warn
  | VMDisplayTypeID => some log
  | VMHasIllegalImagesID => some block
  | VMHighAvailabilityPriorityID => some log
  | VMIoThreadsID => some warn
  | VMMemoryPolicyBallooningID => some log
  | VMMemoryPolicyOvercommitPercentID => some log
  | VMMemoryPolicyGuaranteedID => some log
  | VMMigrationID => some log
  | VMMigrationDowntimeID => some log
  | VMNumaTuneModeID => some warn
  | VMOriginID => some block
  | VMRngDeviceSourceID => some log
  | VMSoundcardEnabledID => some warn
  | VMStartPausedID => some log
  | VMStorageErrorResumeBehaviourID => some log
  | VMTunnelMigrationID => some warn
  | VMUsbID => some block
  | VMGraphicConsolesID => some log
  | VMHostDevicesID => some log
  | VMReportedDevicesID => some log
  | VMQuotaID => some log
  | VMWatchdogsID => some block
  | VMCdromsID => some log
  | VMFloppiesID => some log
  | _ => none

/-- Index expression `checkToAction[id]`: the zero value of `action` for a missing key. -/
def actionOf (id : CheckID) : action := (checkToAction id).getD 0

/-- Function `withMessage`. -/
def withMessage (message newMessage : String) : String :=
  if message = "" then newMessage else message ++ ", " ++ newMessage

/-- The locals `valid`, `warnMessage` and `errorMessage` of `processFailures`. -/
structure Tally where
  valid : Bool
  warnMessage : String
  errorMessage : String
deriving DecidableEq, Repr

/-- The body of the loop of `processFailures`: the switch over `checkToAction[failure.ID]`.
The `log` case only calls the logger. -/
def tallyStep (t : Tally) (failure : ValidationFailure) : Tally :=
  let a := actionOf failure.ID
  if a = log then t
  else if a = warn then { t with warnMessage := withMessage t.warnMessage failure.Message }
  else if a = block then
    { t with valid := false, errorMessage := withMessage t.errorMessage failure.Message }
  else t

/-- The loop of `processFailures` over `failures`. -/
def tally (failures : List ValidationFailure) : Tally :=
  failures.foldl tallyStep ⟨true, "", ""⟩

/-- Modelled from the spec: the declaration of `VirtualMachineImportConditionType` is missing;
the source names its constant `MappingRulesChecking`, and a persisted condition can be of
another type. -/
inductive VirtualMachineImportConditionType where
  | MappingRulesChecking
  | other (name : String)
deriving DecidableEq, Repr

/-- Constant `v1.ConditionTrue`. -/
def ConditionTrue : String := "True"

/-- Constant `v1.ConditionFalse`. -/
def ConditionFalse : String := "False"

/-- Modelled from the spec: the declaration of `VirtualMachineImportCondition` is missing; the
record of type, status, reason, message, lastTransitionTime and lastHeartbeatTime, with the
fields the source assigns.  A time is a number. -/
structure VirtualMachineImportCondition where
  Type_ : VirtualMachineImportConditionType
  Status : String
  Reason : Option String
  Message : Option String
  LastTransitionTime : Option Nat
  LastHeartbeatTime : Option Nat
deriving DecidableEq, Repr

/-- Function `findConditionOfType`, as the index of the condition it points to. -/
def findConditionOfType (tp : VirtualMachineImportConditionType)
    (conditions : List VirtualMachineImportCondition) : Option Nat :=
  conditions.findIdx? (fun c => decide (c.Type_ = tp))

/-- Function `updateCondition`; `now` is the reading of the clock, and the result is the
condition list after the call. -/
def updateCondition (conditions : List VirtualMachineImportCondition) (reason message : String)
    (status : Bool) (now : Nat) : List VirtualMachineImportCondition :=
  let conditionStatus := if !status then ConditionFalse else ConditionTrue
  let conditionType := VirtualMachineImportConditionType.MappingRulesChecking
  match findConditionOfType conditionType conditions with
  | some i =>
    conditions.modify
      (fun condition =>
        let c1 := { condition with
          Message := some message, Reason := some reason, LastHeartbeatTime := some now }
        if c1.Status ≠ conditionStatus then
          { c1 with Status := conditionStatus, LastTransitionTime := some now }
        else c1) i
  | none =>
    conditions ++ [⟨conditionType, conditionStatus, some reason, some message, some now, some now⟩]

/-- The object `VirtualMachineImport`, reduced to `Status.Conditions`. -/
structure VirtualMachineImport where
  Conditions : List VirtualMachineImportCondition
deriving DecidableEq, Repr

/-- The client of the validator: `Get` by name, and `Status().Update`, whose result is the
error, if any. -/
structure Client where
  Get : String → Except String VirtualMachineImport
  Update : VirtualMachineImport → Option String

/-- The arguments `reason`, `message` and `status` that `processFailures` hands to
`updateCondition`. -/
def verdict (t : Tally) : String × String × Bool :=
  if !t.valid then (errorReason, t.errorMessage, false)
  else if t.warnMessage ≠ "" then (warnReason, t.warnMessage, true)
  else (okReason, "All mapping rules checks passed", true)

/-- What a call of `processFailures` leaves: the error it returns (`none` is nil) and the object
it handed to `Status().Update`, if it got that far. -/
structure Outcome where
  err : Option String
  updated : Option VirtualMachineImport
deriving DecidableEq, Repr

/-- Method `processFailures`. -/
def processFailures (client : Client) (now : Nat) (failures : List ValidationFailure)
    (vmiCrName : String) : Outcome :=
  let t := tally failures
  match client.Get vmiCrName with
  | Except.error err => ⟨some err, none⟩
  | Except.ok inst =>
    let vd := verdict t
    let copy : VirtualMachineImport :=
      ⟨updateCondition inst.Conditions vd.1 vd.2.1 vd.2.2 now⟩
    match client.Update copy with
    | some err => ⟨some err, some copy⟩
    | none =>
      if !t.valid then
        ⟨some ("Validation failed for " ++ vmiCrName ++ ". Reasons: " ++ t.errorMessage),
          some copy⟩
      else ⟨none, some copy⟩

/-- The key of an entry in the identifier index. -/
def idKey (m : NetworkResourceMappingItem) : Option String := m.Source.ID.map StrPtr.val

/-- The key of an entry in the name index. -/
def nameKey (m : NetworkResourceMappingItem) : Option String := m.Source.Name.map StrPtr.val

/-- No entry repeats the `Source.ID` of an earlier entry while having no `Source.Name`: the one
case in which the duplicate scan dereferences a nil name. -/
def DupScanSafe (mapping : List NetworkResourceMappingItem) : Prop :=
  mapping.Pairwise (fun a b => b.Source.Name = none → idKey b = none ∨ idKey a ≠ idKey b)

/-- A provider that finds nothing. -/
def noNetworks : NetworkMappingValidator := ⟨fun _ _ => Except.error "not found"⟩

/-- A mapping entry given by its source name alone, with the type left out. -/
def entryNamed (addr : Nat) (name target : String) : NetworkResourceMappingItem :=
  ⟨⟨none, some ⟨addr, name⟩⟩, ⟨target, none⟩, none⟩

/-- Two entries for the source name "default". -/
def twiceDefault : List NetworkResourceMappingItem :=
  [entryNamed 1 "default" "a", entryNamed 2 "default" "b"]

/-- The entry that the matching loop of `ValidateNetworkMapping` finds for a required profile:
the one under its identifier, else the one under its name. -/
def resolveProfile (mapByID mapByName : ItemMap) (vnic : Source) :
    Option NetworkResourceMappingItem :=
  ((vnic.ID.bind (fun id => ItemMap.get mapByID id.val))).orElse
    (fun _ => vnic.Name.bind (fun n => ItemMap.get mapByName n.val))

/-- The targets that the matching loop adds to `requiredTargetsSet` for a list of profiles. -/
def addTargets (mapByID mapByName : ItemMap) (ts : TargetSet) (srcs : List Source) : TargetSet :=
  srcs.foldl (fun acc vnic =>
    match resolveProfile mapByID mapByName vnic with
    | some item => TargetSet.set acc item.Target item.Type_
    | none => acc) ts

/-- The failures of a run of `ValidateNetworkMapping` that passes the format check, part by
part: the duplicates, the profiles that lack a mapping, the pod-network failure, the target
failures and the SR-IOV failures. -/
def mappedFailures (v : NetworkMappingValidator) (nics : List Nic)
    (mapping : List NetworkResourceMappingItem) (crNamespace : String)
    (dups fls : List ValidationFailure) : List ValidationFailure :=
  let idx := IndexNetworkByIDAndName mapping
  dups ++
    ((getRequiredVnicProfiles nics).filter
      (fun s => (resolveProfile idx.1 idx.2 s).isNone)).map lacksMappingFailure ++
    (if (getPodNetworks idx.1 idx.2 nics).length > 1
      then [multiplePodFailure (getPodNetworks idx.1 idx.2 nics)] else []) ++
    validateTargets v crNamespace (addTargets idx.1 idx.2 [] (getRequiredVnicProfiles nics)) ++
    fls

/-- The source that `createSourceNetworkIdentifier` builds for the first interface of a list:
the profile identifier and the composite name as the accessors give them (the empty string for
an attribute that is unset), in the new cells 0 and 1. -/
def sourceOf (vp : VnicProfile) (net : Network) : Source :=
  ⟨some ⟨0, vp.Id.1⟩, some ⟨1, GetNetworkMappingName net.Name.1 vp.Name.1⟩⟩

/-- An interface whose profile has the identifier "vnic-profile-1" and the name "prof1" but no
network attached. -/
def nicWithoutNetwork : Nic := ⟨some ⟨some "vnic-profile-1", some "prof1", none, false⟩⟩

/-- An interface with the profile net1/prof1, identifier "vnic-profile-1", no passthrough. -/
def nic1 : Nic := ⟨some ⟨some "vnic-profile-1", some "prof1", some ⟨some "n1", some "net1"⟩, false⟩⟩

/-- The SR-IOV check of the interfaces runs to its end: no passthrough profile is without a
network, and no configuration that parses is without a string under "type". -/
def SriovCompletes (v : NetworkMappingValidator) (nics : List Nic)
    (mapping : List NetworkResourceMappingItem) (crNamespace : String) : Prop :=
  (validateSRIOV v nics mapping crNamespace).isSome = true

/-- The failures of a list that carry the given CheckID. -/
def withID (id : CheckID) (fs : List ValidationFailure) : List ValidationFailure :=
  fs.filter (fun f => decide (f.ID = id))

/-- The entry that matches a profile with a network: the first entry of the list whose
`Source.ID` is the profile identifier, else the first whose `Source.Name` is the composite
network-name/profile-name. -/
def matchedEntry (mapping : List NetworkResourceMappingItem) (vp : VnicProfile) (net : Network) :
    Option NetworkResourceMappingItem :=
  (mapping.find? (fun m => decide (idKey m = some vp.Id.1))).orElse
    (fun _ => mapping.find?
      (fun m => decide (nameKey m = some (GetNetworkMappingName net.Name.1 vp.Name.1))))

/-- The namespace in which a target is looked up: `Target.Namespace` when it is set, the
namespace of the caller otherwise. -/
def lookupNamespace (target : ObjectIdentifier) (crNamespace : String) : String :=
  (target.Namespace.map StrPtr.val).getD crNamespace

/-- The entry that maps the source name net1/prof1 to the target "nad1" with the type
"multus" and no namespace. -/
def multusEntry : NetworkResourceMappingItem :=
  ⟨⟨none, some ⟨1, "net1/prof1"⟩⟩, ⟨"nad1", none⟩, some ⟨2, "multus"⟩⟩

/-- An interface is pod-mapped when `getPodNetworks` finds for it an entry whose type is absent
or "pod": the first entry whose `Source.ID` is the profile identifier, or else the first entry
whose `Source.Name` is the name of the profile. -/
def podMapped (mapping : List NetworkResourceMappingItem) (nic : Nic) : Bool :=
  match nic.vnicProfile with
  | none => false
  | some vp =>
    (match vp.id.bind (fun i => mapping.find? (fun m => decide (idKey m = some i))) with
      | some item => isPodType item.Type_
      | none => false) ||
    (match vp.name.bind (fun n => mapping.find? (fun m => decide (nameKey m = some n))) with
      | some item => isPodType item.Type_
      | none => false)

/-- An interface with the profile net2/prof2, identifier "vnic-profile-2", no passthrough. -/
def nic2 : Nic := ⟨some ⟨some "vnic-profile-2", some "prof2", some ⟨some "n2", some "net2"⟩, false⟩⟩

/-- A mapping entry given by its source identifier alone. -/
def entryWithID (addr : Nat) (id target : String) (type : Option StrPtr) :
    NetworkResourceMappingItem :=
  ⟨⟨some ⟨addr, id⟩, none⟩, ⟨target, none⟩, type⟩

/-- The profiles net1/prof1 and net2/prof2 mapped by their composite names, the type left out. -/
def podByName : List NetworkResourceMappingItem :=
  [entryNamed 1 "net1/prof1" "a", entryNamed 2 "net2/prof2" "b"]

/-- The profiles "vnic-profile-1" and "vnic-profile-2" mapped by their identifiers, the type
left out. -/
def podByID : List NetworkResourceMappingItem :=
  [entryWithID 1 "vnic-profile-1" "a" none, entryWithID 2 "vnic-profile-2" "b" none]

/-- The profile "vnic-profile-1" mapped by its identifier to the pod network. -/
def podEntry : List NetworkResourceMappingItem :=
  [entryWithID 1 "vnic-profile-1" "a" (some ⟨9, "pod"⟩)]

/-- The entry to which `getSROIVNetworkNameForNic` maps a profile with a network: the first
entry of the list whose `Source.Name` is the composite network-name/profile-name or whose
`Source.ID` is the profile identifier. -/
def sriovEntry (mapping : List NetworkResourceMappingItem) (vp : VnicProfile) (net : Network) :
    Option NetworkResourceMappingItem :=
  mapping.find? (fun m =>
    decide (nameKey m = some (GetNetworkMappingName net.Name.1 vp.Name.1)) ||
      decide (idKey m = some vp.Id.1))

/-- The failure of `validateSRIOV` for a resource whose type is not "sriov". -/
def notSriovFailure (name ns : String) : ValidationFailure :=
  ⟨NetworkTypeID, "Network Attachment Defintion " ++ ToLoggableResourceName name (some ns) ++
    " is not SRIOV network. Error: <nil>"⟩

/-- An interface with the profile net1/prof1 and the passthrough flag set. -/
def sriovNic : Nic := ⟨some ⟨some "vnic-profile-1", some "prof1", some ⟨some "n1", some "net1"⟩, true⟩⟩

/-- A provider that finds, under every name, a resource whose configuration parses with the
given string under "type". -/
def networksOfType (t : String) : NetworkMappingValidator :=
  ⟨fun _ _ => Except.ok ⟨Except.ok [("cniVersion", JsonValue.str "0.3.1"), ("type", JsonValue.str t)]⟩⟩

/-- A client whose object has no condition yet and whose update succeeds. -/
def okClient : Client := ⟨fun _ => Except.ok ⟨[]⟩, fun _ => none⟩

/-- The messages of the failures whose CheckID `checkToAction` maps to the given action, in
the order of the list. -/
def messagesOf (a : action) (failures : List ValidationFailure) : List String :=
  (failures.filter (fun f => decide (checkToAction f.ID = some a))).map ValidationFailure.Message

/-- The strings of a list joined with a comma and a blank. -/
def joinMessages (ms : List String) : String := ", ".intercalate ms

/-- The number of keys of a list that repeat a key marked used or an earlier key of the list. -/
def repeats (used : List String) : List String → Nat
  | [] => 0
  | k :: ks => (if k ∈ used then 1 else 0) + repeats (k :: used) ks

/-- The keys of a list that are neither marked used nor a repetition of an earlier key. -/
def firsts (used : List String) : List String → List String
  | [] => []
  | k :: ks => if k ∈ used then firsts (k :: used) ks else k :: firsts (k :: used) ks

/-- The number of duplicate occurrences in a list of keys: its length less the number of its
distinct keys. -/
def duplicateOccurrences (ks : List String) : Nat := ks.length - ks.dedup.length

/-- Three entries with the identifier "i" and the names "n/a", "n/a" and "n/b". -/
def tripleDuplicate : List NetworkResourceMappingItem :=
  [⟨⟨some ⟨1, "i"⟩, some ⟨2, "n/a"⟩⟩, ⟨"t", none⟩, none⟩,
    ⟨⟨some ⟨3, "i"⟩, some ⟨4, "n/a"⟩⟩, ⟨"t", none⟩, none⟩,
    ⟨⟨some ⟨5, "i"⟩, some ⟨6, "n/b"⟩⟩, ⟨"t", none⟩, none⟩]

/-- Two entries with the identifier "x" and no name. -/
def idOnlyTwice : List NetworkResourceMappingItem :=
  [entryWithID 1 "x" "a" none, entryWithID 2 "x" "b" none]

/-- A provider that finds, under every name, a resource with the given parsed configuration. -/
def networksWithConfig (cnf : List (String × JsonValue)) : NetworkMappingValidator :=
  ⟨fun _ _ => Except.ok ⟨Except.ok cnf⟩⟩

/-- An entry that matches the profile "vnic-profile-1" by identifier only, with the target
"byid", followed by an entry that matches net1/prof1 by name, with the target "byname". -/
def idThenName : List NetworkResourceMappingItem :=
  [⟨⟨some ⟨1, "vnic-profile-1"⟩, some ⟨2, "other/name"⟩⟩, ⟨"byid", none⟩, some ⟨3, "multus"⟩⟩,
    ⟨⟨none, some ⟨4, "net1/prof1"⟩⟩, ⟨"byname", none⟩, some ⟨5, "multus"⟩⟩]

/-- The profile of the interface net1/prof1 with the passthrough flag set. -/
def sriovProfile : VnicProfile :=
  ⟨some "vnic-profile-1", some "prof1", some ⟨some "n1", some "net1"⟩, true⟩

/-- The condition of type `MappingRulesChecking` after `updateCondition`: message, reason and
heartbeat are the new ones, and status and transition time change when the status differs. -/
def mergedCondition (c : VirtualMachineImportCondition) (reason message : String)
    (status : Bool) (now : Nat) : VirtualMachineImportCondition :=
  { Type_ := c.Type_
    Status := if status then ConditionTrue else ConditionFalse
    Reason := some reason
    Message := some message
    LastTransitionTime :=
      if c.Status = (if status then ConditionTrue else ConditionFalse) then c.LastTransitionTime
      else some now
    LastHeartbeatTime := some now }

/-- A condition of another type. -/
def readyCondition : VirtualMachineImportCondition :=
  ⟨VirtualMachineImportConditionType.other "Succeeded", "True", none, none, some 1, some 1⟩

/-- A condition of type `MappingRulesChecking` with the status "True". -/
def checkedCondition : VirtualMachineImportCondition :=
  ⟨VirtualMachineImportConditionType.MappingRulesChecking, "True", some "r", some "m", some 2,
    some 3⟩

/-- An entry with the unsupported type "bridge" that matches net1/prof1 by name, followed by an
entry with the type "pod" that matches "vnic-profile-1" by identifier. -/
def nameThenID : List NetworkResourceMappingItem :=
  [⟨⟨none, some ⟨1, "net1/prof1"⟩⟩, ⟨"b", none⟩, some ⟨2, "bridge"⟩⟩,
    ⟨⟨some ⟨3, "vnic-profile-1"⟩, none⟩, ⟨"a", none⟩, some ⟨4, "pod"⟩⟩]

/-- The entries to which the required profiles of the interfaces resolve, in the order in
which the matching loop meets them. -/
def resolvedEntries (mapping : List NetworkResourceMappingItem) (nics : List Nic) :
    List NetworkResourceMappingItem :=
  (getRequiredVnicProfiles nics).filterMap
    (resolveProfile (IndexNetworkByIDAndName mapping).1 (IndexNetworkByIDAndName mapping).2)

/-- An interface without passthrough whose profile "p1" is named "x/y", in the network "net1". -/
def nicSlash1 : Nic := ⟨some ⟨some "p1", some "x/y", some ⟨some "n1", some "net1"⟩, false⟩⟩

/-- An interface without passthrough whose profile "p2" is named "z/w", in the network "net1". -/
def nicSlash2 : Nic := ⟨some ⟨some "p2", some "z/w", some ⟨some "n1", some "net1"⟩, false⟩⟩

/-- The profiles "p1" and "p2" mapped by identifier to the targets "nad1" and "nad2" with the
type "multus", and two entries for the source names "x/y" and "z/w" with the type left out. -/
def multusAndUnused : List NetworkResourceMappingItem :=
  [⟨⟨some ⟨1, "p1"⟩, none⟩, ⟨"nad1", none⟩, some ⟨2, "multus"⟩⟩,
    ⟨⟨some ⟨3, "p2"⟩, none⟩, ⟨"nad2", none⟩, some ⟨4, "multus"⟩⟩,
    ⟨⟨none, some ⟨5, "x/y"⟩⟩, ⟨"u1", none⟩, none⟩,
    ⟨⟨none, some ⟨6, "z/w"⟩⟩, ⟨"u2", none⟩, none⟩]

/-- The provider found a resource. -/
def isFound (r : Except String NetworkAttachmentDefinition) : Bool :=
  match r with
  | Except.ok _ => true
  | Except.error _ => false

/-- The part of `ValidateNetworkMapping` that follows the format check, in a run in which the
iteration of `getRequiredVnicProfiles` over the Go map `sourcesSet` hands the required profiles
over in the order `sources`. -/
def validateMappedIn (sources : List Source) (v : NetworkMappingValidator) (nics : List Nic)
    (mapping : List NetworkResourceMappingItem) (crNamespace : String)
    (mapByID mapByName : ItemMap) (failures : List ValidationFailure) :
    Option (List ValidationFailure) :=
  let requiredVnicProfiles := sources
  let matched := requiredVnicProfiles.foldl (matchProfile mapByID mapByName) ([], failures)
  let podNetworks := getPodNetworks mapByID mapByName nics
  let failures2 :=
    if podNetworks.length > 1 then matched.2 ++ [multiplePodFailure podNetworks] else matched.2
  let failures3 := failures2 ++ validateTargets v crNamespace matched.1
  match validateSRIOV v nics mapping crNamespace with
  | none => none
  | some (fls, valid) => some (if !valid then failures3 ++ fls else failures3)

/-- Method `ValidateNetworkMapping` in a run in which the required profiles come out of
`sourcesSet` in the order `sources`; the runs of the code on given arguments are those for
the permutations of `getRequiredVnicProfiles nics`. -/
def ValidateNetworkMappingIn (sources : List Source) (v : NetworkMappingValidator)
    (nics : List Nic) (mapping : Option (List NetworkResourceMappingItem))
    (crNamespace : String) : Option (List ValidationFailure) :=
  match mapping with
  | none =>
    some (if hasAtLeastOneWithVNicProfile nics then [missingMappingFailure] else [])
  | some mapping =>
    match duplicateScan [] [] mapping with
    | none => none
    | some failures =>
      let idx := IndexNetworkByIDAndName mapping
      let fmt := validateSourceNetworkFormat idx.2
      if !fmt.2 then some (failures ++ [fmt.1])
      else validateMappedIn sources v nics mapping crNamespace idx.1 idx.2 failures

/-- The profiles "vnic-profile-1" and "vnic-profile-2" mapped to the same target "nad1", with
the unsupported types "bridge" and "macvlan". -/
def twoUnsupported : List NetworkResourceMappingItem :=
  [entryWithID 1 "vnic-profile-1" "nad1" (some ⟨2, "bridge"⟩),
    entryWithID 3 "vnic-profile-2" "nad1" (some ⟨4, "macvlan"⟩)]

/-- The required profile of the interface net1/prof1 when it is the first of two. -/
def source1 : Source := ⟨some ⟨0, "vnic-profile-1"⟩, some ⟨1, "net1/prof1"⟩⟩

/-- The required profile of the interface net2/prof2 when it is the second of two. -/
def source2 : Source := ⟨some ⟨2, "vnic-profile-2"⟩, some ⟨3, "net2/prof2"⟩⟩

/-! ## Lemmas on the maps -/

theorem ItemMap.get_append (m₁ m₂ : ItemMap) (k : String) :
    ItemMap.get (m₁ ++ m₂) k = (ItemMap.get m₁ k).orElse (fun _ => ItemMap.get m₂ k) := by
  induction m₁ with
  | nil => simp [ItemMap.get]
  | cons e rest ih =>
    obtain ⟨k', x⟩ := e
    by_cases h : k' = k
    · simp [ItemMap.get, h]
    · simpa [ItemMap.get, h] using ih

theorem ItemMap.get_insertNew (m : ItemMap) (k k' : String) (x : NetworkResourceMappingItem) :
    ItemMap.get (ItemMap.insertNew m k x) k' =
      (ItemMap.get m k').orElse (fun _ => if k = k' then some x else none) := by
  unfold ItemMap.insertNew
  cases hk : ItemMap.get m k with
  | some y =>
    by_cases h : k = k'
    · subst h; simp [hk]
    · cases ItemMap.get m k' <;> simp [h]
  | none =>
    simp only [ItemMap.get_append]
    cases ItemMap.get m k' <;> simp [ItemMap.get]

theorem ItemMap.get_isSome_iff (m : ItemMap) (k : String) :
    (ItemMap.get m k).isSome = true ↔ k ∈ m.map Prod.fst := by
  induction m with
  | nil => simp [ItemMap.get]
  | cons e rest ih =>
    obtain ⟨k', x⟩ := e
    by_cases h : k' = k
    · simp [ItemMap.get, h]
    · have h' : ¬ k = k' := fun e => h e.symm
      simp only [ItemMap.get, h, if_false, ih, List.map_cons, List.mem_cons, h', false_or]

theorem index_fold_byID (mapping : List NetworkResourceMappingItem) (acc : ItemMap × ItemMap)
    (k : String) :
    ItemMap.get (mapping.foldl indexStep acc).1 k =
      (ItemMap.get acc.1 k).orElse
        (fun _ => mapping.find? (fun m => decide (idKey m = some k))) := by
  induction mapping generalizing acc with
  | nil => cases h : ItemMap.get acc.1 k <;> simp [h]
  | cons m rest ih =>
    rw [List.foldl_cons, ih]
    cases hid : m.Source.ID with
    | none =>
      simp only [indexStep, hid]
      cases ItemMap.get acc.1 k <;> simp [idKey, hid]
    | some id =>
      simp only [indexStep, hid, ItemMap.get_insertNew]
      cases ItemMap.get acc.1 k with
      | some y => simp
      | none =>
        by_cases h : id.val = k
        · simp [idKey, hid, h]
        · simp [idKey, hid, h]

theorem index_fold_byName (mapping : List NetworkResourceMappingItem) (acc : ItemMap × ItemMap)
    (k : String) :
    ItemMap.get (mapping.foldl indexStep acc).2 k =
      (ItemMap.get acc.2 k).orElse
        (fun _ => mapping.find? (fun m => decide (nameKey m = some k))) := by
  induction mapping generalizing acc with
  | nil => cases h : ItemMap.get acc.2 k <;> simp [h]
  | cons m rest ih =>
    rw [List.foldl_cons, ih]
    cases hn : m.Source.Name with
    | none =>
      simp only [indexStep, hn]
      cases ItemMap.get acc.2 k <;> simp [nameKey, hn]
    | some n =>
      simp only [indexStep, hn, ItemMap.get_insertNew]
      cases ItemMap.get acc.2 k with
      | some y => simp
      | none =>
        by_cases h : n.val = k
        · simp [nameKey, hn, h]
        · simp [nameKey, hn, h]

/-- The identifier index answers with the first entry of the list that has the key. -/
theorem mapByID_get (mapping : List NetworkResourceMappingItem) (k : String) :
    ItemMap.get (IndexNetworkByIDAndName mapping).1 k =
      mapping.find? (fun m => decide (idKey m = some k)) := by
  simp [IndexNetworkByIDAndName, index_fold_byID, ItemMap.get]

/-- The name index answers with the first entry of the list that has the key. -/
theorem mapByName_get (mapping : List NetworkResourceMappingItem) (k : String) :
    ItemMap.get (IndexNetworkByIDAndName mapping).2 k =
      mapping.find? (fun m => decide (nameKey m = some k)) := by
  simp [IndexNetworkByIDAndName, index_fold_byName, ItemMap.get]

/-- The keys of the name index are the names of the entries. -/
theorem mapByName_keys (mapping : List NetworkResourceMappingItem) (k : String) :
    k ∈ (IndexNetworkByIDAndName mapping).2.map Prod.fst ↔
      ∃ m ∈ mapping, nameKey m = some k := by
  rw [← ItemMap.get_isSome_iff, mapByName_get, List.find?_isSome]
  simp

theorem hasAtLeastOneWithVNicProfile_iff (nics : List Nic) :
    hasAtLeastOneWithVNicProfile nics = true ↔ ∃ nic ∈ nics, nic.vnicProfile.isSome = true := by
  induction nics with
  | nil => simp [hasAtLeastOneWithVNicProfile]
  | cons nic rest ih =>
    cases h : nic.vnicProfile with
    | some p => simp [hasAtLeastOneWithVNicProfile, h]
    | none => simp [hasAtLeastOneWithVNicProfile, h, ih]

theorem duplicateByID_ids (usedIDs : List String) (m : NetworkResourceMappingItem)
    (fs : List ValidationFailure) (h : duplicateByID usedIDs m = some fs) :
    ∀ f ∈ fs, f.ID = NetworkSourceDuplicateID := by
  unfold duplicateByID at h
  split at h
  · split at h
    · split at h
      · cases h; simp
      · cases h
    · cases h; simp
  · cases h; simp

theorem duplicateByName_ids (usedNames : List String) (m : NetworkResourceMappingItem) :
    ∀ f ∈ duplicateByName usedNames m, f.ID = NetworkSourceDuplicateID := by
  unfold duplicateByName
  split
  · split <;> simp
  · simp

/-- Every failure of the duplicate scan is a `NetworkSourceDuplicateID` failure. -/
theorem duplicateScan_ids (mapping : List NetworkResourceMappingItem) :
    ∀ (usedIDs usedNames : List String) (fs : List ValidationFailure),
      duplicateScan usedIDs usedNames mapping = some fs →
      ∀ f ∈ fs, f.ID = NetworkSourceDuplicateID := by
  induction mapping with
  | nil => intro _ _ fs h; cases h; simp
  | cons m rest ih =>
    intro usedIDs usedNames fs h
    rw [duplicateScan] at h
    cases h1 : duplicateByID usedIDs m with
    | none => rw [h1] at h; cases h
    | some f1 =>
      cases h2 : duplicateScan (markUsed usedIDs m.Source.ID)
          (markUsed usedNames m.Source.Name) rest with
      | none => rw [h1, h2] at h; cases h
      | some fs2 =>
        rw [h1, h2] at h
        cases h
        intro f hf
        rcases List.mem_append.1 hf with hf | hf
        · rcases List.mem_append.1 hf with hf | hf
          · exact duplicateByID_ids _ _ _ h1 f hf
          · exact duplicateByName_ids _ _ f hf
        · exact ih _ _ _ h2 f hf

/-- The duplicate scan completes on a list that is `DupScanSafe`. -/
theorem duplicateScan_isSome (mapping : List NetworkResourceMappingItem) :
    ∀ usedIDs usedNames : List String,
      (∀ b ∈ mapping, b.Source.Name = none → ∀ k, idKey b = some k → k ∉ usedIDs) →
      DupScanSafe mapping →
      ∃ fs, duplicateScan usedIDs usedNames mapping = some fs := by
  induction mapping with
  | nil => intro _ _ _ _; exact ⟨[], rfl⟩
  | cons m rest ih =>
    intro usedIDs usedNames hused hsafe
    rw [DupScanSafe, List.pairwise_cons] at hsafe
    obtain ⟨hhead, htail⟩ := hsafe
    have h1 : ∃ f1, duplicateByID usedIDs m = some f1 := by
      unfold duplicateByID
      cases hid : m.Source.ID with
      | none => exact ⟨[], rfl⟩
      | some id =>
        cases hn : m.Source.Name with
        | some n => by_cases hmem : id.val ∈ usedIDs <;> simp [hmem]
        | none =>
          have hnot : id.val ∉ usedIDs :=
            hused m (List.mem_cons_self _ _) hn id.val (by simp [idKey, hid])
          simp [hnot]
    have h2 : ∀ b ∈ rest, b.Source.Name = none → ∀ k, idKey b = some k →
        k ∉ markUsed usedIDs m.Source.ID := by
      intro b hb hname k hk
      have hk0 : k ∉ usedIDs := hused b (List.mem_cons_of_mem _ hb) hname k hk
      cases hid : m.Source.ID with
      | none => simpa [markUsed] using hk0
      | some id =>
        simp only [markUsed, List.mem_cons, not_or]
        refine ⟨?_, hk0⟩
        rcases hhead b hb hname with h | h
        · rw [hk] at h; cases h
        · intro e
          apply h
          rw [hk, idKey, hid, e]; rfl
    obtain ⟨f1, hf1⟩ := h1
    obtain ⟨fs, hfs⟩ := ih (markUsed usedIDs m.Source.ID) (markUsed usedNames m.Source.Name)
      h2 htail
    exact ⟨f1 ++ duplicateByName usedNames m ++ fs, by rw [duplicateScan, hf1, hfs]⟩

/-- The duplicate scan reports nothing when no key of the list is marked used or repeated. -/
theorem duplicateScan_nil (mapping : List NetworkResourceMappingItem) :
    ∀ usedIDs usedNames : List String,
      (∀ k ∈ mapping.filterMap idKey, k ∉ usedIDs) →
      (∀ k ∈ mapping.filterMap nameKey, k ∉ usedNames) →
      (mapping.filterMap idKey).Nodup → (mapping.filterMap nameKey).Nodup →
      duplicateScan usedIDs usedNames mapping = some [] := by
  induction mapping with
  | nil => intro _ _ _ _ _ _; rfl
  | cons m rest ih =>
    intro usedIDs usedNames hI hN dI dN
    have e1 : duplicateByID usedIDs m = some [] := by
      unfold duplicateByID
      cases hid : m.Source.ID with
      | none => rfl
      | some id =>
        have : id.val ∉ usedIDs := hI id.val (by simp [List.filterMap_cons, idKey, hid])
        simp [this]
    have e2 : duplicateByName usedNames m = [] := by
      unfold duplicateByName
      cases hn : m.Source.Name with
      | none => rfl
      | some n =>
        have : n.val ∉ usedNames := hN n.val (by simp [List.filterMap_cons, nameKey, hn])
        simp [this]
    have e3 : duplicateScan (markUsed usedIDs m.Source.ID) (markUsed usedNames m.Source.Name)
        rest = some [] := by
      apply ih
      · intro k hk
        have hk0 : k ∉ usedIDs := hI k (by
          cases hid : idKey m <;> simp [List.filterMap_cons, hid, hk])
        cases hid : m.Source.ID with
        | none => simpa [markUsed] using hk0
        | some id =>
          simp only [markUsed, List.mem_cons, not_or]
          refine ⟨?_, hk0⟩
          intro e
          have hm : idKey m = some id.val := by simp [idKey, hid]
          rw [List.filterMap_cons, hm, List.nodup_cons] at dI
          exact dI.1 (e ▸ hk)
      · intro k hk
        have hk0 : k ∉ usedNames := hN k (by
          cases hn : nameKey m <;> simp [List.filterMap_cons, hn, hk])
        cases hn : m.Source.Name with
        | none => simpa [markUsed] using hk0
        | some n =>
          simp only [markUsed, List.mem_cons, not_or]
          refine ⟨?_, hk0⟩
          intro e
          have hm : nameKey m = some n.val := by simp [nameKey, hn]
          rw [List.filterMap_cons, hm, List.nodup_cons] at dN
          exact dN.1 (e ▸ hk)
      · cases hid : idKey m with
        | none => simpa [List.filterMap_cons, hid] using dI
        | some k =>
          rw [List.filterMap_cons, hid, List.nodup_cons] at dI
          exact dI.2
      · cases hn : nameKey m with
        | none => simpa [List.filterMap_cons, hn] using dN
        | some k =>
          rw [List.filterMap_cons, hn, List.nodup_cons] at dN
          exact dN.2
    rw [duplicateScan, e1, e2, e3]; rfl

/-- A list in which no `Source.ID` repeats is `DupScanSafe`. -/
theorem DupScanSafe.of_nodup (mapping : List NetworkResourceMappingItem)
    (h : (mapping.filterMap idKey).Nodup) : DupScanSafe mapping := by
  induction mapping with
  | nil => exact List.Pairwise.nil
  | cons m rest ih =>
    rw [DupScanSafe, List.pairwise_cons]
    cases hid : idKey m with
    | none =>
      rw [List.filterMap_cons, hid] at h
      exact ⟨fun b _ _ => by
        cases hb : idKey b with
        | none => exact Or.inl rfl
        | some k => exact Or.inr (by simp), ih h⟩
    | some k =>
      rw [List.filterMap_cons, hid, List.nodup_cons] at h
      refine ⟨fun b hb _ => ?_, ih h.2⟩
      cases hb2 : idKey b with
      | none => exact Or.inl rfl
      | some k2 =>
        refine Or.inr ?_
        intro e
        cases e
        exact h.1 (List.mem_filterMap.2 ⟨b, hb, hb2⟩)

theorem validateSourceNetworkFormat_ok (m : ItemMap) :
    (validateSourceNetworkFormat m).2 = true ↔ ∀ k ∈ m.map Prod.fst, '/' ∈ k.data := by
  unfold validateSourceNetworkFormat
  by_cases h : ((m.map Prod.fst).filter (fun k => !containsSlash k)).length > 0
  · simp only [h, if_true, Bool.false_eq_true, false_iff]
    intro hall
    obtain ⟨k, hk⟩ := List.exists_mem_of_length_pos h
    rw [List.mem_filter] at hk
    have := hall k hk.1
    simp [containsSlash, this] at hk
  · simp only [h, if_false, true_iff]
    intro k hk
    by_contra hc
    apply h
    apply List.length_pos_of_mem
    rw [List.mem_filter]
    exact ⟨hk, by simp [containsSlash, hc]⟩

theorem validateSourceNetworkFormat_id (m : ItemMap)
    (h : (validateSourceNetworkFormat m).2 = false) :
    (validateSourceNetworkFormat m).1.ID = NetworkMappingID := by
  by_cases hpos : ((m.map Prod.fst).filter (fun k => !containsSlash k)).length > 0
  · simp [validateSourceNetworkFormat, hpos]
  · simp [validateSourceNetworkFormat, hpos] at h

/-- The format check passes exactly when every `Source.Name` of the list holds a slash. -/
theorem format_ok_iff (mapping : List NetworkResourceMappingItem) :
    (validateSourceNetworkFormat (IndexNetworkByIDAndName mapping).2).2 = true ↔
      ∀ m ∈ mapping, ∀ n, m.Source.Name = some n → '/' ∈ n.val.data := by
  rw [validateSourceNetworkFormat_ok]
  constructor
  · intro h m hm n hn
    exact h n.val ((mapByName_keys mapping n.val).2 ⟨m, hm, by simp [nameKey, hn]⟩)
  · intro h k hk
    obtain ⟨m, hm, hkey⟩ := (mapByName_keys mapping k).1 hk
    cases hn : m.Source.Name with
    | none => simp [nameKey, hn] at hkey
    | some n =>
      simp only [nameKey, hn, Option.map_some', Option.some.injEq] at hkey
      rw [← hkey]
      exact h m hm n hn

theorem matchProfile_eq (mapByID mapByName : ItemMap)
    (acc : TargetSet × List ValidationFailure) (vnic : Source) :
    matchProfile mapByID mapByName acc vnic =
      match resolveProfile mapByID mapByName vnic with
      | some item => (TargetSet.set acc.1 item.Target item.Type_, acc.2)
      | none => (acc.1, acc.2 ++ [lacksMappingFailure vnic]) := by
  unfold matchProfile resolveProfile
  cases hid : vnic.ID with
  | none =>
    cases hn : vnic.Name with
    | none => simp
    | some n => cases h2 : ItemMap.get mapByName n.val <;> simp [h2]
  | some id =>
    cases h1 : ItemMap.get mapByID id.val with
    | some item => simp [h1]
    | none =>
      cases hn : vnic.Name with
      | none => simp [h1]
      | some n => cases h2 : ItemMap.get mapByName n.val <;> simp [h1, h2]

/-- The matching loop: the failures are those handed in followed by one failure for each
profile that resolves to no entry, and the targets are those of the profiles that resolve. -/
theorem matchLoop_eq (mapByID mapByName : ItemMap) (srcs : List Source) :
    ∀ (ts : TargetSet) (fs : List ValidationFailure),
      srcs.foldl (matchProfile mapByID mapByName) (ts, fs) =
        (addTargets mapByID mapByName ts srcs,
          fs ++ (srcs.filter
            (fun s => (resolveProfile mapByID mapByName s).isNone)).map lacksMappingFailure) := by
  induction srcs with
  | nil => intro ts fs; simp [addTargets]
  | cons x rest ih =>
    intro ts fs
    rw [List.foldl_cons, matchProfile_eq]
    cases h : resolveProfile mapByID mapByName x with
    | some item => simp [ih, addTargets, h]
    | none => simp [ih, addTargets, h]

/-- Every failure of the per-target validation is `NetworkTypeID` or `NetworkTargetID`. -/
theorem validateNetwork_ids (v : NetworkMappingValidator) (networkID : ObjectIdentifier)
    (networkType : Option StrPtr) (crNamespace : String)
    (h : (validateNetwork v networkID networkType crNamespace).2 = false) :
    (validateNetwork v networkID networkType crNamespace).1.ID = NetworkTypeID ∨
      (validateNetwork v networkID networkType crNamespace).1.ID = NetworkTargetID := by
  unfold validateNetwork at h ⊢
  cases networkType with
  | none =>
    cases hns : networkID.Namespace with
    | none => simp [hns] at h
    | some p => simp
  | some t =>
    by_cases h1 : t.val = "pod"
    · simp [h1] at h
    · by_cases h2 : t.val = "multus"
      · simp only [h1, h2, if_true, if_false] at h ⊢
        unfold isValidMultusNetwork at h ⊢
        cases hf : v.Find networkID.Name (match networkID.Namespace with
          | some p => p.val
          | none => crNamespace) with
        | error e => simp [hf]
        | ok x => simp [hf] at h
      · simp [h1, h2]

theorem validateTargets_ids (v : NetworkMappingValidator) (crNamespace : String)
    (ts : TargetSet) :
    ∀ f ∈ validateTargets v crNamespace ts, f.ID = NetworkTypeID ∨ f.ID = NetworkTargetID := by
  induction ts with
  | nil => simp [validateTargets]
  | cons e rest ih =>
    obtain ⟨k, t⟩ := e
    intro f hf
    rw [validateTargets, List.mem_append] at hf
    rcases hf with hf | hf
    · cases hv : (validateNetwork v k t crNamespace).2 with
      | true => simp [hv] at hf
      | false =>
        simp only [hv, Bool.not_false, if_true, List.mem_singleton] at hf
        rw [hf]
        exact validateNetwork_ids v k t crNamespace hv
    · exact ih f hf

/-- The failure of the SR-IOV check of one interface is `NetworkTargetID`, `NetworkConfig` or
`NetworkTypeID`. -/
theorem validateSRIOVNic_ids (v : NetworkMappingValidator) (nic : Nic)
    (mapping : List NetworkResourceMappingItem) (crNamespace : String) (f : ValidationFailure)
    (h : validateSRIOVNic v nic mapping crNamespace = some (some f)) :
    f.ID = NetworkTargetID ∨ f.ID = NetworkConfig ∨ f.ID = NetworkTypeID := by
  unfold validateSRIOVNic at h
  split at h
  · cases h
  · split at h
    · split at h
      · cases h
      · split at h
        · cases h; simp
        · split at h
          · cases h; simp
          · split at h
            · split at h
              · cases h; simp
              · cases h
            · cases h
    · cases h

/-- The result of `validateSRIOV`: `valid` says that no failure was appended, and every failure
is `NetworkTargetID`, `NetworkConfig` or `NetworkTypeID`. -/
theorem validateSRIOV_spec (v : NetworkMappingValidator) (nics : List Nic)
    (mapping : List NetworkResourceMappingItem) (crNamespace : String) :
    ∀ fls valid, validateSRIOV v nics mapping crNamespace = some (fls, valid) →
      (valid = true ↔ fls = []) ∧
      ∀ f ∈ fls, f.ID = NetworkTargetID ∨ f.ID = NetworkConfig ∨ f.ID = NetworkTypeID := by
  induction nics with
  | nil =>
    intro fls valid h
    simp only [validateSRIOV, Option.some.injEq, Prod.mk.injEq] at h
    obtain ⟨h1, h2⟩ := h
    subst h1 h2
    simp
  | cons nic rest ih =>
    intro fls valid h
    rw [validateSRIOV] at h
    cases h1 : validateSRIOVNic v nic mapping crNamespace with
    | none => simp [h1] at h
    | some r =>
      cases h2 : validateSRIOV v rest mapping crNamespace with
      | none => simp [h1, h2] at h
      | some p =>
        obtain ⟨fs, vd⟩ := p
        obtain ⟨hv, hids⟩ := ih fs vd h2
        cases r with
        | none =>
          simp only [h1, h2, Option.some.injEq, Prod.mk.injEq] at h
          rw [← h.1, ← h.2]
          exact ⟨hv, hids⟩
        | some f =>
          simp only [h1, h2, Option.some.injEq, Prod.mk.injEq] at h
          rw [← h.1, ← h.2]
          refine ⟨by simp, ?_⟩
          intro g hg
          rcases List.mem_cons.1 hg with hg | hg
          · rw [hg]; exact validateSRIOVNic_ids v nic mapping crNamespace f h1
          · exact hids g hg

/-- The run of `ValidateNetworkMapping` on a present mapping whose names all hold a slash. -/
theorem ValidateNetworkMapping_mapped (v : NetworkMappingValidator) (nics : List Nic)
    (mapping : List NetworkResourceMappingItem) (crNamespace : String)
    (dups fls : List ValidationFailure) (valid : Bool)
    (hfmt : ∀ m ∈ mapping, ∀ n, m.Source.Name = some n → '/' ∈ n.val.data)
    (hdup : duplicateScan [] [] mapping = some dups)
    (hsriov : validateSRIOV v nics mapping crNamespace = some (fls, valid)) :
    ValidateNetworkMapping v nics (some mapping) crNamespace =
      some (mappedFailures v nics mapping crNamespace dups fls) := by
  have hok := (format_ok_iff mapping).2 hfmt
  have hv := (validateSRIOV_spec v nics mapping crNamespace fls valid hsriov).1
  simp only [ValidateNetworkMapping, hdup, hok, Bool.not_true, Bool.false_eq_true, if_false,
    validateMapped, hsriov, matchLoop_eq, mappedFailures]
  cases valid with
  | true =>
    have : fls = [] := hv.1 rfl
    subst this
    by_cases hp : (getPodNetworks (IndexNetworkByIDAndName mapping).1
        (IndexNetworkByIDAndName mapping).2 nics).length > 1 <;> simp [hp]
  | false =>
    by_cases hp : (getPodNetworks (IndexNetworkByIDAndName mapping).1
        (IndexNetworkByIDAndName mapping).2 nics).length > 1 <;> simp [hp]

/-- The required profiles of a single interface: one source when the profile has a network
attached and carries an identifier or both names, none otherwise. -/
theorem getRequiredVnicProfiles_single (nic : Nic) :
    getRequiredVnicProfiles [nic] =
      match nic.vnicProfile with
      | some vp =>
        match vp.network with
        | some net =>
          if vp.id.isSome || net.name.isSome && vp.name.isSome then [sourceOf vp net] else []
        | none => []
      | none => [] := by
  unfold getRequiredVnicProfiles
  rw [collectSources, collectSources]
  cases h1 : nic.vnicProfile with
  | none => rfl
  | some vp =>
    cases h2 : vp.network with
    | none => simp [h2]
    | some net =>
      cases h3 : vp.id <;> cases h4 : net.name <;> cases h5 : vp.name <;>
        simp [createSourceNetworkIdentifier, VnicProfile.Id, VnicProfile.Name, Network.Name,
          sourceOf, h2, h3, h4, h5]

/-- A source resolves to no entry exactly when no entry of the list has its identifier or its
name as key. -/
theorem resolveProfile_none_iff (mapping : List NetworkResourceMappingItem) (id name : StrPtr) :
    resolveProfile (IndexNetworkByIDAndName mapping).1 (IndexNetworkByIDAndName mapping).2
        ⟨some id, some name⟩ = none ↔
      ∀ m ∈ mapping, idKey m ≠ some id.val ∧ nameKey m ≠ some name.val := by
  simp only [resolveProfile, Option.some_bind, mapByID_get, mapByName_get]
  cases h1 : mapping.find? (fun m => decide (idKey m = some id.val)) with
  | some item =>
    simp only [Option.orElse]
    refine ⟨fun h => (by cases h), fun hall => ?_⟩
    exfalso
    have hm := List.mem_of_find?_eq_some h1
    have hp := List.find?_some h1
    exact (hall item hm).1 (by simpa using hp)
  | none =>
    simp only [Option.orElse]
    rw [List.find?_eq_none] at h1 ⊢
    constructor
    · intro h2 m hm
      exact ⟨by simpa using h1 m hm, by simpa using h2 m hm⟩
    · intro hall m hm
      simpa using (hall m hm).2

theorem withID_append (id : CheckID) (xs ys : List ValidationFailure) :
    withID id (xs ++ ys) = withID id xs ++ withID id ys := by
  simp [withID]

theorem withID_eq_nil (id : CheckID) (xs : List ValidationFailure)
    (h : ∀ f ∈ xs, f.ID ≠ id) : withID id xs = [] := by
  simp only [withID, List.filter_eq_nil_iff, decide_eq_true_eq]
  exact h

theorem withID_eq_self (id : CheckID) (xs : List ValidationFailure)
    (h : ∀ f ∈ xs, f.ID = id) : withID id xs = xs := by
  simp only [withID, List.filter_eq_self, decide_eq_true_eq]
  exact h

/-- The SR-IOV check of interfaces without passthrough reports nothing. -/
theorem validateSRIOV_no_passthrough (v : NetworkMappingValidator) (nics : List Nic)
    (mapping : List NetworkResourceMappingItem) (crNamespace : String)
    (h : ∀ nic ∈ nics, ∀ vp, nic.vnicProfile = some vp → IsSRIOV vp = false) :
    validateSRIOV v nics mapping crNamespace = some ([], true) := by
  induction nics with
  | nil => rfl
  | cons nic rest ih =>
    have h1 : validateSRIOVNic v nic mapping crNamespace = some none := by
      unfold validateSRIOVNic
      cases hp : nic.vnicProfile with
      | none => rfl
      | some vp => simp [h nic (List.mem_cons_self _ _) vp hp]
    rw [validateSRIOV, h1, ih (fun n hn => h n (List.mem_cons_of_mem _ hn))]

/-- The `NetworkMappingID` failures of a run that passes the format check are the failures of
the required profiles that resolve to no entry. -/
theorem mappedFailures_mappingID (v : NetworkMappingValidator) (nics : List Nic)
    (mapping : List NetworkResourceMappingItem) (crNamespace : String)
    (dups fls : List ValidationFailure) (valid : Bool)
    (hdup : duplicateScan [] [] mapping = some dups)
    (hsriov : validateSRIOV v nics mapping crNamespace = some (fls, valid)) :
    withID NetworkMappingID (mappedFailures v nics mapping crNamespace dups fls) =
      ((getRequiredVnicProfiles nics).filter
        (fun s => (resolveProfile (IndexNetworkByIDAndName mapping).1
          (IndexNetworkByIDAndName mapping).2 s).isNone)).map lacksMappingFailure := by
  have h1 : withID NetworkMappingID dups = [] :=
    withID_eq_nil _ _ (fun f hf => by rw [duplicateScan_ids mapping [] [] dups hdup f hf]; decide)
  have h2 : withID NetworkMappingID fls = [] :=
    withID_eq_nil _ _ (fun f hf => by
      rcases (validateSRIOV_spec v nics mapping crNamespace fls valid hsriov).2 f hf with
        h | h | h <;> rw [h] <;> decide)
  have h3 : ∀ ts, withID NetworkMappingID (validateTargets v crNamespace ts) = [] :=
    fun ts => withID_eq_nil _ _ (fun f hf => by
      rcases validateTargets_ids v crNamespace ts f hf with h | h <;> rw [h] <;> decide)
  have h4 : ∀ ps : List String, withID NetworkMappingID
      (if ps.length > 1 then [multiplePodFailure ps] else []) = [] := by
    intro ps
    by_cases hp : ps.length > 1 <;> simp [hp, withID, multiplePodFailure]
  have h5 : ∀ xs : List Source,
      withID NetworkMappingID (xs.map lacksMappingFailure) = xs.map lacksMappingFailure :=
    fun xs => withID_eq_self _ _ (fun f hf => by
      obtain ⟨x, _, hx⟩ := List.mem_map.1 hf
      rw [← hx]; rfl)
  simp only [mappedFailures, withID_append, h1, h2, h3, h4, h5, List.nil_append,
    List.append_nil]

theorem resolveProfile_sourceOf (mapping : List NetworkResourceMappingItem) (vp : VnicProfile)
    (net : Network) :
    resolveProfile (IndexNetworkByIDAndName mapping).1 (IndexNetworkByIDAndName mapping).2
      (sourceOf vp net) = matchedEntry mapping vp net := by
  simp [resolveProfile, sourceOf, matchedEntry, mapByID_get, mapByName_get]

/-- The `NetworkTargetID` failures of a run that passes the format check come from the
per-target validation and from the SR-IOV check. -/
theorem mappedFailures_targetID (v : NetworkMappingValidator) (nics : List Nic)
    (mapping : List NetworkResourceMappingItem) (crNamespace : String)
    (dups fls : List ValidationFailure)
    (hdup : duplicateScan [] [] mapping = some dups) :
    withID NetworkTargetID (mappedFailures v nics mapping crNamespace dups fls) =
      withID NetworkTargetID (validateTargets v crNamespace
        (addTargets (IndexNetworkByIDAndName mapping).1 (IndexNetworkByIDAndName mapping).2 []
          (getRequiredVnicProfiles nics))) ++ withID NetworkTargetID fls := by
  have h1 : withID NetworkTargetID dups = [] :=
    withID_eq_nil _ _ (fun f hf => by rw [duplicateScan_ids mapping [] [] dups hdup f hf]; decide)
  have h4 : ∀ ps : List String, withID NetworkTargetID
      (if ps.length > 1 then [multiplePodFailure ps] else []) = [] := by
    intro ps
    by_cases hp : ps.length > 1 <;> simp [hp, withID, multiplePodFailure]
  have h5 : ∀ xs : List Source, withID NetworkTargetID (xs.map lacksMappingFailure) = [] :=
    fun xs => withID_eq_nil _ _ (fun f hf => by
      obtain ⟨x, _, hx⟩ := List.mem_map.1 hf
      rw [← hx]; simp [lacksMappingFailure])
  simp only [mappedFailures, withID_append, h1, h4, h5, List.nil_append, List.append_nil]

/-- The message of a failed lookup holds the name of the target. -/
theorem notFound_message_names_target (name ns err : String) :
    name.data <:+: ("Network Attachment Defintion " ++ ToLoggableResourceName name (some ns) ++
      " has not been found. Error: " ++ err).data := by
  refine ⟨"Network Attachment Defintion ".data ++ ns.data ++ "/".data,
    " has not been found. Error: ".data ++ err.data, ?_⟩
  simp [ToLoggableResourceName, String.data_append]

/-- The `NetworkMultiplePodTargetsID` failures of a run that passes the format check: the one
failure appended when `getPodNetworks` returns more than one label. -/
theorem mappedFailures_podID (v : NetworkMappingValidator) (nics : List Nic)
    (mapping : List NetworkResourceMappingItem) (crNamespace : String)
    (dups fls : List ValidationFailure) (valid : Bool)
    (hdup : duplicateScan [] [] mapping = some dups)
    (hsriov : validateSRIOV v nics mapping crNamespace = some (fls, valid)) :
    withID NetworkMultiplePodTargetsID (mappedFailures v nics mapping crNamespace dups fls) =
      if (getPodNetworks (IndexNetworkByIDAndName mapping).1
          (IndexNetworkByIDAndName mapping).2 nics).length > 1
      then [multiplePodFailure (getPodNetworks (IndexNetworkByIDAndName mapping).1
          (IndexNetworkByIDAndName mapping).2 nics)]
      else [] := by
  have h1 : withID NetworkMultiplePodTargetsID dups = [] :=
    withID_eq_nil _ _ (fun f hf => by rw [duplicateScan_ids mapping [] [] dups hdup f hf]; decide)
  have h2 : withID NetworkMultiplePodTargetsID fls = [] :=
    withID_eq_nil _ _ (fun f hf => by
      rcases (validateSRIOV_spec v nics mapping crNamespace fls valid hsriov).2 f hf with
        h | h | h <;> rw [h] <;> decide)
  have h3 : ∀ ts, withID NetworkMultiplePodTargetsID (validateTargets v crNamespace ts) = [] :=
    fun ts => withID_eq_nil _ _ (fun f hf => by
      rcases validateTargets_ids v crNamespace ts f hf with h | h <;> rw [h] <;> decide)
  have h5 : ∀ xs : List Source,
      withID NetworkMultiplePodTargetsID (xs.map lacksMappingFailure) = [] :=
    fun xs => withID_eq_nil _ _ (fun f hf => by
      obtain ⟨x, _, hx⟩ := List.mem_map.1 hf
      rw [← hx]; simp [lacksMappingFailure])
  simp only [mappedFailures, withID_append, h1, h2, h3, h5, List.nil_append, List.append_nil]
  by_cases hp : (getPodNetworks (IndexNetworkByIDAndName mapping).1
      (IndexNetworkByIDAndName mapping).2 nics).length > 1 <;>
    simp [hp, withID, multiplePodFailure]

/-- The loop body of `getPodNetworks` appends one label for a pod-mapped interface and none
for another. -/
theorem podNetworksOfNic_length (mapping : List NetworkResourceMappingItem) (nic : Nic) :
    (podNetworksOfNic (IndexNetworkByIDAndName mapping).1 (IndexNetworkByIDAndName mapping).2
      nic).length = if podMapped mapping nic = true then 1 else 0 := by
  unfold podNetworksOfNic podMapped podNetworkByName
  cases hp : nic.vnicProfile with
  | none => simp
  | some vp =>
    simp only [mapByID_get, mapByName_get]
    obtain ⟨id, name, network, pt⟩ := vp
    cases id with
    | none =>
      cases name with
      | none => simp [VnicProfile.Id, VnicProfile.Name]
      | some n =>
        obtain ⟨o, ho⟩ : ∃ o, mapping.find? (fun m => decide (nameKey m = some n)) = o :=
          ⟨_, rfl⟩
        simp only [VnicProfile.Id, VnicProfile.Name, Option.none_bind, Option.some_bind, ho]
        cases o with
        | none => simp
        | some item => cases ht : isPodType item.Type_ <;> simp [ht]
    | some i =>
      obtain ⟨o, ho⟩ : ∃ o, mapping.find? (fun m => decide (idKey m = some i)) = o := ⟨_, rfl⟩
      cases name with
      | none =>
        simp only [VnicProfile.Id, VnicProfile.Name, Option.none_bind, Option.some_bind, ho]
        cases o with
        | none => simp
        | some item => cases ht : isPodType item.Type_ <;> simp [ht]
      | some n =>
        obtain ⟨o2, ho2⟩ : ∃ o, mapping.find? (fun m => decide (nameKey m = some n)) = o :=
          ⟨_, rfl⟩
        simp only [VnicProfile.Id, VnicProfile.Name, Option.some_bind, ho, ho2]
        cases o with
        | none =>
          cases o2 with
          | none => simp
          | some item2 => cases ht2 : isPodType item2.Type_ <;> simp [ht2]
        | some item =>
          cases ht : isPodType item.Type_ with
          | true => simp [ht]
          | false =>
            cases o2 with
            | none => simp [ht]
            | some item2 => cases ht2 : isPodType item2.Type_ <;> simp [ht, ht2]

/-- The list that `getPodNetworks` returns has one label for each pod-mapped interface. -/
theorem getPodNetworks_length (mapping : List NetworkResourceMappingItem) (nics : List Nic) :
    (getPodNetworks (IndexNetworkByIDAndName mapping).1 (IndexNetworkByIDAndName mapping).2
      nics).length = nics.countP (podMapped mapping) := by
  induction nics with
  | nil => rfl
  | cons nic rest ih =>
    rw [getPodNetworks, List.length_append, podNetworksOfNic_length, ih, List.countP_cons]
    omega

/-- The loop of `getSROIVNetworkNameForNic` returns the target of the first entry that matches
by name or by identifier, with the namespace of the lookup, and two empty strings when no entry
matches. -/
theorem findSRIOVMapping_eq (mapping : List NetworkResourceMappingItem) (vp : VnicProfile)
    (net : Network) (crNamespace : String) :
    findSRIOVMapping (GetNetworkMappingName net.Name.1 vp.Name.1) vp.Id.1 crNamespace mapping =
      match sriovEntry mapping vp net with
      | some item => (item.Target.Name, lookupNamespace item.Target crNamespace)
      | none => ("", "") := by
  unfold sriovEntry
  induction mapping with
  | nil => rfl
  | cons m rest ih =>
    have hmap : mapNetworkType m crNamespace =
        (m.Target.Name, lookupNamespace m.Target crNamespace) := by
      unfold mapNetworkType lookupNamespace
      cases m.Target.Namespace <;> rfl
    have h1 : (match m.Source.Name with
        | some n => decide (GetNetworkMappingName net.Name.1 vp.Name.1 = n.val)
        | none => false) =
        decide (nameKey m = some (GetNetworkMappingName net.Name.1 vp.Name.1)) := by
      cases hn : m.Source.Name with
      | none => simp [nameKey, hn]
      | some n =>
        simp only [nameKey, hn, Option.map_some', Option.some.injEq]
        exact decide_eq_decide.2 eq_comm
    have h2 : (match m.Source.ID with
        | some id => decide (vp.Id.1 = id.val)
        | none => false) = decide (idKey m = some vp.Id.1) := by
      cases hid : m.Source.ID with
      | none => simp [idKey, hid]
      | some id =>
        simp only [idKey, hid, Option.map_some', Option.some.injEq]
        exact decide_eq_decide.2 eq_comm
    rw [findSRIOVMapping, h1, h2, List.find?_cons]
    by_cases hb1 : nameKey m = some (GetNetworkMappingName net.Name.1 vp.Name.1)
    · simp [hb1, hmap]
    · by_cases hb2 : idKey m = some vp.Id.1
      · simp [hb1, hb2, hmap]
      · simpa [hb1, hb2] using ih

theorem actionOf_block_iff (id : CheckID) : actionOf id = block ↔ checkToAction id = some block := by
  cases id <;> simp [actionOf, checkToAction, block, log, warn]

theorem actionOf_warn_iff (id : CheckID) : actionOf id = warn ↔ checkToAction id = some warn := by
  cases id <;> simp [actionOf, checkToAction, block, log, warn]

theorem actionOf_of_log (id : CheckID) (h : checkToAction id = some log) : actionOf id = log := by
  simp [actionOf, h]

theorem withMessage_eq_empty (m n : String) : withMessage m n = "" ↔ m = "" ∧ n = "" := by
  unfold withMessage
  by_cases h : m = ""
  · simp [h]
  · simp only [h, if_false, false_and, iff_false]
    intro he
    have hd : (m ++ ", " ++ n).data = [] := by rw [he]
    simp [String.data_append] at hd

theorem action_consts : log ≠ warn ∧ log ≠ block ∧ warn ≠ block ∧ warn ≠ log ∧ block ≠ log ∧
    block ≠ warn := by
  decide

/-- One step of the loop of `processFailures`, by the action of the failure. -/
theorem tallyStep_eq (t : Tally) (f : ValidationFailure) :
    tallyStep t f =
      if actionOf f.ID = warn then { t with warnMessage := withMessage t.warnMessage f.Message }
      else if actionOf f.ID = block then
        { t with valid := false, errorMessage := withMessage t.errorMessage f.Message }
      else t := by
  obtain ⟨h1, h2, h3, h4, h5, h6⟩ := action_consts
  unfold tallyStep
  by_cases h0 : actionOf f.ID = log
  · simp [h0, h1, h2]
  · simp [h0]

/-- The loop of `processFailures`, from any start: `valid` stays true exactly when it was true
and no failure is blocking. -/
theorem foldl_tallyStep_valid (fs : List ValidationFailure) :
    ∀ t : Tally, (fs.foldl tallyStep t).valid = true ↔
      t.valid = true ∧ ∀ f ∈ fs, actionOf f.ID ≠ block := by
  obtain ⟨h1, h2, h3, h4, h5, h6⟩ := action_consts
  induction fs with
  | nil => intro t; simp
  | cons f rest ih =>
    intro t
    rw [List.foldl_cons, ih, tallyStep_eq]
    by_cases hw : actionOf f.ID = warn
    · have hb : actionOf f.ID ≠ block := by rw [hw]; exact h3
      simp only [hw, if_true, List.mem_cons, forall_eq_or_imp]
      constructor
      · rintro ⟨hv, hr⟩; exact ⟨hv, h3, hr⟩
      · rintro ⟨hv, _, hr⟩; exact ⟨hv, hr⟩
    · by_cases hb : actionOf f.ID = block
      · simp only [hw, hb, if_true, if_false, List.mem_cons, forall_eq_or_imp]
        constructor
        · rintro ⟨hv, _⟩; cases hv
        · rintro ⟨_, hne, _⟩; exact (hne rfl).elim
      · simp only [hw, hb, if_false, List.mem_cons, forall_eq_or_imp]
        constructor
        · rintro ⟨hv, hr⟩; exact ⟨hv, hb, hr⟩
        · rintro ⟨hv, _, hr⟩; exact ⟨hv, hr⟩

/-- The loop of `processFailures`, from any start: the warning message stays empty exactly when
it was empty and every warning failure has an empty message. -/
theorem foldl_tallyStep_warn (fs : List ValidationFailure) :
    ∀ t : Tally, (fs.foldl tallyStep t).warnMessage = "" ↔
      t.warnMessage = "" ∧ ∀ f ∈ fs, actionOf f.ID = warn → f.Message = "" := by
  induction fs with
  | nil => intro t; simp
  | cons f rest ih =>
    intro t
    rw [List.foldl_cons, ih, tallyStep_eq]
    by_cases hw : actionOf f.ID = warn
    · simp only [hw, if_true, withMessage_eq_empty, List.mem_cons, forall_eq_or_imp]
      constructor
      · rintro ⟨⟨h1, h2⟩, hr⟩; exact ⟨h1, fun _ => h2, hr⟩
      · rintro ⟨h1, h2, hr⟩; exact ⟨⟨h1, h2 trivial⟩, hr⟩
    · by_cases hb : actionOf f.ID = block
      · simp only [hw, hb, if_true, if_false, List.mem_cons, forall_eq_or_imp]
        constructor
        · rintro ⟨h1, hr⟩; exact ⟨h1, fun h => (hw (hb ▸ h)).elim, hr⟩
        · rintro ⟨h1, _, hr⟩; exact ⟨h1, hr⟩
      · simp only [hw, hb, if_false, List.mem_cons, forall_eq_or_imp]
        constructor
        · rintro ⟨h1, hr⟩; exact ⟨h1, fun h => h.elim, hr⟩
        · rintro ⟨h1, _, hr⟩; exact ⟨h1, hr⟩

/-- The loop of `processFailures` leaves its locals as they are on informational failures. -/
theorem foldl_tallyStep_log (fs : List ValidationFailure)
    (h : ∀ f ∈ fs, actionOf f.ID = log) : ∀ t : Tally, fs.foldl tallyStep t = t := by
  induction fs with
  | nil => intro t; rfl
  | cons f rest ih =>
    intro t
    rw [List.foldl_cons, ih (fun g hg => h g (List.mem_cons_of_mem _ hg))]
    simp [tallyStep, h f (List.mem_cons_self _ _)]

theorem intercalate_go_eq_foldl (sep : String) (ms : List String) :
    ∀ acc : String, String.intercalate.go acc sep ms = ms.foldl (fun a x => a ++ sep ++ x) acc := by
  induction ms with
  | nil => intro acc; rfl
  | cons m rest ih => intro acc; rw [String.intercalate.go, ih, List.foldl_cons]

theorem foldl_withMessage_of_ne (ms : List String) :
    ∀ acc : String, acc ≠ "" →
      ms.foldl withMessage acc = ms.foldl (fun a x => a ++ ", " ++ x) acc := by
  induction ms with
  | nil => intro acc _; rfl
  | cons m rest ih =>
    intro acc hacc
    have hstep : withMessage acc m = acc ++ ", " ++ m := by simp [withMessage, hacc]
    have hne : acc ++ ", " ++ m ≠ "" := by
      rw [← hstep]
      intro h
      exact hacc ((withMessage_eq_empty acc m).1 h).1
    rw [List.foldl_cons, List.foldl_cons, hstep, ih _ hne]

/-- Folding `withMessage` from the empty message: the leading empty strings leave the message
empty, and the rest is joined with a comma and a blank. -/
theorem foldl_withMessage (ms : List String) :
    ms.foldl withMessage "" = joinMessages (ms.dropWhile (fun m => decide (m = ""))) := by
  induction ms with
  | nil => rfl
  | cons m rest ih =>
    by_cases hm : m = ""
    · subst hm
      rw [List.foldl_cons, List.dropWhile_cons]
      simpa [withMessage] using ih
    · have h0 : withMessage "" m = m := by simp [withMessage]
      rw [List.foldl_cons, h0, List.dropWhile_cons]
      simp only [hm, decide_False, Bool.false_eq_true, if_false]
      rw [joinMessages, String.intercalate, intercalate_go_eq_foldl]
      exact foldl_withMessage_of_ne rest m hm

theorem dropWhile_empty_of_ne (ms : List String) (h : ∀ m ∈ ms, m ≠ "") :
    ms.dropWhile (fun m => decide (m = "")) = ms := by
  cases ms with
  | nil => rfl
  | cons m rest => simp [List.dropWhile_cons, h m (List.mem_cons_self _ _)]

/-- The loop of `processFailures`, from any start: the warning message is the fold of
`withMessage` over the messages of the warning failures, the error message the fold over
those of the blocking failures. -/
theorem foldl_tallyStep_messages (fs : List ValidationFailure) :
    ∀ t : Tally,
      (fs.foldl tallyStep t).warnMessage = (messagesOf warn fs).foldl withMessage t.warnMessage ∧
      (fs.foldl tallyStep t).errorMessage =
        (messagesOf block fs).foldl withMessage t.errorMessage := by
  obtain ⟨h1, h2, h3, h4, h5, h6⟩ := action_consts
  induction fs with
  | nil => intro t; exact ⟨rfl, rfl⟩
  | cons f rest ih =>
    intro t
    rw [List.foldl_cons, tallyStep_eq]
    by_cases hw : actionOf f.ID = warn
    · have hw2 : checkToAction f.ID = some warn := (actionOf_warn_iff _).1 hw
      have hb2 : checkToAction f.ID ≠ some block := by rw [hw2]; simpa using h3
      simp only [hw, if_true]
      refine ⟨?_, ?_⟩
      · rw [(ih _).1]; simp [messagesOf, List.filter_cons, hw2]
      · rw [(ih _).2]; simp [messagesOf, List.filter_cons, hb2]
    · have hw2 : checkToAction f.ID ≠ some warn := fun h => hw ((actionOf_warn_iff _).2 h)
      by_cases hb : actionOf f.ID = block
      · have hb2 : checkToAction f.ID = some block := (actionOf_block_iff _).1 hb
        simp only [hb, h6, if_true, if_false]
        refine ⟨?_, ?_⟩
        · rw [(ih _).1]; simp [messagesOf, List.filter_cons, hw2]
        · rw [(ih _).2]; simp [messagesOf, List.filter_cons, hb2]
      · have hb2 : checkToAction f.ID ≠ some block := fun h => hb ((actionOf_block_iff _).2 h)
        simp only [hw, hb, if_false]
        refine ⟨?_, ?_⟩
        · rw [(ih _).1]; simp [messagesOf, List.filter_cons, hw2]
        · rw [(ih _).2]; simp [messagesOf, List.filter_cons, hb2]

theorem repeats_add_firsts (ks : List String) :
    ∀ used : List String, repeats used ks + (firsts used ks).length = ks.length := by
  induction ks with
  | nil => intro used; rfl
  | cons k rest ih =>
    intro used
    have := ih (k :: used)
    by_cases hk : k ∈ used
    · simp only [repeats, firsts, hk, if_true, List.length_cons]; omega
    · simp only [repeats, firsts, hk, if_false, List.length_cons]; omega

theorem mem_firsts (ks : List String) :
    ∀ (used : List String) (x : String), x ∈ firsts used ks ↔ x ∈ ks ∧ x ∉ used := by
  induction ks with
  | nil => intro used x; simp [firsts]
  | cons k rest ih =>
    intro used x
    by_cases hk : k ∈ used
    · simp only [firsts, hk, if_true, ih, List.mem_cons, not_or]
      constructor
      · rintro ⟨h1, _, h3⟩; exact ⟨Or.inr h1, h3⟩
      · rintro ⟨h1 | h1, h3⟩
        · subst h1; exact (h3 hk).elim
        · exact ⟨h1, fun e => h3 (e ▸ hk), h3⟩
    · simp only [firsts, hk, if_false, List.mem_cons, ih, not_or]
      constructor
      · rintro (h1 | ⟨h1, _, h3⟩)
        · subst h1; exact ⟨Or.inl rfl, hk⟩
        · exact ⟨Or.inr h1, h3⟩
      · rintro ⟨h1 | h1, h3⟩
        · exact Or.inl h1
        · by_cases hx : x = k
          · exact Or.inl hx
          · exact Or.inr ⟨h1, hx, h3⟩

theorem nodup_firsts (ks : List String) : ∀ used : List String, (firsts used ks).Nodup := by
  induction ks with
  | nil => intro used; simp [firsts]
  | cons k rest ih =>
    intro used
    by_cases hk : k ∈ used
    · simp only [firsts, hk, if_true]; exact ih _
    · simp only [firsts, hk, if_false, List.nodup_cons]
      refine ⟨?_, ih _⟩
      rw [mem_firsts]
      rintro ⟨_, h⟩
      exact h (List.mem_cons_self _ _)

/-- The repetitions met by a scan that starts with nothing marked used are the duplicate
occurrences of the list. -/
theorem repeats_nil (ks : List String) : repeats [] ks = duplicateOccurrences ks := by
  have hperm : (firsts [] ks).Perm ks.dedup := by
    rw [List.perm_ext_iff_of_nodup (nodup_firsts ks []) (List.nodup_dedup ks)]
    intro x
    simp [mem_firsts]
  have := repeats_add_firsts ks []
  rw [hperm.length_eq] at this
  unfold duplicateOccurrences
  omega

/-- The duplicate scan of a list in which every entry has a name completes, with one failure
for each repetition of an identifier and one for each repetition of a name. -/
theorem duplicateScan_length (mapping : List NetworkResourceMappingItem)
    (hname : ∀ m ∈ mapping, m.Source.Name ≠ none) :
    ∀ usedIDs usedNames : List String,
      ∃ fs, duplicateScan usedIDs usedNames mapping = some fs ∧
        fs.length = repeats usedIDs (mapping.filterMap idKey) +
          repeats usedNames (mapping.filterMap nameKey) := by
  induction mapping with
  | nil => intro _ _; exact ⟨[], rfl, rfl⟩
  | cons m rest ih =>
    intro usedIDs usedNames
    obtain ⟨n, hn⟩ := Option.ne_none_iff_exists'.1 (hname m (List.mem_cons_self _ _))
    obtain ⟨fs, hfs, hlen⟩ := ih (fun x hx => hname x (List.mem_cons_of_mem _ hx))
      (markUsed usedIDs m.Source.ID) (markUsed usedNames m.Source.Name)
    have hN : nameKey m = some n.val := by simp [nameKey, hn]
    have e2 : (duplicateByName usedNames m).length = if n.val ∈ usedNames then 1 else 0 := by
      unfold duplicateByName
      rw [hn]
      by_cases h : n.val ∈ usedNames <;> simp [h]
    cases hid : m.Source.ID with
    | none =>
      have hI : idKey m = none := by simp [idKey, hid]
      have e1 : duplicateByID usedIDs m = some [] := by simp [duplicateByID, hid]
      refine ⟨[] ++ duplicateByName usedNames m ++ fs, by rw [duplicateScan, e1, hfs], ?_⟩
      rw [hid, hn] at hlen
      simp only [List.nil_append, List.length_append, e2, hlen, List.filterMap_cons, hI, hN,
        repeats, markUsed]
      omega
    | some id =>
      have hI : idKey m = some id.val := by simp [idKey, hid]
      have e1 : ∃ f1, duplicateByID usedIDs m = some f1 ∧
          f1.length = if id.val ∈ usedIDs then 1 else 0 := by
        unfold duplicateByID
        rw [hid, hn]
        by_cases h : id.val ∈ usedIDs <;> simp [h]
      obtain ⟨f1, hf1, hl1⟩ := e1
      refine ⟨f1 ++ duplicateByName usedNames m ++ fs, by rw [duplicateScan, hf1, hfs], ?_⟩
      rw [hid, hn] at hlen
      simp only [List.length_append, e2, hl1, hlen, List.filterMap_cons, hI, hN, repeats,
        markUsed]
      omega

/-- The `NetworkSourceDuplicateID` failures of a run that passes the format check are those of
the duplicate scan. -/
theorem mappedFailures_duplicateID (v : NetworkMappingValidator) (nics : List Nic)
    (mapping : List NetworkResourceMappingItem) (crNamespace : String)
    (dups fls : List ValidationFailure) (valid : Bool)
    (hdup : duplicateScan [] [] mapping = some dups)
    (hsriov : validateSRIOV v nics mapping crNamespace = some (fls, valid)) :
    withID NetworkSourceDuplicateID (mappedFailures v nics mapping crNamespace dups fls) =
      dups := by
  have h1 : withID NetworkSourceDuplicateID dups = dups :=
    withID_eq_self _ _ (duplicateScan_ids mapping [] [] dups hdup)
  have h2 : withID NetworkSourceDuplicateID fls = [] :=
    withID_eq_nil _ _ (fun f hf => by
      rcases (validateSRIOV_spec v nics mapping crNamespace fls valid hsriov).2 f hf with
        h | h | h <;> rw [h] <;> decide)
  have h3 : ∀ ts, withID NetworkSourceDuplicateID (validateTargets v crNamespace ts) = [] :=
    fun ts => withID_eq_nil _ _ (fun f hf => by
      rcases validateTargets_ids v crNamespace ts f hf with h | h <;> rw [h] <;> decide)
  have h4 : ∀ ps : List String, withID NetworkSourceDuplicateID
      (if ps.length > 1 then [multiplePodFailure ps] else []) = [] := by
    intro ps
    by_cases hp : ps.length > 1 <;> simp [hp, withID, multiplePodFailure]
  have h5 : ∀ xs : List Source,
      withID NetworkSourceDuplicateID (xs.map lacksMappingFailure) = [] :=
    fun xs => withID_eq_nil _ _ (fun f hf => by
      obtain ⟨x, _, hx⟩ := List.mem_map.1 hf
      rw [← hx]; simp [lacksMappingFailure])
  simp only [mappedFailures, withID_append, h1, h2, h3, h4, h5, List.nil_append,
    List.append_nil]

/-- A run of `ValidateNetworkMapping` that passes the format check returns exactly when the
SR-IOV check runs to its end. -/
theorem ValidateNetworkMapping_returns (v : NetworkMappingValidator) (nics : List Nic)
    (mapping : List NetworkResourceMappingItem) (crNamespace : String)
    (dups fs : List ValidationFailure)
    (hfmt : ∀ m ∈ mapping, ∀ n, m.Source.Name = some n → '/' ∈ n.val.data)
    (hdup : duplicateScan [] [] mapping = some dups)
    (hret : ValidateNetworkMapping v nics (some mapping) crNamespace = some fs) :
    ∃ fls valid, validateSRIOV v nics mapping crNamespace = some (fls, valid) ∧
      fs = mappedFailures v nics mapping crNamespace dups fls := by
  cases hs : validateSRIOV v nics mapping crNamespace with
  | none =>
    have hok := (format_ok_iff mapping).2 hfmt
    simp [ValidateNetworkMapping, hdup, hok, validateMapped, hs] at hret
  | some r =>
    obtain ⟨fls, valid⟩ := r
    rw [ValidateNetworkMapping_mapped v nics mapping crNamespace dups fls valid hfmt hdup hs]
      at hret
    exact ⟨fls, valid, rfl, (Option.some.inj hret).symm⟩

theorem findIdx_first {α : Type} (p : α → Bool) (pre post : List α) (c : α)
    (hpre : ∀ x ∈ pre, p x = false) (hc : p c = true) :
    (pre ++ c :: post).findIdx? p = some pre.length := by
  induction pre with
  | nil => simp [List.findIdx?_cons, hc]
  | cons x rest ih =>
    have hx : p x = false := hpre x (List.mem_cons_self _ _)
    have := ih (fun y hy => hpre y (List.mem_cons_of_mem _ hy))
    simp [List.findIdx?_cons, hx, this]

theorem findIdx_none {α : Type} (p : α → Bool) (l : List α) (h : ∀ x ∈ l, p x = false) :
    l.findIdx? p = none := by
  induction l with
  | nil => rfl
  | cons x rest ih =>
    have hx : p x = false := h x (List.mem_cons_self _ _)
    have := ih (fun y hy => h y (List.mem_cons_of_mem _ hy))
    simp [List.findIdx?_cons, hx, this]

theorem modify_at_length {α : Type} (f : α → α) (pre post : List α) (c : α) :
    (pre ++ c :: post).modify f pre.length = pre ++ f c :: post := by
  induction pre with
  | nil => rfl
  | cons x rest ih => simpa [List.modify_succ_cons] using ih

/-- The `NetworkTypeID` failures of a run that passes the format check come from the
per-target validation and from the SR-IOV check. -/
theorem mappedFailures_typeID (v : NetworkMappingValidator) (nics : List Nic)
    (mapping : List NetworkResourceMappingItem) (crNamespace : String)
    (dups fls : List ValidationFailure)
    (hdup : duplicateScan [] [] mapping = some dups) :
    withID NetworkTypeID (mappedFailures v nics mapping crNamespace dups fls) =
      withID NetworkTypeID (validateTargets v crNamespace
        (addTargets (IndexNetworkByIDAndName mapping).1 (IndexNetworkByIDAndName mapping).2 []
          (getRequiredVnicProfiles nics))) ++ withID NetworkTypeID fls := by
  have h1 : withID NetworkTypeID dups = [] :=
    withID_eq_nil _ _ (fun f hf => by rw [duplicateScan_ids mapping [] [] dups hdup f hf]; decide)
  have h4 : ∀ ps : List String, withID NetworkTypeID
      (if ps.length > 1 then [multiplePodFailure ps] else []) = [] := by
    intro ps
    by_cases hp : ps.length > 1 <;> simp [hp, withID, multiplePodFailure]
  have h5 : ∀ xs : List Source, withID NetworkTypeID (xs.map lacksMappingFailure) = [] :=
    fun xs => withID_eq_nil _ _ (fun f hf => by
      obtain ⟨x, _, hx⟩ := List.mem_map.1 hf
      rw [← hx]; simp [lacksMappingFailure])
  simp only [mappedFailures, withID_append, h1, h4, h5, List.nil_append, List.append_nil]

theorem TargetSet.keys_set (m : TargetSet) (k : ObjectIdentifier) (v : Option StrPtr) :
    (TargetSet.set m k v).map Prod.fst =
      if k ∈ m.map Prod.fst then m.map Prod.fst else m.map Prod.fst ++ [k] := by
  induction m with
  | nil => simp [TargetSet.set]
  | cons e rest ih =>
    obtain ⟨k0, v0⟩ := e
    by_cases h : k0 = k
    · subst h; simp [TargetSet.set]
    · have h' : ¬ k = k0 := fun e => h e.symm
      simp only [TargetSet.set, h, if_false, List.map_cons, ih, List.mem_cons, h', false_or]
      by_cases hm : k ∈ rest.map Prod.fst <;> simp [hm]

theorem TargetSet.nodup_set (m : TargetSet) (k : ObjectIdentifier) (v : Option StrPtr)
    (h : (m.map Prod.fst).Nodup) : ((TargetSet.set m k v).map Prod.fst).Nodup := by
  rw [TargetSet.keys_set]
  by_cases hm : k ∈ m.map Prod.fst
  · simpa [hm] using h
  · simp only [hm, if_false]
    rw [List.nodup_append]
    refine ⟨h, List.nodup_singleton _, ?_⟩
    intro a ha hb
    rw [List.mem_singleton] at hb
    exact hm (hb ▸ ha)

theorem TargetSet.mem_set (m : TargetSet) (k : ObjectIdentifier) (v : Option StrPtr)
    (h : (m.map Prod.fst).Nodup) (k' : ObjectIdentifier) (t' : Option StrPtr) :
    (k', t') ∈ TargetSet.set m k v ↔ (k' = k ∧ t' = v) ∨ (k' ≠ k ∧ (k', t') ∈ m) := by
  induction m with
  | nil => simp [TargetSet.set]
  | cons e rest ih =>
    obtain ⟨k0, v0⟩ := e
    rw [List.map_cons, List.nodup_cons] at h
    by_cases hk : k0 = k
    · subst hk
      simp only [TargetSet.set, if_true, List.mem_cons, Prod.mk.injEq]
      constructor
      · rintro (⟨h1, h2⟩ | h1)
        · exact Or.inl ⟨h1, h2⟩
        · refine Or.inr ⟨?_, Or.inr h1⟩
          intro e
          subst e
          exact h.1 (List.mem_map.2 ⟨(k', t'), h1, rfl⟩)
      · rintro (⟨h1, h2⟩ | ⟨h1, h2 | h2⟩)
        · exact Or.inl ⟨h1, h2⟩
        · exact (h1 h2.1).elim
        · exact Or.inr h2
    · simp only [TargetSet.set, hk, if_false, List.mem_cons, Prod.mk.injEq, ih h.2]
      constructor
      · rintro (⟨h1, h2⟩ | ⟨h1, h2⟩ | ⟨h1, h2⟩)
        · exact Or.inr ⟨fun e => hk (h1 ▸ e), Or.inl ⟨h1, h2⟩⟩
        · exact Or.inl ⟨h1, h2⟩
        · exact Or.inr ⟨h1, Or.inr h2⟩
      · rintro (⟨h1, h2⟩ | ⟨h1, ⟨h2, h3⟩ | h2⟩)
        · exact Or.inr (Or.inl ⟨h1, h2⟩)
        · exact Or.inl ⟨h2, h3⟩
        · exact Or.inr (Or.inr ⟨h1, h2⟩)

theorem addTargets_eq_foldl (mapByID mapByName : ItemMap) (srcs : List Source) :
    ∀ ts : TargetSet, addTargets mapByID mapByName ts srcs =
      (srcs.filterMap (resolveProfile mapByID mapByName)).foldl
        (fun acc item => TargetSet.set acc item.Target item.Type_) ts := by
  induction srcs with
  | nil => intro ts; rfl
  | cons x rest ih =>
    intro ts
    have := ih
    unfold addTargets at this ⊢
    rw [List.foldl_cons, List.filterMap_cons]
    cases h : resolveProfile mapByID mapByName x with
    | none => simpa using this ts
    | some item => simpa using this _

/-- The set of targets built from a list of entries: no key twice, and a key is there with a
type exactly when the last entry of the list with that target has that type. -/
theorem foldl_set_spec (items : List NetworkResourceMappingItem) :
    ((items.foldl (fun acc item => TargetSet.set acc item.Target item.Type_) []).map
        Prod.fst).Nodup ∧
      ∀ k t, (k, t) ∈ items.foldl (fun acc item => TargetSet.set acc item.Target item.Type_) [] ↔
        ∃ pre item post, items = pre ++ item :: post ∧ item.Target = k ∧ item.Type_ = t ∧
          ∀ x ∈ post, x.Target ≠ k := by
  induction items using List.reverseRecOn with
  | nil => simp
  | append_singleton init x ih =>
    obtain ⟨hnd, hmem⟩ := ih
    rw [List.foldl_append, List.foldl_cons, List.foldl_nil]
    refine ⟨TargetSet.nodup_set _ _ _ hnd, ?_⟩
    intro k t
    rw [TargetSet.mem_set _ _ _ hnd, hmem]
    constructor
    · rintro (⟨h1, h2⟩ | ⟨h1, pre, item, post, h2, h3, h4, h5⟩)
      · exact ⟨init, x, [], rfl, h1.symm, h2.symm, by simp⟩
      · refine ⟨pre, item, post ++ [x], by simp [h2], h3, h4, ?_⟩
        intro y hy
        rcases List.mem_append.1 hy with hy | hy
        · exact h5 y hy
        · rw [List.mem_singleton] at hy
          subst hy
          exact fun e => h1 e.symm
    · rintro ⟨pre, item, post, h2, h3, h4, h5⟩
      rcases List.eq_nil_or_concat post with hp | ⟨post', y, hp⟩
      · subst hp
        have h6 : init ++ [x] = pre ++ [item] := h2
        obtain ⟨_, h8⟩ := List.append_inj' h6 rfl
        have h9 : x = item := by simpa using h8
        subst h9
        exact Or.inl ⟨h3.symm, h4.symm⟩
      · subst hp
        have h6 : init ++ [x] = (pre ++ item :: post') ++ [y] := by
          rw [h2]; simp
        obtain ⟨h7, h8⟩ := List.append_inj' h6 rfl
        have h9 : x = y := by simpa using h8
        subst h9
        refine Or.inr ⟨fun e => h5 x (by simp) e.symm, pre, item, post', h7, h3, h4, ?_⟩
        intro z hz
        exact h5 z (by simp [hz])

/-- The loop over `requiredTargetsSet`: `validateNetwork` is applied once to each key, and the
failure is kept when the target is not valid. -/
theorem validateTargets_eq (v : NetworkMappingValidator) (crNamespace : String)
    (ts : TargetSet) :
    validateTargets v crNamespace ts =
      (ts.filter (fun e => !(validateNetwork v e.1 e.2 crNamespace).2)).map
        (fun e => (validateNetwork v e.1 e.2 crNamespace).1) := by
  induction ts with
  | nil => rfl
  | cons e rest ih =>
    obtain ⟨k, t⟩ := e
    rw [validateTargets, ih, List.filter_cons]
    cases h : (validateNetwork v k t crNamespace).2 <;> simp [h]

/-- Every source that `getRequiredVnicProfiles` collects comes from an interface whose profile
has a network: its identifier and its name are those the accessors give. -/
theorem mem_collectSources (nics : List Nic) :
    ∀ (fresh : Nat) (acc : List Source) (s : Source), s ∈ collectSources fresh acc nics →
      s ∈ acc ∨ ∃ nic ∈ nics, ∃ vp net a b, nic.vnicProfile = some vp ∧ vp.network = some net ∧
        s = ⟨some ⟨a, vp.Id.1⟩, some ⟨b, GetNetworkMappingName net.Name.1 vp.Name.1⟩⟩ := by
  induction nics with
  | nil => intro fresh acc s h; exact Or.inl h
  | cons nic rest ih =>
    intro fresh acc s h
    rw [collectSources] at h
    rcases ih _ _ s h with h1 | ⟨n, hn, rest2⟩
    · cases hp : nic.vnicProfile with
      | none => simp only [hp] at h1; exact Or.inl h1
      | some vp =>
        cases hnet : vp.network with
        | none => simp only [hp, hnet] at h1; exact Or.inl h1
        | some net =>
          simp only [hp, hnet] at h1
          by_cases hreq : (vp.Id.2 || net.Name.2 && vp.Name.2) = true
          · simp only [createSourceNetworkIdentifier, hreq, if_true] at h1
            split at h1
            · exact Or.inl h1
            · rcases List.mem_append.1 h1 with h2 | h2
              · exact Or.inl h2
              · rw [List.mem_singleton] at h2
                exact Or.inr ⟨nic, List.mem_cons_self _ _, vp, net, fresh, fresh + 1, hp, hnet,
                  h2⟩
          · simp only [createSourceNetworkIdentifier, hreq] at h1
            exact Or.inl h1
    · exact Or.inr ⟨n, List.mem_cons_of_mem _ hn, rest2⟩

/-- A run on a configuration in which every interface with a profile is matched by identifier
to an entry of type "multus" whose target the provider finds, no key of the mapping repeats,
every name holds a slash, no interface uses passthrough, and no entry is named by the bare
name of a profile of the inventory: the result is the empty list. -/
theorem valid_configuration_no_failures (v : NetworkMappingValidator) (nics : List Nic)
    (mapping : List NetworkResourceMappingItem) (crNamespace : String)
    (hids : (mapping.filterMap idKey).Nodup) (hnames : (mapping.filterMap nameKey).Nodup)
    (hfmt : ∀ m ∈ mapping, ∀ n, m.Source.Name = some n → '/' ∈ n.val.data)
    (hmatch : ∀ nic ∈ nics, ∀ vp, nic.vnicProfile = some vp →
      ∃ i item t, vp.id = some i ∧
        mapping.find? (fun m => decide (idKey m = some i)) = some item ∧
        item.Type_ = some t ∧ t.val = "multus" ∧
        isFound (v.Find item.Target.Name (lookupNamespace item.Target crNamespace)) = true)
    (hpass : ∀ nic ∈ nics, ∀ vp, nic.vnicProfile = some vp → IsSRIOV vp = false)
    (hbare : ∀ nic ∈ nics, ∀ vp, nic.vnicProfile = some vp → ∀ n, vp.name = some n →
      ∀ m ∈ mapping, nameKey m ≠ some n) :
    ValidateNetworkMapping v nics (some mapping) crNamespace = some [] := by
  have hd : duplicateScan [] [] mapping = some [] :=
    duplicateScan_nil mapping [] [] (by simp) (by simp) hids hnames
  have hs := validateSRIOV_no_passthrough v nics mapping crNamespace hpass
  rw [ValidateNetworkMapping_mapped v nics mapping crNamespace [] [] true hfmt hd hs]
  -- what a required source resolves to
  have hres : ∀ s ∈ getRequiredVnicProfiles nics, ∃ item t,
      resolveProfile (IndexNetworkByIDAndName mapping).1 (IndexNetworkByIDAndName mapping).2 s =
        some item ∧ item.Type_ = some t ∧ t.val = "multus" ∧
        isFound (v.Find item.Target.Name (lookupNamespace item.Target crNamespace)) = true := by
    intro s hs
    rcases mem_collectSources nics 0 [] s hs with h | ⟨nic, hn, vp, net, a, b, hp, _, rfl⟩
    · cases h
    · obtain ⟨i, item, t, hi, hfind, ht, hm, hf⟩ := hmatch nic hn vp hp
      refine ⟨item, t, ?_, ht, hm, hf⟩
      simp [resolveProfile, mapByID_get, VnicProfile.Id, hi, hfind]
  -- no profile lacks a mapping
  have h1 : (getRequiredVnicProfiles nics).filter
      (fun s => (resolveProfile (IndexNetworkByIDAndName mapping).1
        (IndexNetworkByIDAndName mapping).2 s).isNone) = [] := by
    rw [List.filter_eq_nil_iff]
    intro s hs
    obtain ⟨item, _, hr, _⟩ := hres s hs
    simp [hr]
  -- no interface is pod-mapped
  have h2 : nics.countP (podMapped mapping) = 0 := by
    rw [List.countP_eq_zero]
    intro nic hn
    unfold podMapped
    cases hp : nic.vnicProfile with
    | none => simp
    | some vp =>
      obtain ⟨i, item, t, hi, hfind, ht, hm, _⟩ := hmatch nic hn vp hp
      have hnp : isPodType item.Type_ = false := by
        simp [isPodType, ht, hm]
      have hname : (vp.name.bind fun n =>
          mapping.find? (fun m => decide (nameKey m = some n))) = none := by
        cases hnm : vp.name with
        | none => rfl
        | some n =>
          simp only [Option.some_bind, List.find?_eq_none]
          intro m hmem
          simpa using hbare nic hn vp hp n hnm m hmem
      simp [hi, hfind, hnp, hname]
  -- every target is valid
  have h3 : validateTargets v crNamespace
      (addTargets (IndexNetworkByIDAndName mapping).1 (IndexNetworkByIDAndName mapping).2 []
        (getRequiredVnicProfiles nics)) = [] := by
    rw [validateTargets_eq, List.map_eq_nil_iff, List.filter_eq_nil_iff]
    rintro ⟨k, t⟩ hkt
    rw [addTargets_eq_foldl] at hkt
    obtain ⟨pre, item, post, hitems, hk, htype, _⟩ := (foldl_set_spec _).2 k t |>.1 hkt
    have hitem : item ∈ (getRequiredVnicProfiles nics).filterMap
        (resolveProfile (IndexNetworkByIDAndName mapping).1
          (IndexNetworkByIDAndName mapping).2) := by
      rw [hitems]; simp
    obtain ⟨s, hs, hr⟩ := List.mem_filterMap.1 hitem
    obtain ⟨item2, t2, hr2, ht2, hm2, hf2⟩ := hres s hs
    rw [hr] at hr2
    cases hr2
    have hne : t2.val ≠ "pod" := by rw [hm2]; decide
    have hlook : (match item.Target.Namespace with
        | some p => p.val
        | none => crNamespace) = lookupNamespace item.Target crNamespace := by
      unfold lookupNamespace
      cases item.Target.Namespace <;> rfl
    have hvalid : (validateNetwork v item.Target item.Type_ crNamespace).2 = true := by
      rw [ht2]
      simp only [validateNetwork, hne, hm2, if_true, if_false, isValidMultusNetwork, hlook]
      cases hfd : v.Find item.Target.Name (lookupNamespace item.Target crNamespace) with
      | error e => simp [isFound, hfd] at hf2
      | ok x => rfl
    simp only [← hk, ← htype, hvalid, Bool.not_true, Bool.false_eq_true, not_false_eq_true]
  simp only [mappedFailures, h1, h3, getPodNetworks_length, h2, List.map_nil, List.append_nil,
    List.nil_append]
  simp

/-- The run in the order of the interfaces is `ValidateNetworkMapping`. -/
theorem ValidateNetworkMappingIn_required (v : NetworkMappingValidator) (nics : List Nic)
    (mapping : Option (List NetworkResourceMappingItem)) (crNamespace : String) :
    ValidateNetworkMappingIn (getRequiredVnicProfiles nics) v nics mapping crNamespace =
      ValidateNetworkMapping v nics mapping crNamespace := rfl

/-- A run of `ValidateNetworkMapping`, whatever the order of the required profiles, on a
present mapping whose names all hold a slash: the duplicates, the profiles that lack a
mapping, the pod-network failure, the target failures and the SR-IOV failures. -/
theorem ValidateNetworkMappingIn_mapped (sources : List Source) (v : NetworkMappingValidator)
    (nics : List Nic) (mapping : List NetworkResourceMappingItem) (crNamespace : String)
    (dups fls : List ValidationFailure) (valid : Bool)
    (hfmt : ∀ m ∈ mapping, ∀ n, m.Source.Name = some n → '/' ∈ n.val.data)
    (hdup : duplicateScan [] [] mapping = some dups)
    (hsriov : validateSRIOV v nics mapping crNamespace = some (fls, valid)) :
    ValidateNetworkMappingIn sources v nics (some mapping) crNamespace =
      some (dups ++
        (sources.filter (fun s => (resolveProfile (IndexNetworkByIDAndName mapping).1
          (IndexNetworkByIDAndName mapping).2 s).isNone)).map lacksMappingFailure ++
        (if (getPodNetworks (IndexNetworkByIDAndName mapping).1
            (IndexNetworkByIDAndName mapping).2 nics).length > 1
          then [multiplePodFailure (getPodNetworks (IndexNetworkByIDAndName mapping).1
            (IndexNetworkByIDAndName mapping).2 nics)] else []) ++
        validateTargets v crNamespace
          (addTargets (IndexNetworkByIDAndName mapping).1 (IndexNetworkByIDAndName mapping).2 []
            sources) ++
        fls) := by
  have hok := (format_ok_iff mapping).2 hfmt
  have hv := (validateSRIOV_spec v nics mapping crNamespace fls valid hsriov).1
  simp only [ValidateNetworkMappingIn, hdup, hok, Bool.not_true, Bool.false_eq_true, if_false,
    validateMappedIn, hsriov, matchLoop_eq]
  cases valid with
  | true =>
    have : fls = [] := hv.1 rfl
    subst this
    by_cases hp : (getPodNetworks (IndexNetworkByIDAndName mapping).1
        (IndexNetworkByIDAndName mapping).2 nics).length > 1 <;> simp [hp]
  | false =>
    by_cases hp : (getPodNetworks (IndexNetworkByIDAndName mapping).1
        (IndexNetworkByIDAndName mapping).2 nics).length > 1 <;> simp [hp]

/-- The keys of the set of targets built from a list of entries are the targets of the
entries. -/
theorem foldl_set_keys (items : List NetworkResourceMappingItem) :
    ∀ k : ObjectIdentifier,
      k ∈ (items.foldl (fun acc item => TargetSet.set acc item.Target item.Type_) []).map
        Prod.fst ↔ ∃ item ∈ items, item.Target = k := by
  induction items using List.reverseRecOn with
  | nil => intro k; simp
  | append_singleton init x ih =>
    intro k
    rw [List.foldl_append, List.foldl_cons, List.foldl_nil, TargetSet.keys_set]
    by_cases hx : x.Target ∈ (init.foldl
        (fun acc item => TargetSet.set acc item.Target item.Type_) []).map Prod.fst
    · rw [if_pos hx, ih k]
      constructor
      · rintro ⟨item, hi, hk⟩
        exact ⟨item, List.mem_append_left _ hi, hk⟩
      · rintro ⟨item, hi, hk⟩
        rcases List.mem_append.1 hi with hi | hi
        · exact ⟨item, hi, hk⟩
        · rw [List.mem_singleton] at hi
          subst hi
          rw [← hk]
          exact (ih _).1 hx
    · rw [if_neg hx, List.mem_append, ih k, List.mem_singleton]
      constructor
      · rintro (⟨item, hi, hk⟩ | hk)
        · exact ⟨item, List.mem_append_left _ hi, hk⟩
        · exact ⟨x, by simp, hk.symm⟩
      · rintro ⟨item, hi, hk⟩
        rcases List.mem_append.1 hi with hi | hi
        · exact Or.inl ⟨item, hi, hk⟩
        · rw [List.mem_singleton] at hi
          subst hi
          exact Or.inr hk.symm

/-! ## Theorems -/

/-- C1: with a nil mapping, `ValidateNetworkMapping` returns the empty list when no interface
has an attached vNIC profile and the single failure `NetworkMappingID` ("Network mapping is
missing") when some interface has one; nothing else runs, so the result is the same for every
provider. -/
theorem absent_mapping_result (v v' : NetworkMappingValidator) (nics : List Nic)
    (crNamespace : String) :
    ValidateNetworkMapping v nics none crNamespace =
        some (if ∃ nic ∈ nics, nic.vnicProfile.isSome = true
          then [⟨NetworkMappingID, "Network mapping is missing"⟩] else []) ∧
      ValidateNetworkMapping v' nics none crNamespace =
        ValidateNetworkMapping v nics none crNamespace := by
  refine ⟨?_, rfl⟩
  simp only [ValidateNetworkMapping, missingMappingFailure]
  by_cases h : ∃ nic ∈ nics, nic.vnicProfile.isSome = true
  · rw [if_pos h, if_pos ((hasAtLeastOneWithVNicProfile_iff nics).2 h)]
  · rw [if_neg h, if_neg (fun hh => h ((hasAtLeastOneWithVNicProfile_iff nics).1 hh))]

/-- C2, as stated, fails: a mapping with two entries named "default" yields two failures, the
duplicate of the name and then the format failure. -/
theorem format_abort_not_alone :
    ValidateNetworkMapping noNetworks [] (some twiceDefault) "ns" =
      some [⟨NetworkSourceDuplicateID,
          "There are duplicate source network entries for name: default "⟩,
        ⟨NetworkMappingID, "Network mapping name format is invalid: [default]. " ++
          "Expected format is 'network-name/vnic-profile-name'"⟩] := by
  decide

/-- C2, amended: when some entry of a present mapping has a `Source.Name` without a slash (and
the duplicate scan meets no repeated identifier on an entry without a name), the result of
`ValidateNetworkMapping` is the failures of the duplicate scan, all of them
`NetworkSourceDuplicateID`, followed by exactly one `NetworkMappingID` failure; there is no
`NetworkTargetID`, `NetworkTypeID`, `NetworkMultiplePodTargetsID` or `NetworkConfig` failure, for
every interface list, namespace and provider; and when no `Source.ID` and no `Source.Name`
occurs twice, the result is that one failure. -/
theorem format_abort (v : NetworkMappingValidator) (nics : List Nic)
    (mapping : List NetworkResourceMappingItem) (crNamespace : String)
    (hbad : ∃ m ∈ mapping, ∃ n, m.Source.Name = some n ∧ '/' ∉ n.val.data)
    (hsafe : DupScanSafe mapping) :
    ∃ dups f, ValidateNetworkMapping v nics (some mapping) crNamespace = some (dups ++ [f]) ∧
      f.ID = NetworkMappingID ∧
      duplicateScan [] [] mapping = some dups ∧
      (∀ d ∈ dups, d.ID = NetworkSourceDuplicateID) ∧
      (∀ x ∈ dups ++ [f], x.ID ≠ NetworkTargetID ∧ x.ID ≠ NetworkTypeID ∧
        x.ID ≠ NetworkMultiplePodTargetsID ∧ x.ID ≠ NetworkConfig) ∧
      ((mapping.filterMap idKey).Nodup → (mapping.filterMap nameKey).Nodup → dups = []) := by
  obtain ⟨dups, hd⟩ := duplicateScan_isSome mapping [] [] (by simp) hsafe
  have hids := duplicateScan_ids mapping [] [] dups hd
  have hfmt : (validateSourceNetworkFormat (IndexNetworkByIDAndName mapping).2).2 = false := by
    rw [← Bool.not_eq_true, format_ok_iff]
    intro hall
    obtain ⟨m, hm, n, hn, hno⟩ := hbad
    exact hno (hall m hm n hn)
  have hid := validateSourceNetworkFormat_id _ hfmt
  refine ⟨dups, (validateSourceNetworkFormat (IndexNetworkByIDAndName mapping).2).1, ?_, hid,
    hd, hids, ?_, ?_⟩
  · simp [ValidateNetworkMapping, hd, hfmt]
  · intro x hx
    rcases List.mem_append.1 hx with hx | hx
    · rw [hids x hx]; decide
    · rw [List.mem_singleton] at hx
      rw [hx, hid]; decide
  · intro dI dN
    have := duplicateScan_nil mapping [] [] (by simp) (by simp) dI dN
    rw [hd] at this
    exact (Option.some.inj this)

/-- C2, amended, on the mapping with the two entries named "default". -/
theorem format_abort_witness :
    ∃ dups f, ValidateNetworkMapping noNetworks [] (some twiceDefault) "ns" = some (dups ++ [f]) ∧
      f.ID = NetworkMappingID ∧
      duplicateScan [] [] twiceDefault = some dups ∧
      (∀ d ∈ dups, d.ID = NetworkSourceDuplicateID) ∧
      (∀ x ∈ dups ++ [f], x.ID ≠ NetworkTargetID ∧ x.ID ≠ NetworkTypeID ∧
        x.ID ≠ NetworkMultiplePodTargetsID ∧ x.ID ≠ NetworkConfig) ∧
      ((twiceDefault.filterMap idKey).Nodup → (twiceDefault.filterMap nameKey).Nodup →
        dups = []) :=
  format_abort noNetworks [] twiceDefault "ns"
    ⟨entryNamed 1 "default" "a", by simp [twiceDefault], ⟨1, "default"⟩, rfl, by decide⟩
    (by unfold DupScanSafe twiceDefault; simp [entryNamed])

/-- C3, as stated, fails: a profile that carries an identifier but has no network attached is
not among the required profiles, so with no entry that matches it there is still no failure. -/
theorem lacks_mapping_needs_network :
    ValidateNetworkMapping noNetworks [nicWithoutNetwork] (some []) "ns" = some [] := by
  decide

/-- C3, amended: for a single interface and a present mapping whose names all hold a slash
(the duplicate scan and the SR-IOV check running to their end), `ValidateNetworkMapping` emits a
`NetworkMappingID` failure if and only if the profile has a network attached, carries an
identifier or both a network name and a profile name, and no entry has `Source.ID` equal to the
profile identifier or `Source.Name` equal to the composite network-name/profile-name (an
attribute that is unset reading as the empty string).  There is at most one such failure, and
it is the "lacks mapping" failure that names the profile identifier. -/
theorem lacks_mapping_iff (v : NetworkMappingValidator) (nic : Nic)
    (mapping : List NetworkResourceMappingItem) (crNamespace : String)
    (hfmt : ∀ m ∈ mapping, ∀ n, m.Source.Name = some n → '/' ∈ n.val.data)
    (hsafe : DupScanSafe mapping)
    (hsriov : SriovCompletes v [nic] mapping crNamespace) :
    ∃ fs, ValidateNetworkMapping v [nic] (some mapping) crNamespace = some fs ∧
      ((∃ f ∈ fs, f.ID = NetworkMappingID) ↔
        ∃ vp net, nic.vnicProfile = some vp ∧ vp.network = some net ∧
          (vp.id.isSome = true ∨ (net.name.isSome = true ∧ vp.name.isSome = true)) ∧
          ∀ m ∈ mapping, idKey m ≠ some vp.Id.1 ∧
            nameKey m ≠ some (GetNetworkMappingName net.Name.1 vp.Name.1)) ∧
      (withID NetworkMappingID fs).length ≤ 1 ∧
      ∀ f ∈ fs, f.ID = NetworkMappingID → ∃ vp, nic.vnicProfile = some vp ∧
        f.Message = "Required source Vnic Profile '" ++ vp.Id.1 ++ "' lacks mapping" := by
  obtain ⟨dups, hd⟩ := duplicateScan_isSome mapping [] [] (by simp) hsafe
  obtain ⟨⟨fls, valid⟩, hs⟩ := Option.isSome_iff_exists.1 hsriov
  refine ⟨_, ValidateNetworkMapping_mapped v [nic] mapping crNamespace dups fls valid hfmt hd hs,
    ?_⟩
  have hmem : ∀ f, (f ∈ mappedFailures v [nic] mapping crNamespace dups fls ∧
      f.ID = NetworkMappingID) ↔
      f ∈ withID NetworkMappingID (mappedFailures v [nic] mapping crNamespace dups fls) := by
    intro f; simp [withID]
  have hkey := mappedFailures_mappingID v [nic] mapping crNamespace dups fls valid hd hs
  rw [getRequiredVnicProfiles_single] at hkey
  cases hp : nic.vnicProfile with
  | none =>
    simp only [hp] at hkey
    refine ⟨⟨?_, ?_⟩, by simp [hkey], ?_⟩
    · rintro ⟨f, hf, hid⟩
      have := (hmem f).1 ⟨hf, hid⟩
      simp [hkey] at this
    · rintro ⟨vp, net, h, _⟩; cases h
    · intro f hf hid
      have := (hmem f).1 ⟨hf, hid⟩
      simp [hkey] at this
  | some vp =>
    cases hn : vp.network with
    | none =>
      simp only [hp, hn] at hkey
      refine ⟨⟨?_, ?_⟩, by simp [hkey], ?_⟩
      · rintro ⟨f, hf, hid⟩
        have := (hmem f).1 ⟨hf, hid⟩
        simp [hkey] at this
      · rintro ⟨vp2, net, h, h2, _⟩
        cases h; rw [hn] at h2; cases h2
      · intro f hf hid
        have := (hmem f).1 ⟨hf, hid⟩
        simp [hkey] at this
    | some net =>
      simp only [hp, hn] at hkey
      have hres := resolveProfile_none_iff mapping ⟨0, vp.Id.1⟩
        ⟨1, GetNetworkMappingName net.Name.1 vp.Name.1⟩
      by_cases hreq : (vp.id.isSome || net.name.isSome && vp.name.isSome) = true
      · rw [if_pos hreq] at hkey
        have hreq2 : vp.id.isSome = true ∨ (net.name.isSome = true ∧ vp.name.isSome = true) := by
          simpa using hreq
        by_cases hnone : resolveProfile (IndexNetworkByIDAndName mapping).1
            (IndexNetworkByIDAndName mapping).2 (sourceOf vp net) = none
        · have hk2 : withID NetworkMappingID
              (mappedFailures v [nic] mapping crNamespace dups fls) =
              [lacksMappingFailure (sourceOf vp net)] := by
            rw [hkey]; simp [hnone]
          refine ⟨⟨fun _ => ⟨vp, net, rfl, hn, hreq2, hres.1 hnone⟩, fun _ => ?_⟩,
            by simp [hk2], ?_⟩
          · refine ⟨lacksMappingFailure (sourceOf vp net), ?_, rfl⟩
            exact ((hmem _).2 (by rw [hk2]; simp)).1
          · intro f hf hid
            have := (hmem f).1 ⟨hf, hid⟩
            rw [hk2, List.mem_singleton] at this
            exact ⟨vp, rfl, by rw [this]; rfl⟩
        · have hk2 : withID NetworkMappingID
              (mappedFailures v [nic] mapping crNamespace dups fls) = [] := by
            rw [hkey]; simp [hnone]
          refine ⟨⟨?_, ?_⟩, by simp [hk2], ?_⟩
          · rintro ⟨f, hf, hid⟩
            have := (hmem f).1 ⟨hf, hid⟩
            simp [hk2] at this
          · rintro ⟨vp2, net2, h, h2, _, hall⟩
            cases h; rw [hn] at h2; cases h2
            exact absurd (hres.2 hall) hnone
          · intro f hf hid
            have := (hmem f).1 ⟨hf, hid⟩
            simp [hk2] at this
      · rw [if_neg hreq] at hkey
        refine ⟨⟨?_, ?_⟩, by simp [hkey], ?_⟩
        · rintro ⟨f, hf, hid⟩
          have := (hmem f).1 ⟨hf, hid⟩
          simp [hkey] at this
        · rintro ⟨vp2, net2, h, h2, h3, _⟩
          cases h; rw [hn] at h2; cases h2
          exact (hreq (by simpa using h3)).elim
        · intro f hf hid
          have := (hmem f).1 ⟨hf, hid⟩
          simp [hkey] at this

/-- C3, amended, on the interface net1/prof1 and a mapping that only has an entry for
net2/prof2. -/
theorem lacks_mapping_iff_witness :
    ∃ fs, ValidateNetworkMapping noNetworks [nic1]
        (some [entryNamed 1 "net2/prof2" "a"]) "ns" = some fs ∧
      ((∃ f ∈ fs, f.ID = NetworkMappingID) ↔
        ∃ vp net, nic1.vnicProfile = some vp ∧ vp.network = some net ∧
          (vp.id.isSome = true ∨ (net.name.isSome = true ∧ vp.name.isSome = true)) ∧
          ∀ m ∈ [entryNamed 1 "net2/prof2" "a"], idKey m ≠ some vp.Id.1 ∧
            nameKey m ≠ some (GetNetworkMappingName net.Name.1 vp.Name.1)) ∧
      (withID NetworkMappingID fs).length ≤ 1 ∧
      ∀ f ∈ fs, f.ID = NetworkMappingID → ∃ vp, nic1.vnicProfile = some vp ∧
        f.Message = "Required source Vnic Profile '" ++ vp.Id.1 ++ "' lacks mapping" :=
  lacks_mapping_iff noNetworks nic1 [entryNamed 1 "net2/prof2" "a"] "ns"
    (by
      intro m hm n hn
      rw [List.mem_singleton] at hm
      subst hm
      cases hn
      decide)
    (List.pairwise_singleton _ _)
    (by unfold SriovCompletes; decide)

/-- C4: `validateNetwork` on a target and a type.  With the type absent the target is valid
when its namespace is absent and a `NetworkTypeID` failure when it is present; the type "pod" is
valid; a type other than "pod" and "multus" is a `NetworkTypeID` failure.  In the four cases the
provider is not asked: the outcome is the same for every provider. -/
theorem validateNetwork_without_lookup (v v' : NetworkMappingValidator) (name : String)
    (ns : Option StrPtr) (p : StrPtr) (addr : Nat) (t : StrPtr) (crNamespace : String)
    (hpod : t.val ≠ "pod") (hmultus : t.val ≠ "multus") :
    validateNetwork v ⟨name, none⟩ none crNamespace = (ValidationFailure.zero, true) ∧
      ((validateNetwork v ⟨name, some p⟩ none crNamespace).2 = false ∧
        (validateNetwork v ⟨name, some p⟩ none crNamespace).1.ID = NetworkTypeID) ∧
      validateNetwork v ⟨name, ns⟩ (some ⟨addr, "pod"⟩) crNamespace =
        (ValidationFailure.zero, true) ∧
      ((validateNetwork v ⟨name, ns⟩ (some t) crNamespace).2 = false ∧
        (validateNetwork v ⟨name, ns⟩ (some t) crNamespace).1.ID = NetworkTypeID) ∧
      (validateNetwork v' ⟨name, ns⟩ none crNamespace =
          validateNetwork v ⟨name, ns⟩ none crNamespace ∧
        validateNetwork v' ⟨name, ns⟩ (some ⟨addr, "pod"⟩) crNamespace =
          validateNetwork v ⟨name, ns⟩ (some ⟨addr, "pod"⟩) crNamespace ∧
        validateNetwork v' ⟨name, ns⟩ (some t) crNamespace =
          validateNetwork v ⟨name, ns⟩ (some t) crNamespace) := by
  refine ⟨rfl, ⟨rfl, rfl⟩, ?_, ⟨?_, ?_⟩, rfl, ?_, ?_⟩
  · simp [validateNetwork]
  · simp [validateNetwork, hpod, hmultus]
  · simp [validateNetwork, hpod, hmultus]
  · simp [validateNetwork]
  · simp [validateNetwork, hpod, hmultus]

/-- C4 on the target "nad1", the namespace "other" and the type "bridge". -/
theorem validateNetwork_without_lookup_witness :
    validateNetwork noNetworks ⟨"nad1", none⟩ none "ns" = (ValidationFailure.zero, true) ∧
      ((validateNetwork noNetworks ⟨"nad1", some ⟨3, "other"⟩⟩ none "ns").2 = false ∧
        (validateNetwork noNetworks ⟨"nad1", some ⟨3, "other"⟩⟩ none "ns").1.ID =
          NetworkTypeID) ∧
      validateNetwork noNetworks ⟨"nad1", none⟩ (some ⟨5, "pod"⟩) "ns" =
        (ValidationFailure.zero, true) ∧
      ((validateNetwork noNetworks ⟨"nad1", none⟩ (some ⟨7, "bridge"⟩) "ns").2 = false ∧
        (validateNetwork noNetworks ⟨"nad1", none⟩ (some ⟨7, "bridge"⟩) "ns").1.ID =
          NetworkTypeID) ∧
      (validateNetwork ⟨fun _ _ => Except.ok ⟨Except.ok []⟩⟩ ⟨"nad1", none⟩ none "ns" =
          validateNetwork noNetworks ⟨"nad1", none⟩ none "ns" ∧
        validateNetwork ⟨fun _ _ => Except.ok ⟨Except.ok []⟩⟩ ⟨"nad1", none⟩
            (some ⟨5, "pod"⟩) "ns" =
          validateNetwork noNetworks ⟨"nad1", none⟩ (some ⟨5, "pod"⟩) "ns" ∧
        validateNetwork ⟨fun _ _ => Except.ok ⟨Except.ok []⟩⟩ ⟨"nad1", none⟩
            (some ⟨7, "bridge"⟩) "ns" =
          validateNetwork noNetworks ⟨"nad1", none⟩ (some ⟨7, "bridge"⟩) "ns") :=
  validateNetwork_without_lookup noNetworks ⟨fun _ _ => Except.ok ⟨Except.ok []⟩⟩ "nad1" none
    ⟨3, "other"⟩ 5 ⟨7, "bridge"⟩ "ns" (by decide) (by decide)

/-- C5, as stated, fails on two returns of the code.  The profile net1/prof1 is matched by an
entry of type "multus" whose target the provider does not find, but another entry is named
"default": the format check aborts the call, no lookup is made and the result holds no
`NetworkTargetID` failure.  And a profile without a network that an entry of type "multus"
matches by identifier is not a required profile: its target is not looked up and the result is
empty. -/
theorem multus_lookup_not_reached :
    ValidateNetworkMapping noNetworks [nic1]
        (some [multusEntry, entryNamed 3 "default" "x"]) "ns" =
        some [⟨NetworkMappingID, "Network mapping name format is invalid: [default]. " ++
          "Expected format is 'network-name/vnic-profile-name'"⟩] ∧
      ValidateNetworkMapping noNetworks [nicWithoutNetwork]
        (some [entryWithID 1 "vnic-profile-1" "nad1" (some ⟨2, "multus"⟩)]) "ns" = some [] := by
  decide

/-- C5, amended: for an inventory of one interface without passthrough whose profile has its
network attached (as in net1/prof1) and carries an identifier or both names, and a present
mapping that passes the duplicate scan and the format check and in which the profile resolves,
by identifier first and by composite name second, to an entry of type "multus",
`ValidateNetworkMapping` asks the provider for
`Target.Name` in `Target.Namespace` when that is set and in the namespace of the caller
otherwise; when the provider reports an error the result has exactly one `NetworkTargetID`
failure, whose message holds `Target.Name`, and when the provider finds the resource it has
none. -/
theorem multus_target_lookup (v : NetworkMappingValidator) (nic : Nic) (vp : VnicProfile)
    (net : Network) (mapping : List NetworkResourceMappingItem) (crNamespace : String)
    (item : NetworkResourceMappingItem) (t : StrPtr)
    (hnic : nic.vnicProfile = some vp) (hnet : vp.network = some net)
    (hreq : vp.id.isSome = true ∨ (net.name.isSome = true ∧ vp.name.isSome = true))
    (hpass : IsSRIOV vp = false)
    (hfmt : ∀ m ∈ mapping, ∀ n, m.Source.Name = some n → '/' ∈ n.val.data)
    (hsafe : DupScanSafe mapping)
    (hmatch : matchedEntry mapping vp net = some item)
    (htype : item.Type_ = some t) (hmultus : t.val = "multus") :
    ∃ fs, ValidateNetworkMapping v [nic] (some mapping) crNamespace = some fs ∧
      withID NetworkTargetID fs =
        (match v.Find item.Target.Name (lookupNamespace item.Target crNamespace) with
        | Except.error err =>
          [⟨NetworkTargetID, "Network Attachment Defintion " ++
            ToLoggableResourceName item.Target.Name
              (some (lookupNamespace item.Target crNamespace)) ++
            " has not been found. Error: " ++ err⟩]
        | Except.ok _ => []) ∧
      ∀ f ∈ withID NetworkTargetID fs, item.Target.Name.data <:+: f.Message.data := by
  obtain ⟨dups, hd⟩ := duplicateScan_isSome mapping [] [] (by simp) hsafe
  have hs : validateSRIOV v [nic] mapping crNamespace = some ([], true) :=
    validateSRIOV_no_passthrough v [nic] mapping crNamespace (by
      intro n hn vp2 hvp2
      rw [List.mem_singleton] at hn
      subst hn
      rw [hnic] at hvp2
      cases hvp2
      exact hpass)
  have hreq2 : (vp.id.isSome || net.name.isSome && vp.name.isSome) = true := by
    simpa using hreq
  have hkey := mappedFailures_targetID v [nic] mapping crNamespace dups [] hd
  rw [getRequiredVnicProfiles_single] at hkey
  simp only [hnic, hnet, hreq2, if_true, addTargets, List.foldl_cons, List.foldl_nil,
    resolveProfile_sourceOf, hmatch, TargetSet.set, validateTargets, withID, List.filter_nil,
    List.append_nil] at hkey
  have hv : validateNetwork v item.Target item.Type_ crNamespace =
      isValidMultusNetwork v item.Target crNamespace := by
    rw [htype]
    have hne : t.val ≠ "pod" := by rw [hmultus]; decide
    simp [validateNetwork, hne, hmultus]
  have hns : (match item.Target.Namespace with
      | some p => p.val
      | none => crNamespace) = lookupNamespace item.Target crNamespace := by
    unfold lookupNamespace
    cases item.Target.Namespace <;> rfl
  have hfs : withID NetworkTargetID (mappedFailures v [nic] mapping crNamespace dups []) =
      (match v.Find item.Target.Name (lookupNamespace item.Target crNamespace) with
      | Except.error err =>
        [⟨NetworkTargetID, "Network Attachment Defintion " ++
          ToLoggableResourceName item.Target.Name
            (some (lookupNamespace item.Target crNamespace)) ++
          " has not been found. Error: " ++ err⟩]
      | Except.ok _ => []) := by
    rw [withID, hkey, hv]
    unfold isValidMultusNetwork
    rw [hns]
    cases hfind : v.Find item.Target.Name (lookupNamespace item.Target crNamespace) <;>
      simp [hfind, ValidationFailure.zero]
  refine ⟨_, ValidateNetworkMapping_mapped v [nic] mapping crNamespace dups [] true hfmt hd hs,
    hfs, ?_⟩
  rw [hfs]
  intro f hf
  cases hfind : v.Find item.Target.Name (lookupNamespace item.Target crNamespace) with
  | error err =>
    rw [hfind] at hf
    simp only [List.mem_singleton] at hf
    rw [hf]
    exact notFound_message_names_target _ _ _
  | ok x =>
    rw [hfind] at hf
    simp at hf

/-- C5, amended, on the interface net1/prof1, the entry that maps net1/prof1 to "nad1" with
the type "multus" and no namespace, and a provider that finds nothing. -/
theorem multus_target_lookup_witness :
    ∃ fs, ValidateNetworkMapping noNetworks [nic1] (some [multusEntry]) "ns" = some fs ∧
      withID NetworkTargetID fs =
        (match noNetworks.Find multusEntry.Target.Name
            (lookupNamespace multusEntry.Target "ns") with
        | Except.error err =>
          [⟨NetworkTargetID, "Network Attachment Defintion " ++
            ToLoggableResourceName multusEntry.Target.Name
              (some (lookupNamespace multusEntry.Target "ns")) ++
            " has not been found. Error: " ++ err⟩]
        | Except.ok _ => []) ∧
      ∀ f ∈ withID NetworkTargetID fs, multusEntry.Target.Name.data <:+: f.Message.data :=
  multus_target_lookup noNetworks nic1 ⟨some "vnic-profile-1", some "prof1",
      some ⟨some "n1", some "net1"⟩, false⟩ ⟨some "n1", some "net1"⟩ [multusEntry] "ns"
    multusEntry ⟨2, "multus"⟩ rfl rfl (Or.inl rfl) rfl
    (by
      intro m hm n hn
      rw [List.mem_singleton] at hm
      subst hm
      cases hn
      decide)
    (List.pairwise_singleton _ _) (by decide) rfl rfl

/-- C6 at the failing input: two interfaces, net1/prof1 and net2/prof2, each mapped by its
composite name with the type left out, give no failure at all, because `getPodNetworks` asks
the name index for the bare profile name; the same two interfaces mapped by identifier give
the `NetworkMultiplePodTargetsID` failure. -/
theorem pod_targets_by_name_missed :
    ValidateNetworkMapping noNetworks [nic1, nic2] (some podByName) "ns" = some [] ∧
      ValidateNetworkMapping noNetworks [nic1, nic2] (some podByID) "ns" =
        some [⟨NetworkMultiplePodTargetsID,
          "There are more than one source networks mapped to a pod network: " ++
            "[vnic-profile-1 vnic-profile-2] "⟩] := by
  decide

/-- C7, as stated, fails: two interfaces that reference the same profile, mapped to the pod
network, give the `NetworkMultiplePodTargetsID` failure. -/
theorem same_pod_source_twice :
    ValidateNetworkMapping noNetworks [nic1, nic1] (some podEntry) "ns" =
      some [⟨NetworkMultiplePodTargetsID,
        "There are more than one source networks mapped to a pod network: " ++
          "[vnic-profile-1 vnic-profile-1] "⟩] := by
  decide

/-- C7, amended: on a present mapping that passes the format check (the duplicate scan and the
SR-IOV check running to their end), `ValidateNetworkMapping` emits a
`NetworkMultiplePodTargetsID` failure if and only if more than one interface is pod-mapped, the
interfaces being counted one by one and not by distinct source; there is at most one such
failure.  In particular an inventory whose interfaces are all the same pod-mapped interface
gets the failure exactly when it has two interfaces or more. -/
theorem multiple_pod_per_interface (v : NetworkMappingValidator) (nics : List Nic)
    (mapping : List NetworkResourceMappingItem) (crNamespace : String)
    (hfmt : ∀ m ∈ mapping, ∀ n, m.Source.Name = some n → '/' ∈ n.val.data)
    (hsafe : DupScanSafe mapping)
    (hsriov : SriovCompletes v nics mapping crNamespace) :
    ∃ fs, ValidateNetworkMapping v nics (some mapping) crNamespace = some fs ∧
      ((∃ f ∈ fs, f.ID = NetworkMultiplePodTargetsID) ↔ 1 < nics.countP (podMapped mapping)) ∧
      (withID NetworkMultiplePodTargetsID fs).length ≤ 1 ∧
      ∀ nic, (∀ x ∈ nics, x = nic) → podMapped mapping nic = true →
        ((∃ f ∈ fs, f.ID = NetworkMultiplePodTargetsID) ↔ 2 ≤ nics.length) := by
  obtain ⟨dups, hd⟩ := duplicateScan_isSome mapping [] [] (by simp) hsafe
  obtain ⟨⟨fls, valid⟩, hs⟩ := Option.isSome_iff_exists.1 hsriov
  refine ⟨_, ValidateNetworkMapping_mapped v nics mapping crNamespace dups fls valid hfmt hd hs,
    ?_⟩
  have hkey := mappedFailures_podID v nics mapping crNamespace dups fls valid hd hs
  rw [getPodNetworks_length] at hkey
  have hmem : (∃ f ∈ mappedFailures v nics mapping crNamespace dups fls,
      f.ID = NetworkMultiplePodTargetsID) ↔ 1 < nics.countP (podMapped mapping) := by
    have h1 : (∃ f ∈ mappedFailures v nics mapping crNamespace dups fls,
        f.ID = NetworkMultiplePodTargetsID) ↔
        ∃ f, f ∈ withID NetworkMultiplePodTargetsID
          (mappedFailures v nics mapping crNamespace dups fls) := by
      simp [withID]
    rw [h1, hkey]
    by_cases hc : nics.countP (podMapped mapping) > 1
    · simp [hc]
    · simp [hc]
  refine ⟨hmem, ?_, ?_⟩
  · rw [hkey]
    by_cases hc : nics.countP (podMapped mapping) > 1 <;> simp [hc]
  · intro nic hall hpod
    rw [hmem]
    have hcount : nics.countP (podMapped mapping) = nics.length := by
      rw [List.countP_eq_length]
      intro x hx
      rw [hall x hx]
      exact hpod
    rw [hcount]
    omega

/-- C7, amended, on two interfaces that are both the interface net1/prof1, mapped by identifier
to the pod network. -/
theorem multiple_pod_per_interface_witness :
    ∃ fs, ValidateNetworkMapping noNetworks [nic1, nic1] (some podEntry) "ns" = some fs ∧
      ((∃ f ∈ fs, f.ID = NetworkMultiplePodTargetsID) ↔
        1 < [nic1, nic1].countP (podMapped podEntry)) ∧
      (withID NetworkMultiplePodTargetsID fs).length ≤ 1 ∧
      ∀ nic, (∀ x ∈ [nic1, nic1], x = nic) → podMapped podEntry nic = true →
        ((∃ f ∈ fs, f.ID = NetworkMultiplePodTargetsID) ↔ 2 ≤ [nic1, nic1].length) :=
  multiple_pod_per_interface noNetworks [nic1, nic1] podEntry "ns"
    (by
      intro m hm n hn
      simp only [podEntry, List.mem_singleton] at hm
      subst hm
      cases hn)
    (List.pairwise_singleton _ _)
    (by unfold SriovCompletes; decide)

/-- C8: for an interface whose profile has the passthrough flag set (and a network attached)
and is mapped to a target that the provider finds, when the configuration of the resource
parses with a string under "type", `validateSRIOV` yields no failure for the interface when
the string is "sriov" and exactly one failure, a `NetworkTypeID` failure, when it is another
string. -/
theorem sriov_type_check (v : NetworkMappingValidator) (nic : Nic) (vp : VnicProfile)
    (net : Network) (mapping : List NetworkResourceMappingItem) (crNamespace : String)
    (item : NetworkResourceMappingItem) (nad : NetworkAttachmentDefinition)
    (cnf : List (String × JsonValue)) (t : String)
    (hnic : nic.vnicProfile = some vp) (hpass : vp.passThrough = true)
    (hnet : vp.network = some net)
    (hmap : sriovEntry mapping vp net = some item)
    (hfind : v.Find item.Target.Name (lookupNamespace item.Target crNamespace) = Except.ok nad)
    (hcfg : nad.Config = Except.ok cnf)
    (htype : cnfGet cnf "type" = some (JsonValue.str t)) :
    validateSRIOVNic v nic mapping crNamespace =
        some (if t = "sriov" then none
          else some (notSriovFailure item.Target.Name
            (lookupNamespace item.Target crNamespace))) ∧
      validateSRIOV v [nic] mapping crNamespace =
        some (if t = "sriov" then ([], true)
          else ([notSriovFailure item.Target.Name (lookupNamespace item.Target crNamespace)],
            false)) ∧
      (notSriovFailure item.Target.Name (lookupNamespace item.Target crNamespace)).ID =
        NetworkTypeID := by
  have h1 : validateSRIOVNic v nic mapping crNamespace =
      some (if t = "sriov" then none
        else some (notSriovFailure item.Target.Name
          (lookupNamespace item.Target crNamespace))) := by
    unfold validateSRIOVNic
    simp only [hnic, IsSRIOV, hpass, if_true, getSROIVNetworkNameForNic, hnet,
      findSRIOVMapping_eq, hmap, hfind, hcfg, htype]
    by_cases ht : t = "sriov" <;> simp [ht, notSriovFailure]
  refine ⟨h1, ?_, rfl⟩
  rw [validateSRIOV, h1, validateSRIOV]
  by_cases ht : t = "sriov" <;> simp [ht]

/-- C8 on the passthrough interface net1/prof1, mapped to "nad1", with a resource of type
"bridge". -/
theorem sriov_type_check_witness :
    validateSRIOVNic (networksOfType "bridge") sriovNic [multusEntry] "ns" =
        some (if "bridge" = "sriov" then none
          else some (notSriovFailure multusEntry.Target.Name
            (lookupNamespace multusEntry.Target "ns"))) ∧
      validateSRIOV (networksOfType "bridge") [sriovNic] [multusEntry] "ns" =
        some (if "bridge" = "sriov" then ([], true)
          else ([notSriovFailure multusEntry.Target.Name
            (lookupNamespace multusEntry.Target "ns")], false)) ∧
      (notSriovFailure multusEntry.Target.Name (lookupNamespace multusEntry.Target "ns")).ID =
        NetworkTypeID :=
  sriov_type_check (networksOfType "bridge") sriovNic
    ⟨some "vnic-profile-1", some "prof1", some ⟨some "n1", some "net1"⟩, true⟩
    ⟨some "n1", some "net1"⟩ [multusEntry] "ns" multusEntry
    ⟨Except.ok [("cniVersion", JsonValue.str "0.3.1"), ("type", JsonValue.str "bridge")]⟩
    [("cniVersion", JsonValue.str "0.3.1"), ("type", JsonValue.str "bridge")] "bridge"
    rfl rfl rfl (by decide) rfl rfl (by decide)

/-- C9: `processFailures` computes an overall pass if and only if no failure of the list has a
CheckID that `checkToAction` maps to `block`, and, when the read and the update of the status
succeed, it returns no error in exactly that case; so one blocking failure forces the overall
failure whatever else the list holds.  A list of informational failures only leaves the
warning and the error message empty and gives the all-clear verdict. -/
theorem processFailures_pass_iff (client : Client) (now : Nat)
    (failures : List ValidationFailure) (vmiCrName : String) (inst : VirtualMachineImport)
    (hget : client.Get vmiCrName = Except.ok inst)
    (hupd : client.Update ⟨updateCondition inst.Conditions (verdict (tally failures)).1
      (verdict (tally failures)).2.1 (verdict (tally failures)).2.2 now⟩ = none) :
    ((tally failures).valid = true ↔ ∀ f ∈ failures, checkToAction f.ID ≠ some block) ∧
      ((processFailures client now failures vmiCrName).err = none ↔
        ∀ f ∈ failures, checkToAction f.ID ≠ some block) ∧
      ((∀ f ∈ failures, checkToAction f.ID = some log) →
        tally failures = ⟨true, "", ""⟩ ∧
        verdict (tally failures) = (okReason, "All mapping rules checks passed", true)) := by
  have hvalid : (tally failures).valid = true ↔
      ∀ f ∈ failures, checkToAction f.ID ≠ some block := by
    rw [tally, foldl_tallyStep_valid]
    simp [actionOf_block_iff]
  refine ⟨hvalid, ?_, ?_⟩
  · rw [← hvalid]
    unfold processFailures
    simp only [hget, hupd]
    cases hv : (tally failures).valid <;> simp
  · intro hall
    have ht : tally failures = ⟨true, "", ""⟩ :=
      foldl_tallyStep_log failures (fun f hf => actionOf_of_log _ (hall f hf)) _
    exact ⟨ht, by rw [ht]; rfl⟩

/-- C9 on one blocking failure between two warnings. -/
theorem processFailures_pass_iff_witness :
    ((tally [⟨NicPluggedID, "w1"⟩, ⟨VMUsbID, "e"⟩, ⟨DiskBackupID, "w2"⟩]).valid = true ↔
        ∀ f ∈ [(⟨NicPluggedID, "w1"⟩ : ValidationFailure), ⟨VMUsbID, "e"⟩, ⟨DiskBackupID, "w2"⟩],
          checkToAction f.ID ≠ some block) ∧
      ((processFailures okClient 5
          [⟨NicPluggedID, "w1"⟩, ⟨VMUsbID, "e"⟩, ⟨DiskBackupID, "w2"⟩] "vm").err = none ↔
        ∀ f ∈ [(⟨NicPluggedID, "w1"⟩ : ValidationFailure), ⟨VMUsbID, "e"⟩, ⟨DiskBackupID, "w2"⟩],
          checkToAction f.ID ≠ some block) ∧
      ((∀ f ∈ [(⟨NicPluggedID, "w1"⟩ : ValidationFailure), ⟨VMUsbID, "e"⟩, ⟨DiskBackupID, "w2"⟩],
          checkToAction f.ID = some log) →
        tally [⟨NicPluggedID, "w1"⟩, ⟨VMUsbID, "e"⟩, ⟨DiskBackupID, "w2"⟩] = ⟨true, "", ""⟩ ∧
        verdict (tally [⟨NicPluggedID, "w1"⟩, ⟨VMUsbID, "e"⟩, ⟨DiskBackupID, "w2"⟩]) =
          (okReason, "All mapping rules checks passed", true)) :=
  processFailures_pass_iff okClient 5
    [⟨NicPluggedID, "w1"⟩, ⟨VMUsbID, "e"⟩, ⟨DiskBackupID, "w2"⟩] "vm" ⟨[]⟩ rfl rfl

/-- C10, as stated, fails: a warning failure with an empty message leaves the warning message
empty, and the verdict recorded is the all-clear one. -/
theorem empty_warning_is_all_clear :
    verdict (tally [⟨NicPluggedID, ""⟩]) = (okReason, "All mapping rules checks passed", true) ∧
      checkToAction NicPluggedID = some warn ∧
      (processFailures okClient 5 [⟨NicPluggedID, ""⟩] "vm").updated =
        some ⟨[⟨VirtualMachineImportConditionType.MappingRulesChecking, ConditionTrue,
          some okReason, some "All mapping rules checks passed", some 5, some 5⟩]⟩ := by
  decide

/-- C10, amended: the verdict that `processFailures` records is the blocking one (reason
`MappingRulesCheckingFailed`, status false) when a blocking failure is present; the
warnings-only one (reason `MappingRulesCheckingReportedWarnings`, status true) when no blocking
failure is present and some warning failure has a message that is not empty; and the all-clear
one (reason `MappingRulesCheckingCompleted`, status true) otherwise, in particular when every
warning failure has an empty message.  It is the verdict handed to `updateCondition` whenever
the read of the status succeeds. -/
theorem verdict_tri_state (client : Client) (now : Nat) (failures : List ValidationFailure)
    (vmiCrName : String) :
    verdict (tally failures) =
        (if ∃ f ∈ failures, checkToAction f.ID = some block then
          (errorReason, (tally failures).errorMessage, false)
        else if ∃ f ∈ failures, checkToAction f.ID = some warn ∧ f.Message ≠ "" then
          (warnReason, (tally failures).warnMessage, true)
        else (okReason, "All mapping rules checks passed", true)) ∧
      (processFailures client now failures vmiCrName).updated =
        (match client.Get vmiCrName with
        | Except.error _ => none
        | Except.ok inst =>
          some ⟨updateCondition inst.Conditions (verdict (tally failures)).1
            (verdict (tally failures)).2.1 (verdict (tally failures)).2.2 now⟩) := by
  constructor
  · have hvalid : (tally failures).valid = true ↔
        ¬ ∃ f ∈ failures, checkToAction f.ID = some block := by
      rw [tally, foldl_tallyStep_valid]
      simp [actionOf_block_iff]
    have hwarn : (tally failures).warnMessage = "" ↔
        ¬ ∃ f ∈ failures, checkToAction f.ID = some warn ∧ f.Message ≠ "" := by
      rw [tally, foldl_tallyStep_warn]
      simp [actionOf_warn_iff]
    unfold verdict
    by_cases hb : ∃ f ∈ failures, checkToAction f.ID = some block
    · have hv : (tally failures).valid = false := by
        rw [← Bool.not_eq_true, hvalid]; exact fun h => h hb
      simp [hb, hv]
    · have hv : (tally failures).valid = true := hvalid.2 hb
      by_cases hw : ∃ f ∈ failures, checkToAction f.ID = some warn ∧ f.Message ≠ ""
      · have hm : (tally failures).warnMessage ≠ "" := fun h => (hwarn.1 h) hw
        rw [if_neg hb, if_pos hw]
        simp [hv, hm]
      · have hm : (tally failures).warnMessage = "" := hwarn.2 hw
        rw [if_neg hb, if_neg hw]
        simp [hv, hm]
  · unfold processFailures
    cases hg : client.Get vmiCrName with
    | error e => rfl
    | ok inst =>
      simp only []
      cases hu : client.Update ⟨updateCondition inst.Conditions (verdict (tally failures)).1
          (verdict (tally failures)).2.1 (verdict (tally failures)).2.2 now⟩ with
      | some e => rfl
      | none => cases hv : (tally failures).valid <;> simp

/-- C11, as stated, fails: a warning failure with an empty message followed by a warning
failure with the message "a" gives the warning message "a", and the comma-join of the two
messages is ", a". -/
theorem leading_empty_message_dropped :
    (tally [⟨NicPluggedID, ""⟩, ⟨NicPluggedID, "a"⟩]).warnMessage = "a" ∧
      joinMessages (messagesOf warn [⟨NicPluggedID, ""⟩, ⟨NicPluggedID, "a"⟩]) = ", a" := by
  decide

/-- C11, amended: the warning message that `processFailures` builds is the messages of the
warning failures, in the order of the list and without the empty messages that come before the
first message that is not empty, joined with a comma and a blank; the error message is built in
the same way from the blocking failures.  When no warning failure has an empty message the
warning message is the join of all their messages, and likewise for the error message. -/
theorem messages_joined (failures : List ValidationFailure) :
    (tally failures).warnMessage =
        joinMessages ((messagesOf warn failures).dropWhile (fun m => decide (m = ""))) ∧
      (tally failures).errorMessage =
        joinMessages ((messagesOf block failures).dropWhile (fun m => decide (m = ""))) ∧
      ((∀ m ∈ messagesOf warn failures, m ≠ "") →
        (tally failures).warnMessage = joinMessages (messagesOf warn failures)) ∧
      ((∀ m ∈ messagesOf block failures, m ≠ "") →
        (tally failures).errorMessage = joinMessages (messagesOf block failures)) := by
  have hw : (tally failures).warnMessage =
      joinMessages ((messagesOf warn failures).dropWhile (fun m => decide (m = ""))) := by
    rw [tally, (foldl_tallyStep_messages failures _).1, foldl_withMessage]
  have he : (tally failures).errorMessage =
      joinMessages ((messagesOf block failures).dropWhile (fun m => decide (m = ""))) := by
    rw [tally, (foldl_tallyStep_messages failures _).2, foldl_withMessage]
  refine ⟨hw, he, ?_, ?_⟩
  · intro h; rw [hw, dropWhile_empty_of_ne _ h]
  · intro h; rw [he, dropWhile_empty_of_ne _ h]

/-- C12, as stated, fails: none of the CheckIDs of the network mapping validator is a key of
`checkToAction`. -/
theorem network_checks_unlisted :
    checkToAction NetworkMappingID = none ∧ checkToAction NetworkSourceDuplicateID = none ∧
      checkToAction NetworkMultiplePodTargetsID = none ∧ checkToAction NetworkTargetID = none ∧
      checkToAction NetworkTypeID = none ∧ checkToAction NetworkConfig = none := by
  decide

/-- C12, amended: `checkToAction` gives one action, `log`, `warn` or `block`, to each CheckID
of the NIC, storage and VM rules that it lists, and it has no entry for the six CheckIDs of
the network mapping validator (nor for the zero CheckID); for those the index expression
`checkToAction[id]` yields the zero action `log`. -/
theorem checkToAction_domain (id : CheckID) :
    (checkToAction id = none ↔
        id ∈ [unset, NetworkMappingID, NetworkSourceDuplicateID, NetworkMultiplePodTargetsID,
          NetworkTargetID, NetworkTypeID, NetworkConfig]) ∧
      (checkToAction id = none ∨ checkToAction id = some log ∨ checkToAction id = some warn ∨
        checkToAction id = some block) ∧
      (checkToAction id = none → actionOf id = log) := by
  cases id <;> simp [checkToAction, actionOf, log, warn, block]

/-- C13: on a present mapping in which every entry has a `Source.Name`, the duplicate scan
completes and the `NetworkSourceDuplicateID` failures of `ValidateNetworkMapping` are its
failures: their number is the number of duplicate occurrences among the `Source.ID` values plus
the number of duplicate occurrences among the `Source.Name` values, each being the number of
entries with the key less the number of distinct keys.  So a repeated identifier gives at
least one such failure.  The call returns whenever the format check fails or the SR-IOV check
runs to its end. -/
theorem duplicate_failures_count (v : NetworkMappingValidator) (nics : List Nic)
    (mapping : List NetworkResourceMappingItem) (crNamespace : String)
    (hname : ∀ m ∈ mapping, m.Source.Name ≠ none) :
    ∃ dups, duplicateScan [] [] mapping = some dups ∧
      dups.length = duplicateOccurrences (mapping.filterMap idKey) +
        duplicateOccurrences (mapping.filterMap nameKey) ∧
      (¬ (mapping.filterMap idKey).Nodup → 1 ≤ dups.length) ∧
      (∀ fs, ValidateNetworkMapping v nics (some mapping) crNamespace = some fs →
        withID NetworkSourceDuplicateID fs = dups) ∧
      (((∀ m ∈ mapping, ∀ n, m.Source.Name = some n → '/' ∈ n.val.data) →
          SriovCompletes v nics mapping crNamespace) →
        ∃ fs, ValidateNetworkMapping v nics (some mapping) crNamespace = some fs) := by
  obtain ⟨dups, hd, hlen⟩ := duplicateScan_length mapping hname [] []
  rw [repeats_nil, repeats_nil] at hlen
  have hpos : ¬ (mapping.filterMap idKey).Nodup →
      1 ≤ duplicateOccurrences (mapping.filterMap idKey) := by
    intro hnd
    have hsub := List.dedup_sublist (mapping.filterMap idKey)
    have hle := hsub.length_le
    have hne : (mapping.filterMap idKey).dedup.length ≠ (mapping.filterMap idKey).length := by
      intro he
      exact hnd ((List.dedup_eq_self.1 (hsub.eq_of_length he)))
    unfold duplicateOccurrences
    omega
  refine ⟨dups, hd, hlen, fun hnd => by have := hpos hnd; omega, ?_, ?_⟩
  · intro fs hret
    by_cases hfmt : ∀ m ∈ mapping, ∀ n, m.Source.Name = some n → '/' ∈ n.val.data
    · obtain ⟨fls, valid, hs, hfs⟩ :=
        ValidateNetworkMapping_returns v nics mapping crNamespace dups fs hfmt hd hret
      rw [hfs, mappedFailures_duplicateID v nics mapping crNamespace dups fls valid hd hs]
    · have hbad : (validateSourceNetworkFormat (IndexNetworkByIDAndName mapping).2).2 =
          false := by
        rw [← Bool.not_eq_true, format_ok_iff]; exact hfmt
      have hid := validateSourceNetworkFormat_id _ hbad
      simp only [ValidateNetworkMapping, hd, hbad, Bool.not_false, if_true,
        Option.some.injEq] at hret
      rw [← hret, withID_append, withID_eq_self _ _ (duplicateScan_ids mapping [] [] dups hd),
        withID_eq_nil _ [_] (by
          intro f hf
          rw [List.mem_singleton] at hf
          rw [hf, hid]; decide), List.append_nil]
  · intro hsriov
    by_cases hfmt : ∀ m ∈ mapping, ∀ n, m.Source.Name = some n → '/' ∈ n.val.data
    · obtain ⟨⟨fls, valid⟩, hs⟩ := Option.isSome_iff_exists.1 (hsriov hfmt)
      exact ⟨_, ValidateNetworkMapping_mapped v nics mapping crNamespace dups fls valid hfmt hd
        hs⟩
    · have hbad : (validateSourceNetworkFormat (IndexNetworkByIDAndName mapping).2).2 =
          false := by
        rw [← Bool.not_eq_true, format_ok_iff]; exact hfmt
      exact ⟨dups ++ [(validateSourceNetworkFormat (IndexNetworkByIDAndName mapping).2).1],
        by simp [ValidateNetworkMapping, hd, hbad]⟩

/-- C13 on three entries with the same identifier, two of them with the same name: two
duplicate identifiers and one duplicate name. -/
theorem duplicate_failures_count_witness :
    ∃ dups, duplicateScan [] [] tripleDuplicate = some dups ∧
      dups.length = duplicateOccurrences (tripleDuplicate.filterMap idKey) +
        duplicateOccurrences (tripleDuplicate.filterMap nameKey) ∧
      (¬ (tripleDuplicate.filterMap idKey).Nodup → 1 ≤ dups.length) ∧
      (∀ fs, ValidateNetworkMapping noNetworks [nic1] (some tripleDuplicate) "ns" = some fs →
        withID NetworkSourceDuplicateID fs = dups) ∧
      (((∀ m ∈ tripleDuplicate, ∀ n, m.Source.Name = some n → '/' ∈ n.val.data) →
          SriovCompletes noNetworks [nic1] tripleDuplicate "ns") →
        ∃ fs, ValidateNetworkMapping noNetworks [nic1] (some tripleDuplicate) "ns" = some fs) :=
  duplicate_failures_count noNetworks [nic1] tripleDuplicate "ns" (by decide)

/-- C14 at the failing input: two entries with the same `Source.ID` and no `Source.Name`, each
with one of the two set.  The message of the duplicate identifier dereferences the nil name:
the duplicate scan panics and so does `ValidateNetworkMapping`, where the same two entries
with names are reported as duplicates. -/
theorem duplicate_id_without_name_panics :
    (∀ m ∈ idOnlyTwice, m.Source.ID ≠ none ∨ m.Source.Name ≠ none) ∧
      duplicateScan [] [] idOnlyTwice = none ∧
      ValidateNetworkMapping noNetworks [] (some idOnlyTwice) "ns" = none ∧
      duplicateScan [] []
          [⟨⟨some ⟨1, "x"⟩, some ⟨3, "n/a"⟩⟩, ⟨"a", none⟩, none⟩,
            ⟨⟨some ⟨2, "x"⟩, some ⟨4, "n/b"⟩⟩, ⟨"b", none⟩, none⟩] =
        some [⟨NetworkSourceDuplicateID,
          "There are duplicate source network entries for ID: n/b "⟩] := by
  decide

/-- C15 at the failing input: two interfaces that reference the same profile.  The keys of
`sourcesSet` hold pointers to new cells, so `getRequiredVnicProfiles` returns the profile
twice, and with a mapping that has no entry for it `ValidateNetworkMapping` yields two "lacks
mapping" failures. -/
theorem required_profiles_not_deduplicated :
    getRequiredVnicProfiles [nic1, nic1] =
        [⟨some ⟨0, "vnic-profile-1"⟩, some ⟨1, "net1/prof1"⟩⟩,
          ⟨some ⟨2, "vnic-profile-1"⟩, some ⟨3, "net1/prof1"⟩⟩] ∧
      ValidateNetworkMapping noNetworks [nic1, nic1] (some []) "ns" =
        some [⟨NetworkMappingID, "Required source Vnic Profile 'vnic-profile-1' lacks mapping"⟩,
          ⟨NetworkMappingID, "Required source Vnic Profile 'vnic-profile-1' lacks mapping"⟩] := by
  decide

/-- C19 at the failing input: a passthrough interface mapped to a resource whose configuration
parses without the key "type", or with a number under it.  The type assertion panics:
`validateSRIOV` and `ValidateNetworkMapping` return nothing, also for the interfaces that
follow. -/
theorem sriov_type_assertion_panics :
    validateSRIOV (networksWithConfig [("cniVersion", JsonValue.str "0.3.1")]) [sriovNic, nic2]
        [multusEntry] "ns" = none ∧
      validateSRIOV (networksWithConfig [("type", JsonValue.num 1)]) [sriovNic, nic2]
        [multusEntry] "ns" = none ∧
      ValidateNetworkMapping (networksWithConfig [("cniVersion", JsonValue.str "0.3.1")])
        [sriovNic, nic2] (some [multusEntry]) "ns" = none := by
  decide

/-- C18, as stated, fails: an entry that matches by identifier only and comes first is taken,
although a later entry matches by composite name. -/
theorem sriov_earlier_identifier_wins :
    getSROIVNetworkNameForNic sriovProfile idThenName "ns" = some ("byid", "ns") := by
  decide

/-- C18, amended: for a passthrough profile with its network attached,
`getSROIVNetworkNameForNic` returns the target of the first entry, in the order of the list,
whose `Source.Name` is the composite network-name/profile-name or whose `Source.ID` is the
profile identifier; the namespace is `Target.Namespace` of that entry when set and the
namespace of the caller otherwise, and both strings are empty when no entry matches.  An entry
that matches by name is the one returned when no entry before it matches by identifier. -/
theorem sriov_first_match (vp : VnicProfile) (net : Network)
    (mapping : List NetworkResourceMappingItem) (crNamespace : String)
    (hnet : vp.network = some net) :
    getSROIVNetworkNameForNic vp mapping crNamespace =
        some (match sriovEntry mapping vp net with
          | some item => (item.Target.Name, lookupNamespace item.Target crNamespace)
          | none => ("", "")) ∧
      ∀ pre item post, mapping = pre ++ item :: post →
        nameKey item = some (GetNetworkMappingName net.Name.1 vp.Name.1) →
        (∀ m ∈ pre, nameKey m ≠ some (GetNetworkMappingName net.Name.1 vp.Name.1) ∧
          idKey m ≠ some vp.Id.1) →
        getSROIVNetworkNameForNic vp mapping crNamespace =
          some (item.Target.Name, lookupNamespace item.Target crNamespace) := by
  have h1 : getSROIVNetworkNameForNic vp mapping crNamespace =
      some (match sriovEntry mapping vp net with
        | some item => (item.Target.Name, lookupNamespace item.Target crNamespace)
        | none => ("", "")) := by
    simp only [getSROIVNetworkNameForNic, hnet, findSRIOVMapping_eq]
  refine ⟨h1, ?_⟩
  intro pre item post hmap hname hpre
  have hentry : sriovEntry mapping vp net = some item := by
    subst hmap
    unfold sriovEntry
    rw [List.find?_append]
    have hnone : pre.find? (fun m =>
        decide (nameKey m = some (GetNetworkMappingName net.Name.1 vp.Name.1)) ||
          decide (idKey m = some vp.Id.1)) = none := by
      rw [List.find?_eq_none]
      intro m hm
      simp [(hpre m hm).1, (hpre m hm).2]
    rw [hnone]
    simp [List.find?_cons, hname]
  rw [h1, hentry]

/-- C18, amended, on the profile net1/prof1 and the list whose first entry matches by
identifier and whose second entry matches by name. -/
theorem sriov_first_match_witness :
    getSROIVNetworkNameForNic sriovProfile idThenName "ns" =
        some (match sriovEntry idThenName sriovProfile ⟨some "n1", some "net1"⟩ with
          | some item => (item.Target.Name, lookupNamespace item.Target "ns")
          | none => ("", "")) ∧
      ∀ pre item post, idThenName = pre ++ item :: post →
        nameKey item = some (GetNetworkMappingName (Network.Name ⟨some "n1", some "net1"⟩).1
          sriovProfile.Name.1) →
        (∀ m ∈ pre, nameKey m ≠ some (GetNetworkMappingName
            (Network.Name ⟨some "n1", some "net1"⟩).1 sriovProfile.Name.1) ∧
          idKey m ≠ some sriovProfile.Id.1) →
        getSROIVNetworkNameForNic sriovProfile idThenName "ns" =
          some (item.Target.Name, lookupNamespace item.Target "ns") :=
  sriov_first_match sriovProfile ⟨some "n1", some "net1"⟩ idThenName "ns" rfl

/-- C20: `updateCondition` on a list whose first condition of type `MappingRulesChecking` is
`c` replaces `c` by the merged condition and leaves every other condition as it is: message,
reason and heartbeat time are the new ones, the status is the new status, and the transition
time is `now` when the old status differs from the new one and the old transition time
otherwise.  On a list without a condition of that type it appends exactly one condition, with
both times equal to `now`. -/
theorem updateCondition_merge (pre post others : List VirtualMachineImportCondition)
    (c : VirtualMachineImportCondition) (reason message : String) (status : Bool) (now : Nat)
    (hpre : ∀ x ∈ pre, x.Type_ ≠ VirtualMachineImportConditionType.MappingRulesChecking)
    (hc : c.Type_ = VirtualMachineImportConditionType.MappingRulesChecking)
    (hothers : ∀ x ∈ others, x.Type_ ≠ VirtualMachineImportConditionType.MappingRulesChecking) :
    updateCondition (pre ++ c :: post) reason message status now =
        pre ++ mergedCondition c reason message status now :: post ∧
      ((mergedCondition c reason message status now).LastTransitionTime = some now ↔
        (c.Status ≠ (if status then ConditionTrue else ConditionFalse) ∨
          c.LastTransitionTime = some now)) ∧
      (c.Status = (if status then ConditionTrue else ConditionFalse) →
        (mergedCondition c reason message status now).LastTransitionTime =
          c.LastTransitionTime) ∧
      updateCondition others reason message status now =
        others ++ [⟨VirtualMachineImportConditionType.MappingRulesChecking,
          if status then ConditionTrue else ConditionFalse, some reason, some message, some now,
          some now⟩] := by
  refine ⟨?_, ?_, ?_, ?_⟩
  · have hfind := findIdx_first
      (fun x : VirtualMachineImportCondition =>
        decide (x.Type_ = VirtualMachineImportConditionType.MappingRulesChecking))
      pre post c (by simpa using hpre) (by simpa using hc)
    simp only [updateCondition, findConditionOfType, hfind, modify_at_length]
    congr 2
    cases status
    · by_cases hs : c.Status = ConditionFalse <;> simp [mergedCondition, hs]
    · by_cases hs : c.Status = ConditionTrue <;> simp [mergedCondition, hs]
  · by_cases hs : c.Status = (if status then ConditionTrue else ConditionFalse)
    · simp [mergedCondition, hs]
    · simp [mergedCondition, hs]
  · intro hs
    simp [mergedCondition, hs]
  · have hfind := findIdx_none
      (fun x : VirtualMachineImportCondition =>
        decide (x.Type_ = VirtualMachineImportConditionType.MappingRulesChecking))
      others (by simpa using hothers)
    simp only [updateCondition, findConditionOfType, hfind]
    cases status <;> simp

/-- C20 on a list with a condition of another type before the condition of type
`MappingRulesChecking`, and on a list with the former only. -/
theorem updateCondition_merge_witness :
    updateCondition ([readyCondition] ++ checkedCondition :: []) "R" "M" false 9 =
        [readyCondition] ++ mergedCondition checkedCondition "R" "M" false 9 :: [] ∧
      ((mergedCondition checkedCondition "R" "M" false 9).LastTransitionTime = some 9 ↔
        (checkedCondition.Status ≠ (if false then ConditionTrue else ConditionFalse) ∨
          checkedCondition.LastTransitionTime = some 9)) ∧
      (checkedCondition.Status = (if false then ConditionTrue else ConditionFalse) →
        (mergedCondition checkedCondition "R" "M" false 9).LastTransitionTime =
          checkedCondition.LastTransitionTime) ∧
      updateCondition [readyCondition] "R" "M" false 9 =
        [readyCondition] ++ [⟨VirtualMachineImportConditionType.MappingRulesChecking,
          if false then ConditionTrue else ConditionFalse, some "R", some "M", some 9,
          some 9⟩] :=
  updateCondition_merge [readyCondition] [] [readyCondition] checkedCondition "R" "M" false 9
    (by decide) rfl (by decide)

/-- C17: for a single interface without passthrough whose profile has an identifier that is
the `Source.ID` of the entry `A` (the one the identifier index holds), the matching loop
resolves the profile to `A` whatever entry has the composite name of the profile as
`Source.Name`: the only target accumulated is the one of `A`, with the type of `A`, so the
`NetworkTypeID` and `NetworkTargetID` failures are those of `validateNetwork` on `A`, and there
is none when the type of `A` is "pod". -/
theorem identifier_match_first (v : NetworkMappingValidator) (nic : Nic) (vp : VnicProfile)
    (net : Network) (mapping : List NetworkResourceMappingItem) (crNamespace : String)
    (A : NetworkResourceMappingItem)
    (hnic : nic.vnicProfile = some vp) (hnet : vp.network = some net)
    (hid : vp.id.isSome = true) (hpass : IsSRIOV vp = false)
    (hfmt : ∀ m ∈ mapping, ∀ n, m.Source.Name = some n → '/' ∈ n.val.data)
    (hsafe : DupScanSafe mapping)
    (hA : mapping.find? (fun m => decide (idKey m = some vp.Id.1)) = some A) :
    matchedEntry mapping vp net = some A ∧
      (∀ (acc : TargetSet × List ValidationFailure) (a b : Nat) (name : String),
        matchProfile (IndexNetworkByIDAndName mapping).1 (IndexNetworkByIDAndName mapping).2 acc
          ⟨some ⟨a, vp.Id.1⟩, some ⟨b, name⟩⟩ = (TargetSet.set acc.1 A.Target A.Type_, acc.2)) ∧
      addTargets (IndexNetworkByIDAndName mapping).1 (IndexNetworkByIDAndName mapping).2 []
        (getRequiredVnicProfiles [nic]) = [(A.Target, A.Type_)] ∧
      ∃ fs, ValidateNetworkMapping v [nic] (some mapping) crNamespace = some fs ∧
        withID NetworkTypeID fs =
          withID NetworkTypeID (validateTargets v crNamespace [(A.Target, A.Type_)]) ∧
        withID NetworkTargetID fs =
          withID NetworkTargetID (validateTargets v crNamespace [(A.Target, A.Type_)]) ∧
        ((∃ t, A.Type_ = some t ∧ t.val = "pod") →
          withID NetworkTypeID fs = [] ∧ withID NetworkTargetID fs = []) := by
  have hm : matchedEntry mapping vp net = some A := by simp [matchedEntry, hA]
  have hreq : (vp.id.isSome || net.name.isSome && vp.name.isSome) = true := by simp [hid]
  have hts : addTargets (IndexNetworkByIDAndName mapping).1 (IndexNetworkByIDAndName mapping).2
      [] (getRequiredVnicProfiles [nic]) = [(A.Target, A.Type_)] := by
    rw [getRequiredVnicProfiles_single]
    simp only [hnic, hnet, hreq, if_true, addTargets, List.foldl_cons, List.foldl_nil,
      resolveProfile_sourceOf, hm, TargetSet.set]
  obtain ⟨dups, hd⟩ := duplicateScan_isSome mapping [] [] (by simp) hsafe
  have hs : validateSRIOV v [nic] mapping crNamespace = some ([], true) :=
    validateSRIOV_no_passthrough v [nic] mapping crNamespace (by
      intro n hn vp2 hvp2
      rw [List.mem_singleton] at hn
      subst hn
      rw [hnic] at hvp2
      cases hvp2
      exact hpass)
  have h1 : withID NetworkTypeID (mappedFailures v [nic] mapping crNamespace dups []) =
      withID NetworkTypeID (validateTargets v crNamespace [(A.Target, A.Type_)]) := by
    rw [mappedFailures_typeID v [nic] mapping crNamespace dups [] hd, hts]
    simp [withID]
  have h2 : withID NetworkTargetID (mappedFailures v [nic] mapping crNamespace dups []) =
      withID NetworkTargetID (validateTargets v crNamespace [(A.Target, A.Type_)]) := by
    rw [mappedFailures_targetID v [nic] mapping crNamespace dups [] hd, hts]
    simp [withID]
  have hstep : ∀ (acc : TargetSet × List ValidationFailure) (a b : Nat) (name : String),
      matchProfile (IndexNetworkByIDAndName mapping).1 (IndexNetworkByIDAndName mapping).2 acc
        ⟨some ⟨a, vp.Id.1⟩, some ⟨b, name⟩⟩ = (TargetSet.set acc.1 A.Target A.Type_, acc.2) := by
    intro acc a b name
    rw [matchProfile_eq]
    simp [resolveProfile, mapByID_get, hA]
  refine ⟨hm, hstep, hts, _, ValidateNetworkMapping_mapped v [nic] mapping crNamespace dups []
    true hfmt hd hs, h1, h2, ?_⟩
  rintro ⟨t, ht, hpod⟩
  have hvalid : (validateNetwork v A.Target A.Type_ crNamespace).2 = true := by
    simp [validateNetwork, ht, hpod]
  rw [h1, h2]
  simp [validateTargets, hvalid, withID]

/-- C17 on the interface net1/prof1 with the identifier "vnic-profile-1", and a list whose
first entry has the name net1/prof1 and the unsupported type "bridge" and whose second entry
has the identifier "vnic-profile-1" and the type "pod". -/
theorem identifier_match_first_witness :
    matchedEntry nameThenID ⟨some "vnic-profile-1", some "prof1", some ⟨some "n1", some "net1"⟩,
        false⟩ ⟨some "n1", some "net1"⟩ =
        some ⟨⟨some ⟨3, "vnic-profile-1"⟩, none⟩, ⟨"a", none⟩, some ⟨4, "pod"⟩⟩ ∧
      (∀ (acc : TargetSet × List ValidationFailure) (a b : Nat) (name : String),
        matchProfile (IndexNetworkByIDAndName nameThenID).1
          (IndexNetworkByIDAndName nameThenID).2 acc
          ⟨some ⟨a, "vnic-profile-1"⟩, some ⟨b, name⟩⟩ =
            (TargetSet.set acc.1 ⟨"a", none⟩ (some ⟨4, "pod"⟩), acc.2)) ∧
      addTargets (IndexNetworkByIDAndName nameThenID).1 (IndexNetworkByIDAndName nameThenID).2 []
        (getRequiredVnicProfiles [nic1]) = [(⟨"a", none⟩, some ⟨4, "pod"⟩)] ∧
      ∃ fs, ValidateNetworkMapping noNetworks [nic1] (some nameThenID) "ns" = some fs ∧
        withID NetworkTypeID fs =
          withID NetworkTypeID (validateTargets noNetworks "ns"
            [(⟨"a", none⟩, some ⟨4, "pod"⟩)]) ∧
        withID NetworkTargetID fs =
          withID NetworkTargetID (validateTargets noNetworks "ns"
            [(⟨"a", none⟩, some ⟨4, "pod"⟩)]) ∧
        ((∃ t, (some ⟨4, "pod"⟩ : Option StrPtr) = some t ∧ t.val = "pod") →
          withID NetworkTypeID fs = [] ∧ withID NetworkTargetID fs = []) :=
  identifier_match_first noNetworks nic1
    ⟨some "vnic-profile-1", some "prof1", some ⟨some "n1", some "net1"⟩, false⟩
    ⟨some "n1", some "net1"⟩ nameThenID "ns"
    ⟨⟨some ⟨3, "vnic-profile-1"⟩, none⟩, ⟨"a", none⟩, some ⟨4, "pod"⟩⟩
    rfl rfl rfl rfl
    (by
      intro m hm n hn
      simp only [nameThenID, List.mem_cons, List.mem_singleton, List.not_mem_nil, or_false]
        at hm
      rcases hm with hm | hm <;> subst hm <;> cases hn
      decide)
    (by unfold DupScanSafe nameThenID; decide)
    (by decide)

/-- C16, as stated, fails: two interfaces matched to two entries with the same target "nad1"
and the unsupported types "bridge" and "macvlan".  `validateNetwork` rejects both pairs, but
the set is keyed by the target: in the order of the interfaces and in the other order of the
two required profiles alike the result has one `NetworkTypeID` failure, for the type written
last, and not two. -/
theorem one_target_two_unsupported_types :
    getRequiredVnicProfiles [nic1, nic2] = [source1, source2] ∧
      ValidateNetworkMappingIn [source1, source2] noNetworks [nic1, nic2] (some twoUnsupported)
          "ns" =
        some [⟨NetworkTypeID, "Network nad1 has unsupported network type: 0x4"⟩] ∧
      ValidateNetworkMappingIn [source2, source1] noNetworks [nic1, nic2] (some twoUnsupported)
          "ns" =
        some [⟨NetworkTypeID, "Network nad1 has unsupported network type: 0x2"⟩] ∧
      (validateNetwork noNetworks ⟨"nad1", none⟩ (some ⟨2, "bridge"⟩) "ns").2 = false ∧
      (validateNetwork noNetworks ⟨"nad1", none⟩ (some ⟨4, "macvlan"⟩) "ns").2 = false := by
  decide

/-- C16, amended: in every run on a present mapping that passes the format check (the
duplicate scan and the SR-IOV check running to their end), whatever the order in which the
required profiles come out of `sourcesSet`, the per-target failures of
`ValidateNetworkMapping`, which stand between the failures of the earlier steps and those of
the SR-IOV check, are those of `validateNetwork` applied once to each key of
`requiredTargetsSet`.  The keys are the targets (a name and a namespace pointer) of the matched
entries, each once, and the type validated with a target is the type of one of the matched
entries with that target: interfaces matched to the same entry are validated once, and of
matched entries with the same target and different types only one pair is validated.  When
the matched entries with the same target all have the same type, the pairs validated are the
distinct pairs of target and type of the matched entries. -/
theorem targets_validated_once_per_target (sources : List Source)
    (v : NetworkMappingValidator) (nics : List Nic)
    (mapping : List NetworkResourceMappingItem) (crNamespace : String)
    (horder : sources.Perm (getRequiredVnicProfiles nics))
    (hfmt : ∀ m ∈ mapping, ∀ n, m.Source.Name = some n → '/' ∈ n.val.data)
    (hsafe : DupScanSafe mapping)
    (hsriov : SriovCompletes v nics mapping crNamespace) :
    ∃ (before fls : List ValidationFailure) (valid : Bool) (ts : TargetSet),
      validateSRIOV v nics mapping crNamespace = some (fls, valid) ∧
      ValidateNetworkMappingIn sources v nics (some mapping) crNamespace =
        some (before ++ validateTargets v crNamespace ts ++ fls) ∧
      (∀ f ∈ before, f.ID = NetworkSourceDuplicateID ∨ f.ID = NetworkMappingID ∨
        f.ID = NetworkMultiplePodTargetsID) ∧
      (ts.map Prod.fst).Nodup ∧
      (∀ k, k ∈ ts.map Prod.fst ↔ ∃ item ∈ resolvedEntries mapping nics, item.Target = k) ∧
      (∀ k t, (k, t) ∈ ts →
        ∃ item ∈ resolvedEntries mapping nics, item.Target = k ∧ item.Type_ = t) ∧
      ((∀ a ∈ resolvedEntries mapping nics, ∀ b ∈ resolvedEntries mapping nics,
          a.Target = b.Target → a.Type_ = b.Type_) →
        ∀ k t, (k, t) ∈ ts ↔
          ∃ item ∈ resolvedEntries mapping nics, item.Target = k ∧ item.Type_ = t) ∧
      validateTargets v crNamespace ts =
        (ts.filter (fun e => !(validateNetwork v e.1 e.2 crNamespace).2)).map
          (fun e => (validateNetwork v e.1 e.2 crNamespace).1) := by
  obtain ⟨dups, hd⟩ := duplicateScan_isSome mapping [] [] (by simp) hsafe
  obtain ⟨⟨fls, valid⟩, hs⟩ := Option.isSome_iff_exists.1 hsriov
  have hmem : ∀ item, item ∈ sources.filterMap
      (resolveProfile (IndexNetworkByIDAndName mapping).1
        (IndexNetworkByIDAndName mapping).2) ↔ item ∈ resolvedEntries mapping nics := by
    intro item
    exact (horder.filterMap _).mem_iff
  have hspec := foldl_set_spec (sources.filterMap
    (resolveProfile (IndexNetworkByIDAndName mapping).1 (IndexNetworkByIDAndName mapping).2))
  have hkeys := foldl_set_keys (sources.filterMap
    (resolveProfile (IndexNetworkByIDAndName mapping).1 (IndexNetworkByIDAndName mapping).2))
  have hfrom : ∀ k t, (k, t) ∈ (sources.filterMap
      (resolveProfile (IndexNetworkByIDAndName mapping).1
        (IndexNetworkByIDAndName mapping).2)).foldl
        (fun acc item => TargetSet.set acc item.Target item.Type_) [] →
      ∃ item ∈ resolvedEntries mapping nics, item.Target = k ∧ item.Type_ = t := by
    intro k t hkt
    obtain ⟨pre, item, post, hitems, hk, ht, _⟩ := (hspec.2 k t).1 hkt
    exact ⟨item, (hmem item).1 (by rw [hitems]; simp), hk, ht⟩
  have hkeys2 : ∀ k, k ∈ ((sources.filterMap
      (resolveProfile (IndexNetworkByIDAndName mapping).1
        (IndexNetworkByIDAndName mapping).2)).foldl
        (fun acc item => TargetSet.set acc item.Target item.Type_) []).map Prod.fst ↔
      ∃ item ∈ resolvedEntries mapping nics, item.Target = k := by
    intro k
    rw [hkeys k]
    constructor
    · rintro ⟨item, hi, hk⟩; exact ⟨item, (hmem item).1 hi, hk⟩
    · rintro ⟨item, hi, hk⟩; exact ⟨item, (hmem item).2 hi, hk⟩
  refine ⟨dups ++
      (sources.filter
        (fun s => (resolveProfile (IndexNetworkByIDAndName mapping).1
          (IndexNetworkByIDAndName mapping).2 s).isNone)).map lacksMappingFailure ++
      (if (getPodNetworks (IndexNetworkByIDAndName mapping).1
          (IndexNetworkByIDAndName mapping).2 nics).length > 1
        then [multiplePodFailure (getPodNetworks (IndexNetworkByIDAndName mapping).1
          (IndexNetworkByIDAndName mapping).2 nics)] else []),
    fls, valid, _, hs, ?_, ?_, hspec.1, hkeys2, hfrom, ?_, validateTargets_eq _ _ _⟩
  · rw [ValidateNetworkMappingIn_mapped sources v nics mapping crNamespace dups fls valid hfmt
      hd hs, addTargets_eq_foldl]
  · intro f hf
    rcases List.mem_append.1 hf with hf | hf
    · rcases List.mem_append.1 hf with hf | hf
      · exact Or.inl (duplicateScan_ids mapping [] [] dups hd f hf)
      · obtain ⟨x, _, hx⟩ := List.mem_map.1 hf
        exact Or.inr (Or.inl (by rw [← hx]; rfl))
    · by_cases hp : (getPodNetworks (IndexNetworkByIDAndName mapping).1
          (IndexNetworkByIDAndName mapping).2 nics).length > 1
      · rw [if_pos hp, List.mem_singleton] at hf
        exact Or.inr (Or.inr (by rw [hf]; rfl))
      · rw [if_neg hp] at hf
        cases hf
  · intro hsame k t
    refine ⟨hfrom k t, ?_⟩
    rintro ⟨item, hi, hk, ht⟩
    obtain ⟨⟨k', t'⟩, hp, hk'⟩ := List.mem_map.1 ((hkeys2 k).2 ⟨item, hi, hk⟩)
    simp only at hk'
    subst hk'
    obtain ⟨item', hi', hk2, ht2⟩ := hfrom _ _ hp
    have : item'.Type_ = item.Type_ := hsame item' hi' item hi (hk2.trans hk.symm)
    rw [← ht, ← this, ht2]
    exact hp

/-- C16, amended, on the two interfaces matched to the entries with the target "nad1" and the
types "bridge" and "macvlan", the profile of the second interface coming first. -/
theorem targets_validated_once_per_target_witness :
    ∃ (before fls : List ValidationFailure) (valid : Bool) (ts : TargetSet),
      validateSRIOV noNetworks [nic1, nic2] twoUnsupported "ns" = some (fls, valid) ∧
      ValidateNetworkMappingIn [source2, source1] noNetworks [nic1, nic2] (some twoUnsupported)
          "ns" =
        some (before ++ validateTargets noNetworks "ns" ts ++ fls) ∧
      (∀ f ∈ before, f.ID = NetworkSourceDuplicateID ∨ f.ID = NetworkMappingID ∨
        f.ID = NetworkMultiplePodTargetsID) ∧
      (ts.map Prod.fst).Nodup ∧
      (∀ k, k ∈ ts.map Prod.fst ↔
        ∃ item ∈ resolvedEntries twoUnsupported [nic1, nic2], item.Target = k) ∧
      (∀ k t, (k, t) ∈ ts →
        ∃ item ∈ resolvedEntries twoUnsupported [nic1, nic2],
          item.Target = k ∧ item.Type_ = t) ∧
      ((∀ a ∈ resolvedEntries twoUnsupported [nic1, nic2],
          ∀ b ∈ resolvedEntries twoUnsupported [nic1, nic2],
          a.Target = b.Target → a.Type_ = b.Type_) →
        ∀ k t, (k, t) ∈ ts ↔
          ∃ item ∈ resolvedEntries twoUnsupported [nic1, nic2],
            item.Target = k ∧ item.Type_ = t) ∧
      validateTargets noNetworks "ns" ts =
        (ts.filter (fun e => !(validateNetwork noNetworks e.1 e.2 "ns").2)).map
          (fun e => (validateNetwork noNetworks e.1 e.2 "ns").1) :=
  targets_validated_once_per_target [source2, source1] noNetworks [nic1, nic2] twoUnsupported
    "ns" (List.Perm.swap source1 source2 [])
    (by
      intro m hm n hn
      simp only [twoUnsupported, List.mem_cons, List.mem_singleton, List.not_mem_nil,
        or_false] at hm
      rcases hm with hm | hm <;> subst hm <;> cases hn)
    (by unfold DupScanSafe twoUnsupported; decide)
    (by unfold SriovCompletes; decide)

/-- C21: a failure whose CheckID is not a key of `checkToAction` is treated as an informational
one.  The lookup gives the zero action `log`, the step of the loop of `processFailures` leaves
`valid` and both messages as they are, so the outcome of a list is the outcome of the list
without its unlisted failures: such a failure never makes the verdict fail and its message is
in neither the warning nor the error message.  A list of unlisted failures only gives the
all-clear verdict. -/
theorem unlisted_check_is_informational (failures : List ValidationFailure) :
    (∀ id, checkToAction id = none → actionOf id = log) ∧
      (∀ (t : Tally) (f : ValidationFailure), checkToAction f.ID = none → tallyStep t f = t) ∧
      tally failures = tally (failures.filter (fun f => (checkToAction f.ID).isSome)) ∧
      messagesOf warn failures =
        messagesOf warn (failures.filter (fun f => (checkToAction f.ID).isSome)) ∧
      messagesOf block failures =
        messagesOf block (failures.filter (fun f => (checkToAction f.ID).isSome)) ∧
      ((∀ f ∈ failures, checkToAction f.ID = none) →
        tally failures = ⟨true, "", ""⟩ ∧
        verdict (tally failures) = (okReason, "All mapping rules checks passed", true)) := by
  have hlog : ∀ id, checkToAction id = none → actionOf id = log := by
    intro id h
    simp [actionOf, h, log]
  have hstep : ∀ (t : Tally) (f : ValidationFailure), checkToAction f.ID = none →
      tallyStep t f = t := by
    intro t f h
    simp [tallyStep, hlog f.ID h]
  have hfold : ∀ (fs : List ValidationFailure) (t : Tally),
      fs.foldl tallyStep t =
        (fs.filter (fun f => (checkToAction f.ID).isSome)).foldl tallyStep t := by
    intro fs
    induction fs with
    | nil => intro t; rfl
    | cons f rest ih =>
      intro t
      cases h : checkToAction f.ID with
      | none => rw [List.foldl_cons, hstep t f h, ih, List.filter_cons]; simp [h]
      | some a => rw [List.foldl_cons, ih, List.filter_cons]; simp [h]
  have hmsg : ∀ a : action, messagesOf a failures =
      messagesOf a (failures.filter (fun f => (checkToAction f.ID).isSome)) := by
    intro a
    unfold messagesOf
    rw [List.filter_filter]
    congr 1
    apply List.filter_congr
    intro f _
    cases h : checkToAction f.ID <;> simp
  refine ⟨hlog, hstep, hfold failures _, hmsg warn, hmsg block, ?_⟩
  intro hall
  have ht : tally failures = ⟨true, "", ""⟩ :=
    foldl_tallyStep_log failures (fun f hf => hlog _ (hall f hf)) _
  exact ⟨ht, by rw [ht]; rfl⟩

/-- C22 at the failing input: two interfaces without passthrough, each matched by identifier to
an entry of type "multus" whose target the provider finds, in a mapping without a repeated key
and whose names all hold a slash.  The profiles are named "x/y" and "z/w", the mapping has
entries for the source names "x/y" and "z/w" with the type left out, and `getPodNetworks`,
which asks the name index for the bare profile name, takes them for pod networks of the two
interfaces: the result is a `NetworkMultiplePodTargetsID` failure, not the empty list. -/
theorem valid_configuration_false_positive :
    (multusAndUnused.filterMap idKey).Nodup ∧ (multusAndUnused.filterMap nameKey).Nodup ∧
      (∀ k ∈ multusAndUnused.filterMap nameKey, '/' ∈ k.data) ∧
      multusAndUnused.find? (fun m => decide (idKey m = some "p1")) =
        some ⟨⟨some ⟨1, "p1"⟩, none⟩, ⟨"nad1", none⟩, some ⟨2, "multus"⟩⟩ ∧
      multusAndUnused.find? (fun m => decide (idKey m = some "p2")) =
        some ⟨⟨some ⟨3, "p2"⟩, none⟩, ⟨"nad2", none⟩, some ⟨4, "multus"⟩⟩ ∧
      isFound ((networksWithConfig []).Find "nad1" "ns") = true ∧
      isFound ((networksWithConfig []).Find "nad2" "ns") = true ∧
      ValidateNetworkMapping (networksWithConfig []) [nicSlash1, nicSlash2]
          (some multusAndUnused) "ns" =
        some [⟨NetworkMultiplePodTargetsID,
          "There are more than one source networks mapped to a pod network: [x/y z/w] "⟩] := by
  decide

end VmImport
